import Mathlib

/-!
# Battleship guesser: a verification development

Shallow embedding of `hashmap.c` and of the move-generation functions of
`battleship.c`, followed by the theorems that relate them to the written
specification.

Conventions of the embedding.

* C `int` values that are never negative in the program (board cells, ship
  indices, placement codes, loop counters) are natural numbers; on them C's `/`
  and `%` are the natural-number quotient and remainder.
* C `int` values that can be negative (map keys with the `-1` sentinel, map
  values, counters, the returned move) are integers. Additions on counters are
  taken modulo `2^32` into the signed range (`wrap32`).
* A C array is a function of its index; the live prefix
  `shipConfigs[s][0 .. numShipConfigs[s]-1]` is the list `shipConfigs s`.
* A `for` loop is a left fold over the list of its index values; a loop that
  leaves through `return` is a `List.any` over its index values.
* Calls to `printf`, `malloc`, `free` and `clock` are not modelled.
-/

namespace Battleship

/-! ## Machine arithmetic and loops -/

/-- Two's-complement reduction of an integer to the range of a 32-bit `int`. -/
def wrap32 (z : Int) : Int := (z + 2147483648) % 4294967296 - 2147483648

/-- The loop `for (i = lo; i < hi; i++) st = body i st`. -/
def forLoop {σ : Type} (lo hi : Nat) (body : Nat → σ → σ) (init : σ) : σ :=
  (List.range' lo (hi - lo)).foldl (fun st i => body i st) init

/-! ## hashmap.c -/

/-- Size of one level of the hashmap: `int size = 1024`. -/
def size : Int := 1024

/-- Knuth hash function `(a*2654435761) % size`. The constant does not fit an
`int`, so the product is a 64-bit one and cannot overflow for a 32-bit `a`;
`%` is C's truncating remainder. -/
def hash (a : Int) : Int := Int.tmod (a * 2654435761) size

/-- The `key` and `val` fields of `struct entry`. The `next` field is `NULL` in
every entry of a map this embedding represents: the one statement that makes it
non-`NULL`, `current->next = ent` in `addEntry`, stores the address of the
local variable `e` of `put`, which is dead once `put` returns; `addEntry` has
no result (`none`) there. -/
structure entry where
  key : Int
  val : Int
deriving DecidableEq

/-- The array `struct entry *map`, as a function of the address. Addresses
computed from non-negative keys lie in `0 .. 1023`. -/
abbrev Hashmap := Int → entry

/-- Allocation by `initializeHashmap`: every `key` is `-1` and every `next` is
`NULL`; `val` is left as `malloc` returned it, here `junk`. -/
def initializeHashmap (junk : Int → Int) : Hashmap := fun i => ⟨-1, junk i⟩

/-- Adds an entry to the map (`addEntry`). Case 1, empty address: the entry is
copied in. Otherwise the `while` loop does not iterate, as `current->next` is
`NULL`. Case 2, same key: the value is replaced. Case 3, another key at the
address: the map would link the caller's local entry; no result. -/
def addEntry (ent : entry) (map : Hashmap) : Option Hashmap :=
  let address := hash ent.key
  let current := map address
  if current.key = -1 then some (Function.update map address ent)
  else if ent.key = current.key then
    some (Function.update map address ⟨current.key, ent.val⟩)
  else none

/-- Lookup `get`: `comparison = key - current->key`; the `while` loop does not
iterate, as `current->next` is `NULL`. -/
def get (key : Int) (map : Hashmap) : Int :=
  let current := map (hash key)
  let comparison := key - current.key
  if comparison = 0 then current.val else -1

/-- Insertion `put`: builds the entry and calls `addEntry`. -/
def put (key value : Int) (map : Hashmap) : Option Hashmap :=
  addEntry ⟨key, value⟩ map

/-! ## battleship.c: constants and global state -/

/-- Side length of the board. -/
def BOARD_SIDELENGTH : Nat := 10

/-- Amount of padding on each side of the board. -/
def BOARD_PADDING : Nat := 4

/-- Maximal number of configurations tested in a round. -/
def MAX_CONFIGS_TESTED : Nat := 10000000

/-- The status matrix `S[row][column]` with 0 = padding, 1 = unguessed,
2 = missed, 3 = hit and not on a sunk ship, 4 = hit on a sunk ship. -/
abbrev Board := Nat → Nat → Nat

/-- The lists `shipConfigs[s][0 .. numShipConfigs[s]-1]`, by ship index. -/
abbrev Configs := Nat → List Nat

/-- The board after `init`: every cell of the 18x18 array is set to 0,
padding, and then the inner 10x10 cells to 1, unguessed. -/
def initBoard : Board :=
  fun r c => if 4 ≤ r ∧ r < 14 ∧ 4 ≤ c ∧ c < 14 then 1 else 0

/-- Length of a ship from its index, in order 2, 3, 3, 4, 5; `0` for any
other index. -/
def shipLengthFromIndex (i : Nat) : Nat :=
  match i with
  | 0 => 2
  | 1 => 3
  | 2 => 3
  | 3 => 4
  | 4 => 5
  | _ => 0

/-- The pair of statements `shipConfigs[s][numShipConfigs[s]] = v;
numShipConfigs[s]++`. -/
def appendConfig (shipConfigs : Configs) (s v : Nat) : Configs :=
  fun t => if t = s then shipConfigs t ++ [v] else shipConfigs t

/-! ## generateShipConfigs -/

/-- Body of the two loops of `generateShipConfigs` for the spot in column `x`
and row `y` of the padded board. -/
def generateShipConfigsBody (S : Board) (x y : Nat) (shipConfigs : Configs) : Configs :=
  let indexMultiplied := ((y - BOARD_PADDING) * 10 + x - BOARD_PADDING) * 10
  -- testing 5 ship
  let shipConfigs :=
    if (S y x * S (y + 1) x * S (y + 2) x * S (y + 3) x * S (y + 4) x) % 2 = 1
    then appendConfig shipConfigs 4 (indexMultiplied + 0) else shipConfigs
  let shipConfigs :=
    if (S y x * S y (x + 1) * S y (x + 2) * S y (x + 3) * S y (x + 4)) % 2 = 1
    then appendConfig shipConfigs 4 (indexMultiplied + 1) else shipConfigs
  -- testing 4 ship
  let shipConfigs :=
    if (S y x * S (y + 1) x * S (y + 2) x * S (y + 3) x) % 2 = 1
    then appendConfig shipConfigs 3 (indexMultiplied + 0) else shipConfigs
  let shipConfigs :=
    if (S y x * S y (x + 1) * S y (x + 2) * S y (x + 3)) % 2 = 1
    then appendConfig shipConfigs 3 (indexMultiplied + 1) else shipConfigs
  -- testing 3 ships
  let shipConfigs :=
    if (S y x * S (y + 1) x * S (y + 2) x) % 2 = 1
    then appendConfig (appendConfig shipConfigs 2 (indexMultiplied + 0)) 1 (indexMultiplied + 0)
    else shipConfigs
  let shipConfigs :=
    if (S y x * S y (x + 1) * S y (x + 2)) % 2 = 1
    then appendConfig (appendConfig shipConfigs 2 (indexMultiplied + 1)) 1 (indexMultiplied + 1)
    else shipConfigs
  -- testing 2 ship
  let shipConfigs :=
    if (S y x * S (y + 1) x) % 2 = 1
    then appendConfig shipConfigs 0 (indexMultiplied + 0) else shipConfigs
  let shipConfigs :=
    if (S y x * S y (x + 1)) % 2 = 1
    then appendConfig shipConfigs 0 (indexMultiplied + 1) else shipConfigs
  shipConfigs

/-- Generates all valid configs for each ship on the board: the counts are
reset, then every spot is visited, columns in the outer loop and rows in the
inner one. -/
def generateShipConfigs (S : Board) : Configs :=
  forLoop BOARD_PADDING (BOARD_SIDELENGTH + BOARD_PADDING)
    (fun x shipConfigs =>
      forLoop BOARD_PADDING (BOARD_SIDELENGTH + BOARD_PADDING)
        (fun y shipConfigs => generateShipConfigsBody S x y shipConfigs) shipConfigs)
    (fun _ => [])

/-! ## shipConfigsCollide, determineShipCollisions and testCollide -/

/-- Returns 1 if the two ships collide in the given configurations and 0
otherwise: every location of ship 1 is compared to every location of ship 2. -/
def shipConfigsCollide (s1 s2 c1 c2 : Nat) : Nat :=
  let x1 := (c1 / 10) % 10
  let y1 := c1 / 100
  let x2 := (c2 / 10) % 10
  let y2 := c2 / 100
  let o1 := c1 % 10
  let o2 := c2 % 10
  let ship1Length := shipLengthFromIndex s1
  let ship2Length := shipLengthFromIndex s2
  if (List.range ship1Length).any (fun l1 =>
      (List.range ship2Length).any (fun l2 =>
        let ship1Location := if o1 = 1 then y1 * 10 + x1 + l1 else (y1 + l1) * 10 + x1
        let ship2Location := if o2 = 1 then y2 * 10 + x2 + l2 else (y2 + l2) * 10 + x2
        decide (ship1Location = ship2Location)))
  then 1 else 0

/-- Determines which ship configurations collide with each other: for every
pair of ships `s1 < s2` and every pair of their configurations, a colliding
pair is stored in the map under the key
`s1 * 10000000 + s2 * 1000000 + ship1Config * 100 + ship2Config` with the value
67. The loops over `c1` and `c2` visit the entries of the two lists in order. -/
def determineShipCollisions (shipConfigs : Configs) (shipCollisionMap : Hashmap) :
    Option Hashmap :=
  forLoop 0 5 (fun s1 map =>
    forLoop (s1 + 1) 5 (fun s2 map =>
      (shipConfigs s1).foldl (fun map ship1Config =>
        (shipConfigs s2).foldl (fun map ship2Config =>
          if shipConfigsCollide s1 s2 ship1Config ship2Config ≠ 0 then
            let keyVal : Int :=
              ((s1 * 10000000 + s2 * 1000000 + ship1Config * 100 + ship2Config : Nat) : Int)
            Option.bind map (put keyVal 67)
          else map) map) map) map)
    (some shipCollisionMap)

/-- The value `testCollide` prints: what the collision map holds for the two
ships in the given configurations, `-1` when it holds nothing. -/
def testCollide (x1 y1 x2 y2 s1 s2 o1 o2 : Nat) (shipCollisionMap : Hashmap) : Int :=
  let ship1Config := y1 * 100 + x1 * 10 + o1
  let ship2Config := y2 * 100 + x2 * 10 + o2
  let keyVal : Int :=
    ((s1 * 10000000 + s2 * 1000000 + ship1Config * 100 + ship2Config : Nat) : Int)
  get keyVal shipCollisionMap

/-! ## validConfig -/

/-- Body of the loop over `l` in `validConfig`, on the pair of `currentCoord`
and `coveredSquares`: the current square is marked and the coordinate moves
one square right or one row up. -/
def markSquare (right : Nat) (st : Nat × (Nat → Nat)) : Nat × (Nat → Nat) :=
  let coveredSquares := Function.update st.2 st.1 1
  (if right ≠ 0 then st.1 + 1 else st.1 + 10, coveredSquares)

/-- The squares covered by the five tested configurations: the array
`coveredSquares` of `validConfig` after its marking loops. Its 100 cells are
the indices below 100. -/
def coveredSquares (testedShipConfigs : Nat → Nat) : Nat → Nat :=
  forLoop 0 5 (fun s coveredSquares =>
      let currentCoord := testedShipConfigs s / 10
      let right := testedShipConfigs s % 10
      (forLoop 0 (shipLengthFromIndex s) (fun _ st => markSquare right st)
        (currentCoord, coveredSquares)).2)
    (fun _ => 0)

/-- First loop nest of `validConfig`: some pair of ships `s1 < s2` collides. -/
def anyCollision (testedShipConfigs : Nat → Nat) : Bool :=
  (List.range' 0 5).any (fun s1 =>
    (List.range' (s1 + 1) (5 - (s1 + 1))).any (fun s2 =>
      decide (shipConfigsCollide s1 s2 (testedShipConfigs s1) (testedShipConfigs s2) ≠ 0)))

/-- Last loop nest of `validConfig`: some square of the board has status 3 and
is not covered. -/
def anyUncoveredHit (S : Board) (coveredSquares : Nat → Nat) : Bool :=
  (List.range' BOARD_PADDING BOARD_SIDELENGTH).any (fun x =>
    (List.range' BOARD_PADDING BOARD_SIDELENGTH).any (fun y =>
      let spotID := 10 * (y - BOARD_PADDING) + x - BOARD_PADDING
      decide (S y x = 3 ∧ coveredSquares spotID = 0)))

/-- Tests whether the given configuration of all 5 ships is a valid board
configuration: 0 as soon as two ships collide, 0 as soon as a square with
status 3 is not covered, 1 otherwise. -/
def validConfig (S : Board) (testedShipConfigs : Nat → Nat) : Nat :=
  if anyCollision testedShipConfigs then 0
  else if anyUncoveredHit S (coveredSquares testedShipConfigs) then 0
  else 1

/-! ## bruteForceTestConfigs -/

/-- Body of the loop over `s` run for a valid configuration: the frequency
recorded under the key `s * 1000 + testedShipConfigs[s]` is set to 1 when
absent and incremented (an `int` addition) otherwise. -/
def incrementFrequency (testedShipConfigs : Nat → Nat) (s : Nat) (map : Hashmap) :
    Option Hashmap :=
  let id : Int := ((s * 1000 + testedShipConfigs s : Nat) : Int)
  let previousFrequency := get id map
  if previousFrequency = -1 then put id 1 map
  else put id (wrap32 (previousFrequency + 1)) map

/-- The test of one configuration, on the pair of `validConfigs` and the
frequency map: a valid configuration increments `validConfigs` (an `int`
addition) and the frequency of each of its five placements. -/
def testConfig (S : Board) (testedShipConfigs : Nat → Nat) (st : Int × Hashmap) :
    Option (Int × Hashmap) :=
  if validConfig S testedShipConfigs ≠ 0 then
    let validConfigs := wrap32 (st.1 + 1)
    (forLoop 0 5 (fun s map => Option.bind map (incrementFrequency testedShipConfigs s))
      (some st.2)).map (fun map => (validConfigs, map))
  else some st

/-- Brute force generates and tests all remaining configs: five nested loops,
each setting its cell of `testedShipConfigs` (to the recorded location for a
sunk ship) before the inner loops run. The result is the pair of the returned
`validConfigs` and the frequency map as the function leaves it. All five cells
of the local array `testedShipConfigs` are written before `validConfig` reads
them. -/
def bruteForceTestConfigs (S : Board) (sunken sunkenLocations : Nat → Nat)
    (shipConfigs : Configs) (shipPositionFrequencyMap : Hashmap) : Option (Int × Hashmap) :=
  let numShipConfigsUpdated : Nat → Nat :=
    fun i => if sunken i ≠ 0 then 1 else (shipConfigs i).length
  let tested : Nat → Nat → Nat :=
    fun i c => if sunken i ≠ 0 then sunkenLocations i else (shipConfigs i).getD c 0
  forLoop 0 (numShipConfigsUpdated 0) (fun c1 st =>
    let t0 := Function.update (fun _ => 0) 0 (tested 0 c1)
    forLoop 0 (numShipConfigsUpdated 1) (fun c2 st =>
      let t1 := Function.update t0 1 (tested 1 c2)
      forLoop 0 (numShipConfigsUpdated 2) (fun c3 st =>
        let t2 := Function.update t1 2 (tested 2 c3)
        forLoop 0 (numShipConfigsUpdated 3) (fun c4 st =>
          let t3 := Function.update t2 3 (tested 3 c4)
          forLoop 0 (numShipConfigsUpdated 4) (fun c5 st =>
            let t4 := Function.update t3 4 (tested 4 c5)
            Option.bind st (testConfig S t4)) st) st) st) st)
    (some (0, shipPositionFrequencyMap))

/-! ## calculateBestMove -/

/-- Body of the loop over `l` in `calculateBestMove`, on the pair of
`currentCoord` and `moveFrequencies`: the frequency of the configuration is
added to the current square (an `int` addition) and the coordinate moves one
square right or one row up. -/
def addFrequency (right : Nat) (configFrequency : Int) (st : Nat × (Nat → Int)) :
    Nat × (Nat → Int) :=
  let moveFrequencies := Function.update st.2 st.1 (wrap32 (st.2 st.1 + configFrequency))
  (if right ≠ 0 then st.1 + 1 else st.1 + 10, moveFrequencies)

/-- Body of the loop over `c` in `calculateBestMove` for ship `s` and the
configuration `currConfig = shipConfigs[s][c]`: when the recorded frequency is
positive it is added to every square of the configuration. -/
def addConfigFrequency (shipPositionFrequencyMap : Hashmap) (s : Nat)
    (moveFrequencies : Nat → Int) (currConfig : Nat) : Nat → Int :=
  let shipLength := shipLengthFromIndex s
  let shipMultiplied := s * 1000
  let configFrequency :=
    get ((shipMultiplied + currConfig : Nat) : Int) shipPositionFrequencyMap
  let currentCoord := currConfig / 10
  let right := currConfig % 10
  if configFrequency > 0 then
    (forLoop 0 shipLength (fun _ st => addFrequency right configFrequency st)
      (currentCoord, moveFrequencies)).2
  else moveFrequencies

/-- The array `moveFrequencies` of `calculateBestMove` after its first loop
nest: the 100 cells are the indices below 100. Sunk ships are skipped; the
loop over `c` visits the entries of the list of ship `s` in order. -/
def moveFrequencies (sunken : Nat → Nat) (shipConfigs : Configs)
    (shipPositionFrequencyMap : Hashmap) : Nat → Int :=
  forLoop 0 5 (fun s moveFrequencies =>
      if sunken s = 0 then
        (shipConfigs s).foldl (addConfigFrequency shipPositionFrequencyMap s) moveFrequencies
      else moveFrequencies)
    (fun _ => 0)

/-- Body of the scan of `calculateBestMove` for square `i`, on the pair of
`bestMove` and `bestDifference`. The `double` values of the function are
integers and halves of integers below `2^33` in size, which `double`
represents exactly; they are rational numbers here. -/
def scanSquare (S : Board) (moveFrequencies : Nat → Int) (targetHits : ℚ) (i : Nat)
    (st : Int × ℚ) : Int × ℚ :=
  if S (i / 10 + BOARD_PADDING) (i % 10 + BOARD_PADDING) = 1 then
    if moveFrequencies i ≠ 0 then
      let diff : ℚ := |(moveFrequencies i : ℚ) - targetHits|
      if diff < st.2 then ((i : Int), diff) else st
    else st
  else st

/-- Finds the unguessed square whose number of hits is closest to
`totalTested / 2`; `bestMove` starts at `-1` and `bestDifference` at
`__INT_MAX__`. -/
def calculateBestMove (S : Board) (sunken : Nat → Nat) (shipConfigs : Configs)
    (shipPositionFrequencyMap : Hashmap) (totalTested : Int) : Int :=
  let moveFrequencies := moveFrequencies sunken shipConfigs shipPositionFrequencyMap
  let targetHits : ℚ := (totalTested : ℚ) / 2
  (forLoop 0 (BOARD_SIDELENGTH * BOARD_SIDELENGTH)
    (fun i st => scanSquare S moveFrequencies targetHits i st) (-1, 2147483647)).1

/-! ## Notions of the specification -/

/-- A board is well formed when, within the 18x18 array, the border cells are
Padding (0) and the inner cells hold a state in 1..4. -/
def wellFormed (S : Board) : Prop :=
  ∀ r, r < 18 → ∀ c, c < 18 →
    if 4 ≤ r ∧ r < 14 ∧ 4 ≤ c ∧ c < 14 then 1 ≤ S r c ∧ S r c ≤ 4 else S r c = 0

instance (S : Board) : Decidable (wellFormed S) := by
  unfold wellFormed; infer_instance

/-- The footprint of a placement: the squares `(column, row)` of the inner
board, 0-based, that a ship of index `s` occupies when its anchor and
orientation are coded by `c = y*100 + x*10 + o`; orientation 1 extends
rightward from the anchor `(x, y)`, orientation 0 upward. -/
def footprint (s c : Nat) : List (Nat × Nat) :=
  (List.range (shipLengthFromIndex s)).map (fun l =>
    if c % 10 = 1 then ((c / 10) % 10 + l, c / 100) else ((c / 10) % 10, c / 100 + l))

/-- The code `c` has orientation 0 or 1 and the footprint of ship `s` placed
by it lies inside the 10x10 inner board. -/
def insideBoard (s c : Nat) : Prop :=
  c % 10 ≤ 1 ∧ ∀ sq ∈ footprint s c, sq.1 < 10 ∧ sq.2 < 10

instance (s c : Nat) : Decidable (insideBoard s c) := by
  unfold insideBoard; infer_instance

/-- Fleet validity as the specification words it, for one placement per ship:
(a) no two of the five footprints share a square, and (b) every inner square
whose state is HitUnresolved (3) is covered by at least one of the five
footprints. -/
def validFleet (S : Board) (t : Nat → Nat) : Prop :=
  (∀ s1, s1 < 5 → ∀ s2, s2 < 5 → s1 ≠ s2 →
      ∀ sq ∈ footprint s1 (t s1), sq ∉ footprint s2 (t s2)) ∧
    (∀ x, x < 10 → ∀ y, y < 10 → S (y + BOARD_PADDING) (x + BOARD_PADDING) = 3 →
      ∃ s, s < 5 ∧ (x, y) ∈ footprint s (t s))

/-- The candidate placements of ship `s` in the search: its whole placement
list when it is not sunk, the single placement `sunkenLocations[s]` when it
is. -/
def candidates (sunken sunkenLocations : Nat → Nat) (shipConfigs : Configs) (s : Nat) :
    List Nat :=
  if sunken s ≠ 0 then [sunkenLocations s] else shipConfigs s

/-- The fleet with placements `p0 .. p4` for the ships 0 to 4, as a function of
the ship index. -/
def fleet (p0 p1 p2 p3 p4 : Nat) : Nat → Nat :=
  Function.update (Function.update (Function.update (Function.update
    (Function.update (fun _ => 0) 0 p0) 1 p1) 2 p2) 3 p3) 4 p4

/-- The cross product of the five candidate lists, in the order of the nested
loops; a placement that is listed twice gives its tuples twice. -/
def crossProduct (cand : Nat → List Nat) : List (Nat → Nat) :=
  (cand 0).flatMap (fun p0 => (cand 1).flatMap (fun p1 => (cand 2).flatMap (fun p2 =>
    (cand 3).flatMap (fun p3 => (cand 4).map (fun p4 => fleet p0 p1 p2 p3 p4)))))

/-- Number of fleets of the list `ts` that `validConfig` accepts. -/
def validCount (S : Board) (ts : List (Nat → Nat)) : Nat :=
  (ts.filter (fun t => decide (validConfig S t = 1))).length

/-- Number of fleets of the list `ts` that `validConfig` accepts and in which
ship `s` occupies the placement `p`. -/
def occupiedCount (S : Board) (s p : Nat) (ts : List (Nat → Nat)) : Nat :=
  (ts.filter (fun t => decide (validConfig S t = 1) && decide (t s = p))).length

/-- Square `i`, in row `i / 10` and column `i % 10`, lies in the footprint of
ship `s` placed by `p`. -/
def covers (s p i : Nat) : Bool := decide ((i % 10, i / 10) ∈ footprint s p)

/-- The frequency recorded for ship `s` at placement `p`, an absent entry
(`get` returns `-1`) counting as 0. -/
def recordedFrequency (map : Hashmap) (s p : Nat) : Int :=
  if get ((s * 1000 + p : Nat) : Int) map = -1 then 0
  else get ((s * 1000 + p : Nat) : Int) map

/-- The coverage count of square `i` as claim C10 words it: the sum, over every
ship `s` and every placement of its list whose footprint covers `i`, of the
recorded frequency. -/
def coverageOverAllShips (shipConfigs : Configs) (map : Hashmap) (i : Nat) : Int :=
  ((List.range 5).map (fun s =>
    (((shipConfigs s).filter (fun p => covers s p i)).map (recordedFrequency map s)).sum)).sum

/-- The frequency recorded for ship `s` at placement `p` when it is positive,
and 0 otherwise. -/
def positiveFrequency (map : Hashmap) (s p : Nat) : Int :=
  if get ((s * 1000 + p : Nat) : Int) map > 0 then get ((s * 1000 + p : Nat) : Int) map
  else 0

/-- The sum, over every ship `s` that is not sunk and every placement of its
list whose footprint covers `i`, of the positive recorded frequency. -/
def coverageOverUnsunkShips (sunken : Nat → Nat) (shipConfigs : Configs) (map : Hashmap)
    (i : Nat) : Int :=
  ((List.range 5).map (fun s =>
    if sunken s = 0 then
      (((shipConfigs s).filter (fun p => covers s p i)).map (positiveFrequency map s)).sum
    else 0)).sum

/-! ## Auxiliary notions of the proofs -/

/-- Every code the loops of `generateShipConfigs` can store, in the order of
the scan: for each spot, orientation 0 and then orientation 1. -/
def allCodes : List Nat :=
  (List.range' 4 10).flatMap (fun x => (List.range' 4 10).flatMap (fun y =>
    [((y - 4) * 10 + x - 4) * 10 + 0, ((y - 4) * 10 + x - 4) * 10 + 1]))

/-- State of the `l`-th square of the placement coded `c`, read in the padded
board. -/
def cellOf (S : Board) (c l : Nat) : Nat :=
  if c % 10 = 1 then S (c / 100 + 4) ((c / 10) % 10 + 4 + l)
  else S (c / 100 + 4 + l) ((c / 10) % 10 + 4)

/-- All squares under ship `s` placed by `c` hold an odd state. -/
def fits (S : Board) (s c : Nat) : Bool :=
  (List.range (shipLengthFromIndex s)).all (fun l => decide (cellOf S c l % 2 = 1))

/-- The keys `s * 1000 + p` of ships 0 to 4 at placement codes `p` below 1000
with orientation 0 or 1. -/
def frequencyKey (k : Int) : Prop := 0 ≤ k ∧ k < 5000 ∧ k % 10 ≤ 1

/-- Every occupied address of the map holds a frequency key, at the address
that is the hash of the key. -/
def frequencyMap (map : Hashmap) : Prop :=
  ∀ a, (map a).key = -1 ∨ (frequencyKey (map a).key ∧ hash (map a).key = a)

/-- The keys under which `testConfig` records the fleet `t`. -/
def fleetKeys (t : Nat → Nat) : List Int :=
  (List.range 5).map (fun s => ((s * 1000 + t s : Nat) : Int))

/-- Number of fleets of the list `ts` that `validConfig` accepts and that are
recorded under the key `k`. -/
def keyCount (S : Board) (k : Int) (ts : List (Nat → Nat)) : Nat :=
  (ts.filter (fun t => decide (validConfig S t = 1) && decide (k ∈ fleetKeys t))).length

/-- The value `incrementFrequency` stores over the value `v` it reads. -/
def incremented (v : Int) : Int := if v = -1 then 1 else wrap32 (v + 1)

/-- Every placement of the fleet has orientation 0 or 1 and a code below
1000. -/
def fleetCodes (t : Nat → Nat) : Prop := ∀ s, s < 5 → t s % 10 ≤ 1 ∧ t s / 100 ≤ 9

/-- State of the search after the fleets `ts`: the map is a frequency map, the
counter is the number of valid fleets, and every key reads as the number of
valid fleets recorded under it, or as `-1` when there is none. -/
def searchState (S : Board) (ts : List (Nat → Nat)) (st : Int × Hashmap) : Prop :=
  frequencyMap st.2 ∧ st.1 = (validCount S ts : Int) ∧
    ∀ k, k ≠ -1 → get k st.2 = if keyCount S k ts = 0 then -1 else (keyCount S k ts : Int)

/-! ## States of the examples -/

/-- A frequency map for the examples: a fresh map in which the key of ship 0
at placement 0 holds the value `v`. -/
def singleFrequency (v : Int) : Hashmap :=
  Function.update (initializeHashmap (fun _ => 0)) (hash 0) ⟨0, v⟩

/-- Placement lists for the examples: ship 0 has the one placement 0, upward
from the square (0,0), and the other ships have none. -/
def singleConfig : Configs := fun s => if s = 0 then [0] else []

/-- Sunk flags for the examples: every ship but ship 0 is sunk. -/
def exampleSunken : Nat → Nat := fun s => if s = 0 then 0 else 1

/-- Recorded locations for the examples: ship `s` stands upward from row 0 in
column `s`. -/
def exampleLocations : Nat → Nat := fun s => s * 10

/-- Placement lists for the examples: ship 0 may stand upward from (0,0), lie
rightward from (0,0), where it meets ship 1, or stand upward from (5,0). -/
def exampleConfigs : Configs := fun s => if s = 0 then [0, 1, 50] else []

/-- A board for the examples: the squares (0,0), (1,0), (0,1), (1,1), (1,2)
and (1,3) are unguessed and every other square of the inner board is a miss. -/
def cornerBoard : Board :=
  fun r c =>
    if 4 ≤ r ∧ r < 14 ∧ 4 ≤ c ∧ c < 14 then
      if (r = 4 ∧ c = 4) ∨ (r = 4 ∧ c = 5) ∨ (r = 5 ∧ c = 4) ∨ (r = 5 ∧ c = 5) ∨
        (r = 6 ∧ c = 5) ∨ (r = 7 ∧ c = 5) then 1 else 2
    else 0

/-! ## numConfigsToBeTested and randomlyTestConfigs -/

/-- What is assumed of `double` arithmetic: `round` sends the exact result of
an operation to the `double` the operation returns, and a natural number up to
`2^53` is a `double`, so it is returned as it is. -/
def exactOnIntegers (round : ℚ → ℚ) : Prop :=
  ∀ n : Nat, n ≤ 9007199254740992 → round (n : ℚ) = (n : ℚ)

/-- Returns the amount of configurations to be tested in a round: the `double`
`num` starts at 1 and is multiplied by `numShipConfigs[i]` for every ship that
is not sunk. -/
def numConfigsToBeTested (round : ℚ → ℚ) (sunken : Nat → Nat) (shipConfigs : Configs) : ℚ :=
  forLoop 0 5 (fun i num =>
    if sunken i = 0 then round (num * ((shipConfigs i).length : ℚ)) else num) 1

/-- The two random generators the sampled search calls, as the sequences of the
values their successive calls return. -/
structure RandomSource where
  genrand_int32 : Nat → Nat
  rand : Nat → Nat

/-- Body of the loop over `j` in `randomlyTestConfigs`, on the triple of
`testedShipConfigs` and the numbers of calls made so far to `genrand_int32` and
to `rand`. The statement `int index = genrand_int32() % numShipConfigs[j]` runs
for every ship, sunk or not; a division by zero has no result. -/
def selectConfig (src : RandomSource) (sunken sunkenLocations : Nat → Nat)
    (shipConfigs : Configs) (j : Nat) (st : (Nat → Nat) × Nat × Nat) :
    Option ((Nat → Nat) × Nat × Nat) :=
  if (shipConfigs j).length = 0 then none
  else
    let _index := src.genrand_int32 st.2.1 % (shipConfigs j).length
    if sunken j = 0 then
      some (Function.update st.1 j
        ((shipConfigs j).getD (src.rand st.2.2 % (shipConfigs j).length) 0),
        st.2.1 + 1, st.2.2 + 1)
    else some (Function.update st.1 j (sunkenLocations j), st.2.1 + 1, st.2.2)

/-- Body of the outer loop of `randomlyTestConfigs`, on the pair of the search
state (`validConfigs` and the frequency map) and the numbers of calls made to
the two generators: a configuration is selected for each of the 5 ships and
tested. -/
def randomTrial (S : Board) (src : RandomSource) (sunken sunkenLocations : Nat → Nat)
    (shipConfigs : Configs) (st : (Int × Hashmap) × Nat × Nat) :
    Option ((Int × Hashmap) × Nat × Nat) :=
  (forLoop 0 5 (fun j sel => Option.bind sel (selectConfig src sunken sunkenLocations shipConfigs j))
      (some ((fun _ => 0), st.2.1, st.2.2))).bind
    (fun sel => (testConfig S sel.1 st.1).map (fun res => (res, sel.2.1, sel.2.2)))

/-- Randomly generates and tests `MAX_CONFIGS_TESTED` configs. The result is
the pair of the returned `validConfigs` and the frequency map as the function
leaves it. -/
@[irreducible]
def randomlyTestConfigs (S : Board) (src : RandomSource) (sunken sunkenLocations : Nat → Nat)
    (shipConfigs : Configs) (shipPositionFrequencyMap : Hashmap) : Option (Int × Hashmap) :=
  (forLoop 0 MAX_CONFIGS_TESTED
    (fun _ st => Option.bind st (randomTrial S src sunken sunkenLocations shipConfigs))
    (some ((0, shipPositionFrequencyMap), 0, 0))).map (fun st => st.1)

/-! ## The global state, generateMove, promptGuess and promptShipSinkage -/

/-- The global variables of `battleship.c`. A map is `none` when it is in no
state this embedding represents: before its allocation, after `free`, and once
`addEntry` has linked a dead local entry into it. -/
structure Game where
  S : Board
  sunken : Nat → Nat
  sunkenLocations : Nat → Nat
  shipConfigs : Configs
  shipCollisionMap : Option Hashmap
  shipPositionFrequencyMap : Option Hashmap
  numGuesses : Int

/-- What a move-generation pass takes from outside the global state: the
contents `malloc` returns for the two maps and the two random generators. -/
structure Environment where
  collisionJunk : Int → Int
  frequencyJunk : Int → Int
  random : RandomSource

/-- `generateShipConfigs` on the global state: it writes `shipConfigs` and
`numShipConfigs`. -/
def Game.generateShipConfigs (g : Game) : Game :=
  { g with shipConfigs := Battleship.generateShipConfigs g.S }

/-- `determineShipCollisions` on the global state: it writes the collision
map. -/
def Game.determineShipCollisions (g : Game) : Game :=
  { g with shipCollisionMap :=
      g.shipCollisionMap.bind (Battleship.determineShipCollisions g.shipConfigs) }

/-- `validConfig` on the global state: it writes its local array only. -/
def Game.validConfig (g : Game) (testedShipConfigs : Nat → Nat) : Nat × Game :=
  (Battleship.validConfig g.S testedShipConfigs, g)

/-- `bruteForceTestConfigs` on the global state: it returns `validConfigs` and
writes the frequency map. -/
def Game.bruteForceTestConfigs (g : Game) : Option Int × Game :=
  let res := g.shipPositionFrequencyMap.bind
    (Battleship.bruteForceTestConfigs g.S g.sunken g.sunkenLocations g.shipConfigs)
  (res.map (fun r => r.1), { g with shipPositionFrequencyMap := res.map (fun r => r.2) })

/-- `randomlyTestConfigs` on the global state: it returns `validConfigs` and
writes the frequency map. -/
def Game.randomlyTestConfigs (src : RandomSource) (g : Game) : Option Int × Game :=
  let res := g.shipPositionFrequencyMap.bind
    (Battleship.randomlyTestConfigs g.S src g.sunken g.sunkenLocations g.shipConfigs)
  (res.map (fun r => r.1), { g with shipPositionFrequencyMap := res.map (fun r => r.2) })

/-- `calculateBestMove` on the global state: it reads the board, the lists and
the frequency map and writes its local array only. -/
def Game.calculateBestMove (g : Game) (totalTested : Int) : Option Int × Game :=
  (g.shipPositionFrequencyMap.map
    (fun map => Battleship.calculateBestMove g.S g.sunken g.shipConfigs map totalTested), g)

/-- Overall function for generating the next move: the two maps are allocated,
the configurations and collisions generated, the configurations tested at
random when `numConfigsToBeTested() > MAX_CONFIGS_TESTED` and by brute force
otherwise, the best move calculated and the two maps freed. The move reads the
frequency map and never the collision map. The result is the returned move,
`none` when the frequency map is in no represented state, and the global state
the function leaves. -/
def Game.generateMove (round : ℚ → ℚ) (env : Environment) (g : Game) : Option Int × Game :=
  let g := { g with
    shipCollisionMap := some (initializeHashmap env.collisionJunk)
    shipPositionFrequencyMap := some (initializeHashmap env.frequencyJunk) }
  let g := g.generateShipConfigs
  let g := g.determineShipCollisions
  let configsToBeTested := numConfigsToBeTested round g.sunken g.shipConfigs
  let searched :=
    if configsToBeTested > (MAX_CONFIGS_TESTED : ℚ) then g.randomlyTestConfigs env.random
    else g.bruteForceTestConfigs
  let validConfigs := searched.1
  let g := searched.2
  let move := validConfigs.bind (fun v => (g.calculateBestMove v).1)
  let g := { g with shipCollisionMap := none, shipPositionFrequencyMap := none }
  (move, g)

/-- The assignment `S[r][c] = v`. -/
def setCell (S : Board) (r c v : Nat) : Board :=
  fun r2 c2 => if r2 = r ∧ c2 = c then v else S r2 c2

/-- The state update of `promptGuess` for the answer `inp` (1 for hit, 2 for
miss): `numGuesses` is incremented, the move generated, and the cell
`S[BOARD_PADDING + move / 10][BOARD_PADDING + move % 10]` set to 3 or 2, with
C's truncating `/` and `%` on the `int` `move`. No result when the move has
none. -/
def Game.promptGuess (round : ℚ → ℚ) (env : Environment) (inp : Nat) (g : Game) :
    Option Game :=
  let g := { g with numGuesses := wrap32 (g.numGuesses + 1) }
  let res := g.generateMove round env
  res.1.map (fun move =>
    let g := res.2
    let row := ((BOARD_PADDING : Int) + Int.tdiv move 10).toNat
    let column := ((BOARD_PADDING : Int) + Int.tmod move 10).toNat
    { g with S := setCell g.S row column (if inp = 1 then 3 else 2) })

/-- The state update of `promptShipSinkage` for the ship number `s`, the
coordinates `x` and `y` and the orientation `o` it has read, which are natural
numbers here: positive for `s`, `x` and `y` in every use below. -/
def Game.promptShipSinkage (s x y o : Nat) (g : Game) : Game :=
  let sunken := Function.update g.sunken (s - 1) 1
  let sunkenLocations :=
    Function.update g.sunkenLocations (s - 1) ((y - 1) * 100 + (x - 1) * 10 + o)
  let shipLength := shipLengthFromIndex (s - 1)
  let S :=
    if o = 0 then
      forLoop 0 shipLength
        (fun i S => setCell S (y + BOARD_PADDING - 1 + i) (x + BOARD_PADDING - 1) 4) g.S
    else if o = 1 then
      forLoop 0 shipLength
        (fun i S => setCell S (y + BOARD_PADDING - 1) (x + BOARD_PADDING - 1 + i) 4) g.S
    else g.S
  { g with S := S, sunken := sunken, sunkenLocations := sunkenLocations }

/-- The product of the sizes of the placement lists of the ships that are not
sunk, a sunk ship contributing the factor 1. -/
def configProduct (sunken : Nat → Nat) (shipConfigs : Configs) : Nat :=
  ((List.range 5).map (fun i => if sunken i = 0 then (shipConfigs i).length else 1)).prod

/-- The global state after `init`, with nothing sunk, empty lists and no map
allocated. -/
def initGame : Game :=
  { S := initBoard, sunken := fun _ => 0, sunkenLocations := fun _ => 0,
    shipConfigs := fun _ => [], shipCollisionMap := none,
    shipPositionFrequencyMap := none, numGuesses := 0 }

/-- An environment for the examples: `malloc` returns zeroed memory and both
generators return 0 at every call. -/
def zeroEnvironment : Environment :=
  { collisionJunk := fun _ => 0, frequencyJunk := fun _ => 0,
    random := { genrand_int32 := fun _ => 0, rand := fun _ => 0 } }

/-- A board for the examples: the ships 0 to 3 are sunk side by side, standing
upward from row 0 in the columns 0 to 3, their squares marked 4; the square
(5,0) is a miss and every other square is unguessed. -/
def sunkBoard : Board :=
  fun r c =>
    if 4 ≤ r ∧ r < 14 ∧ 4 ≤ c ∧ c < 14 then
      if c < 8 ∧ r < 4 + shipLengthFromIndex (c - 4) then 4
      else if r = 4 ∧ c = 9 then 2
      else 1
    else 0

/-- A state for the examples: every square of the inner board is a miss and no
ship is sunk. -/
def missGame : Game :=
  { S := fun r c => if 4 ≤ r ∧ r < 14 ∧ 4 ≤ c ∧ c < 14 then 2 else 0,
    sunken := fun _ => 0, sunkenLocations := fun _ => 0,
    shipConfigs := fun _ => [], shipCollisionMap := none,
    shipPositionFrequencyMap := none, numGuesses := 0 }

/-- Two maps hold the same key at every address, and the same value wherever a
key is stored: they differ at most in what `malloc` left in the values of the
empty addresses. -/
def sameContent (m1 m2 : Hashmap) : Prop :=
  ∀ a, (m1 a).key = (m2 a).key ∧ ((m1 a).key ≠ -1 → (m1 a).val = (m2 a).val)

/-- Two maps are both in no represented state, or have the same content. -/
def sameMap (o1 o2 : Option Hashmap) : Prop :=
  match o1, o2 with
  | none, none => True
  | some m1, some m2 => sameContent m1 m2
  | _, _ => False

/-- Two search states are both missing, or have the same counter and maps of
the same content. -/
def sameSearch (o1 o2 : Option (Int × Hashmap)) : Prop :=
  match o1, o2 with
  | none, none => True
  | some a, some b => a.1 = b.1 ∧ sameContent a.2 b.2
  | _, _ => False

/-- A state for the examples: the board `sunkBoard` with the ships 0 to 3 sunk
at the placements their squares mark, and the length-5 ship left. -/
def sunkGame : Game :=
  { S := sunkBoard, sunken := fun s => if s < 4 then 1 else 0,
    sunkenLocations := fun s => s * 10, shipConfigs := fun _ => [],
    shipCollisionMap := none, shipPositionFrequencyMap := none, numGuesses := 40 }

/-- The state `sunkGame` with other leftovers in the lists, the maps and the
guess counter. -/
def sunkGameLater : Game :=
  { sunkGame with
    shipConfigs := exampleConfigs
    shipCollisionMap := some (singleFrequency 3)
    shipPositionFrequencyMap := some (singleFrequency 8)
    numGuesses := 41 }

/-- An environment for the examples in which `malloc` returns memory that is
not zeroed and the generators return their call numbers. -/
def otherEnvironment : Environment :=
  { collisionJunk := fun a => a + 1, frequencyJunk := fun a => 2 * a + 7,
    random := { genrand_int32 := fun k => k, rand := fun k => k } }

/-- A state for the examples: the rows 4 and 9 and the columns 4 and 9 of the
inner board are guessed, which leaves four blocks of 4x4 unguessed squares; the
length-5 ship is sunk, lying rightward from (0,4), its squares marked 4, and
the other guessed squares are misses. -/
def blockedGame : Game :=
  { S := fun r c =>
      if 4 ≤ r ∧ r < 14 ∧ 4 ≤ c ∧ c < 14 then
        if r = 8 ∧ c ≤ 8 then 4
        else if r = 8 ∨ r = 13 ∨ c = 8 ∨ c = 13 then 2
        else 1
      else 0,
    sunken := fun s => if s = 4 then 1 else 0,
    sunkenLocations := fun s => if s = 4 then 401 else 0,
    shipConfigs := fun _ => [], shipCollisionMap := none,
    shipPositionFrequencyMap := none, numGuesses := 36 }


/-- The cells of `S` that the body of the two loops of `generateShipConfigs`
reads for the spot in column `x` and row `y`, as pairs of the first and the
second index: `S[y + i][x]` and `S[y][x + i]` for `i` from 0 to 4. -/
def generateShipConfigsReads (x y : Nat) : List (Nat × Nat) :=
  (List.range 5).flatMap (fun i => [(y + i, x), (y, x + i)])

/-- Number of fleets of the list `ts` that `validConfig` accepts and in which
the footprint of ship `s` covers square `i`. -/
def shipCoverCount (S : Board) (s i : Nat) (ts : List (Nat → Nat)) : Nat :=
  (ts.filter (fun t => decide (validConfig S t = 1) && covers s (t s) i)).length

/-- Number of fleets of the list `ts` that `validConfig` accepts and in which
the footprint of some ship that is not sunk covers square `i`. -/
def coveringCount (S : Board) (sunken : Nat → Nat) (i : Nat) (ts : List (Nat → Nat)) : Nat :=
  (ts.filter (fun t => decide (validConfig S t = 1) &&
    (List.range 5).any (fun s => decide (sunken s = 0) && covers s (t s) i))).length
/-! ## Lemmas and theorems -/

/-! ### Footprints and shipConfigsCollide -/

theorem footprint_mem (s c : Nat) (sq : Nat × Nat) :
    sq ∈ footprint s c ↔ ∃ l, l < shipLengthFromIndex s ∧
      sq = (if c % 10 = 1 then ((c / 10) % 10 + l, c / 100) else ((c / 10) % 10, c / 100 + l)) := by
  unfold footprint
  simp only [List.mem_map, List.mem_range]
  constructor
  · rintro ⟨l, hl, rfl⟩; exact ⟨l, hl, rfl⟩
  · rintro ⟨l, hl, rfl⟩; exact ⟨l, hl, rfl⟩

theorem insideBoard_cell (s c : Nat) (h : insideBoard s c) (l : Nat)
    (hl : l < shipLengthFromIndex s) :
    c % 10 ≤ 1 ∧ (if c % 10 = 1 then (c / 10) % 10 + l < 10 ∧ c / 100 < 10
      else (c / 10) % 10 < 10 ∧ c / 100 + l < 10) := by
  refine ⟨h.1, ?_⟩
  have := h.2 _ ((footprint_mem s c _).2 ⟨l, hl, rfl⟩)
  split_ifs with ho
  · simpa [ho] using this
  · simpa [ho] using this

theorem shipConfigsCollide_eq_one_iff (s1 s2 c1 c2 : Nat) :
    shipConfigsCollide s1 s2 c1 c2 = 1 ↔
      ∃ l1, l1 < shipLengthFromIndex s1 ∧ ∃ l2, l2 < shipLengthFromIndex s2 ∧
        (if c1 % 10 = 1 then c1 / 100 * 10 + (c1 / 10) % 10 + l1
          else (c1 / 100 + l1) * 10 + (c1 / 10) % 10) =
        (if c2 % 10 = 1 then c2 / 100 * 10 + (c2 / 10) % 10 + l2
          else (c2 / 100 + l2) * 10 + (c2 / 10) % 10) := by
  unfold shipConfigsCollide
  simp only [ite_eq_left_iff, zero_ne_one, imp_false, not_not, List.any_eq_true,
    List.mem_range, decide_eq_true_eq]

theorem shipConfigsCollide_le_one (s1 s2 c1 c2 : Nat) :
    shipConfigsCollide s1 s2 c1 c2 = 0 ∨ shipConfigsCollide s1 s2 c1 c2 = 1 := by
  unfold shipConfigsCollide
  simp only []
  by_cases h : ((List.range (shipLengthFromIndex s1)).any fun l1 =>
      (List.range (shipLengthFromIndex s2)).any fun l2 =>
        decide ((if c1 % 10 = 1 then c1 / 100 * 10 + c1 / 10 % 10 + l1
            else (c1 / 100 + l1) * 10 + c1 / 10 % 10) =
          (if c2 % 10 = 1 then c2 / 100 * 10 + c2 / 10 % 10 + l2
            else (c2 / 100 + l2) * 10 + c2 / 10 % 10))) = true
  · right; rw [if_pos h]
  · left; rw [if_neg h]

theorem collide_iff_overlap (s1 s2 c1 c2 : Nat)
    (h1 : insideBoard s1 c1) (h2 : insideBoard s2 c2) :
    shipConfigsCollide s1 s2 c1 c2 = 1 ↔
      ∃ sq, sq ∈ footprint s1 c1 ∧ sq ∈ footprint s2 c2 := by
  rw [shipConfigsCollide_eq_one_iff]
  constructor
  · rintro ⟨l1, hl1, l2, hl2, e⟩
    have b1 := insideBoard_cell s1 c1 h1 l1 hl1
    have b2 := insideBoard_cell s2 c2 h2 l2 hl2
    refine ⟨_, (footprint_mem s1 c1 _).2 ⟨l1, hl1, rfl⟩, (footprint_mem s2 c2 _).2 ⟨l2, hl2, ?_⟩⟩
    split_ifs at e b1 b2 ⊢ <;> simp only [Prod.mk.injEq] <;> omega
  · rintro ⟨sq, m1, m2⟩
    obtain ⟨l1, hl1, e1⟩ := (footprint_mem s1 c1 sq).1 m1
    obtain ⟨l2, hl2, e2⟩ := (footprint_mem s2 c2 sq).1 m2
    refine ⟨l1, hl1, l2, hl2, ?_⟩
    rw [e1] at e2
    split_ifs at e2 ⊢ <;> simp only [Prod.mk.injEq] at e2 <;> omega


/-! ### generateShipConfigs -/

theorem mul_mod_two_eq_one (a b : Nat) : (a * b) % 2 = 1 ↔ a % 2 = 1 ∧ b % 2 = 1 := by
  rw [← Nat.odd_iff, Nat.odd_mul, Nat.odd_iff, Nat.odd_iff]

theorem ite_appendConfig (p : Prop) [Decidable p] (cfg : Configs) (s v t : Nat) :
    (if p then appendConfig cfg s v else cfg) t =
      if t = s then cfg t ++ (if p then [v] else []) else cfg t := by
  unfold appendConfig
  by_cases hp : p <;> by_cases ht : t = s <;> simp [hp, ht]

theorem ite_appendConfig_two (p : Prop) [Decidable p] (cfg : Configs) (s1 s2 v t : Nat)
    (h : s1 ≠ s2) :
    (if p then appendConfig (appendConfig cfg s1 v) s2 v else cfg) t =
      if t = s1 ∨ t = s2 then cfg t ++ (if p then [v] else []) else cfg t := by
  unfold appendConfig
  by_cases hp : p <;> by_cases ht : t = s1 <;> by_cases ht2 : t = s2 <;> simp [hp, ht, ht2]
  all_goals omega

theorem code_decode (x y o : Nat) (hx : x < 10) (ho : o ≤ 1) :
    ((y * 10 + x) * 10 + o) % 10 = o ∧ ((y * 10 + x) * 10 + o) / 10 % 10 = x ∧
      ((y * 10 + x) * 10 + o) / 100 = y := by
  omega

theorem fits_code (S : Board) (s x y o : Nat) (hx : x < 10) (ho : o ≤ 1) :
    fits S s ((y * 10 + x) * 10 + o) = true ↔
      ∀ l, l < shipLengthFromIndex s →
        (if o = 1 then S (y + 4) (x + 4 + l) else S (y + 4 + l) (x + 4)) % 2 = 1 := by
  obtain ⟨h1, h2, h3⟩ := code_decode x y o hx ho
  unfold fits cellOf
  simp only [List.all_eq_true, List.mem_range, decide_eq_true_eq, h1, h2, h3]

theorem generateShipConfigsBody_apply (S : Board) (x y : Nat) (cfg : Configs) (s : Nat)
    (hs : s < 5) (hx : x < 10) :
    generateShipConfigsBody S (x + 4) (y + 4) cfg s =
      cfg s ++ ([(y * 10 + x) * 10 + 0, (y * 10 + x) * 10 + 1].filter (fits S s)) := by
  have e : ((y + 4 - BOARD_PADDING) * 10 + (x + 4) - BOARD_PADDING) * 10 = (y * 10 + x) * 10 := by
    unfold BOARD_PADDING; omega
  have fu := fits_code S s x y 0 hx (by omega)
  have fr := fits_code S s x y 1 hx (by omega)
  unfold generateShipConfigsBody
  simp only [e, ite_appendConfig, ite_appendConfig_two _ _ 2 1 _ _ (by decide)]
  interval_cases s
  all_goals
    simp only [shipLengthFromIndex] at fu fr
    simp [List.filter_cons, mul_mod_two_eq_one, Nat.forall_lt_succ] at fu fr ⊢
    simp only [← fu, ← fr]
    split_ifs <;> simp

theorem foldl_apply_append {α : Type} (f : Configs → α → Configs) (g : α → List Nat) (s : Nat)
    (l : List α) (init : Configs)
    (h : ∀ cfg a, a ∈ l → (f cfg a) s = cfg s ++ g a) :
    (l.foldl f init) s = init s ++ l.flatMap g := by
  induction l generalizing init with
  | nil => simp
  | cons a l ih =>
    rw [List.foldl_cons, ih _ (fun cfg b hb => h cfg b (List.mem_cons_of_mem _ hb)),
      h init a (List.mem_cons_self _ _), List.flatMap_cons, List.append_assoc]

theorem generateShipConfigs_eq_filter (S : Board) (s : Nat) (hs : s < 5) :
    generateShipConfigs S s = allCodes.filter (fits S s) := by
  unfold generateShipConfigs forLoop allCodes BOARD_PADDING BOARD_SIDELENGTH
  rw [List.filter_flatMap]
  rw [foldl_apply_append _
    (fun x => List.filter (fits S s) ((List.range' 4 10).flatMap (fun y =>
      [((y - 4) * 10 + x - 4) * 10 + 0, ((y - 4) * 10 + x - 4) * 10 + 1]))) s]
  · simp
  · intro cfg x hx
    rw [List.filter_flatMap]
    apply foldl_apply_append
    intro cfg2 y hy
    rw [List.mem_range'_1] at hx hy
    obtain ⟨x, rfl⟩ : ∃ x', x = x' + 4 := ⟨x - 4, by omega⟩
    obtain ⟨y, rfl⟩ : ∃ y', y = y' + 4 := ⟨y - 4, by omega⟩
    beta_reduce
    rw [generateShipConfigsBody_apply S x y cfg2 s hs (by omega)]
    have e : ((y + 4 - 4) * 10 + (x + 4) - 4) * 10 = (y * 10 + x) * 10 := by omega
    rw [e]

set_option maxRecDepth 100000 in
theorem allCodes_nodup : allCodes.Nodup := by
  decide

theorem mem_allCodes (c : Nat) :
    c ∈ allCodes ↔ c % 10 ≤ 1 ∧ c / 100 ≤ 9 := by
  unfold allCodes
  simp only [List.mem_flatMap, List.mem_range'_1, List.mem_cons, List.mem_singleton,
    List.not_mem_nil, or_false]
  constructor
  · rintro ⟨x, hx, y, hy, h | h⟩ <;> omega
  · intro h
    refine ⟨(c / 10) % 10 + 4, by omega, c / 100 + 4, by omega, ?_⟩
    omega

theorem shipLengthFromIndex_le (s : Nat) : shipLengthFromIndex s ≤ 5 := by
  unfold shipLengthFromIndex
  split <;> omega

theorem mem_generateShipConfigs (S : Board) (s : Nat) (hs : s < 5) (c : Nat) :
    c ∈ generateShipConfigs S s ↔
      (c % 10 ≤ 1 ∧ c / 100 ≤ 9) ∧
        ∀ l, l < shipLengthFromIndex s → cellOf S c l % 2 = 1 := by
  rw [generateShipConfigs_eq_filter S s hs, List.mem_filter, mem_allCodes]
  unfold fits
  simp only [List.all_eq_true, List.mem_range, decide_eq_true_eq]

theorem wellFormed_odd (S : Board) (hS : wellFormed S) (r c : Nat) (hr : r < 18) (hc : c < 18)
    (h : S r c % 2 = 1) :
    (4 ≤ r ∧ r < 14 ∧ 4 ≤ c ∧ c < 14) ∧ (S r c = 1 ∨ S r c = 3) := by
  have := hS r hr c hc
  split_ifs at this with hin
  · exact ⟨hin, by omega⟩
  · omega

/-- C4. Soundness of `generateShipConfigs`: on a well-formed board every entry
of the list of ship `s` decodes to an orientation 0 or 1 and an anchor with
0-based coordinates at most 9, and every square of its footprint lies inside
the inner 10x10 board and is Unguessed (1) or HitUnresolved (3). -/
theorem generateShipConfigs_sound (S : Board) (hS : wellFormed S) (s : Nat) (hs : s < 5)
    (c : Nat) (hc : c ∈ generateShipConfigs S s) :
    c % 10 ≤ 1 ∧ (c / 10) % 10 ≤ 9 ∧ c / 100 ≤ 9 ∧
      ∀ sq ∈ footprint s c, sq.1 < 10 ∧ sq.2 < 10 ∧
        (S (sq.2 + BOARD_PADDING) (sq.1 + BOARD_PADDING) = 1 ∨
          S (sq.2 + BOARD_PADDING) (sq.1 + BOARD_PADDING) = 3) := by
  obtain ⟨⟨ho, hy⟩, hcells⟩ := (mem_generateShipConfigs S s hs c).1 hc
  refine ⟨ho, by omega, hy, ?_⟩
  intro sq hsq
  obtain ⟨l, hl, rfl⟩ := (footprint_mem s c sq).1 hsq
  have hL := shipLengthFromIndex_le s
  have hcell := hcells l hl
  unfold cellOf at hcell
  unfold BOARD_PADDING
  split_ifs at hcell ⊢ with h1
  · have := wellFormed_odd S hS _ _ (by omega) (by omega) hcell
    simp only
    refine ⟨by omega, by omega, ?_⟩
    have e : c / 10 % 10 + l + 4 = c / 10 % 10 + 4 + l := by omega
    rw [e]; exact this.2
  · have := wellFormed_odd S hS _ _ (by omega) (by omega) hcell
    simp only
    refine ⟨by omega, by omega, ?_⟩
    have e : c / 100 + l + 4 = c / 100 + 4 + l := by omega
    rw [e]; exact this.2

set_option maxRecDepth 100000 in
/-- Witness of C4 on the initial board: the first entry of the list of the
length-5 ship. -/
theorem generateShipConfigs_sound_witness :
    wellFormed initBoard ∧ 0 ∈ generateShipConfigs initBoard 4 ∧
      ∀ sq ∈ footprint 4 0, sq.1 < 10 ∧ sq.2 < 10 ∧
        (initBoard (sq.2 + BOARD_PADDING) (sq.1 + BOARD_PADDING) = 1 ∨
          initBoard (sq.2 + BOARD_PADDING) (sq.1 + BOARD_PADDING) = 3) :=
  ⟨by decide, by decide,
    (generateShipConfigs_sound initBoard (by decide) 4 (by decide) 0 (by decide)).2.2.2⟩

/-- C5. Completeness of `generateShipConfigs`: for every ship `s`, sunk or not,
and every placement `(x, y, o)` whose footprint lies inside the inner board and
covers only Unguessed (1) or HitUnresolved (3) squares, the code
`y*100 + x*10 + o` occurs exactly once in the list of ship `s`. -/
theorem generateShipConfigs_complete (S : Board) (s : Nat) (hs : s < 5) (x y o : Nat)
    (hx : x ≤ 9) (hy : y ≤ 9) (ho : o ≤ 1)
    (hfit : ∀ sq ∈ footprint s (y * 100 + x * 10 + o), sq.1 < 10 ∧ sq.2 < 10 ∧
      (S (sq.2 + BOARD_PADDING) (sq.1 + BOARD_PADDING) = 1 ∨
        S (sq.2 + BOARD_PADDING) (sq.1 + BOARD_PADDING) = 3)) :
    (generateShipConfigs S s).count (y * 100 + x * 10 + o) = 1 := by
  have hmem : y * 100 + x * 10 + o ∈ generateShipConfigs S s := by
    rw [mem_generateShipConfigs S s hs]
    refine ⟨by omega, ?_⟩
    intro l hl
    have h := hfit _ ((footprint_mem s _ _).2 ⟨l, hl, rfl⟩)
    unfold cellOf
    unfold BOARD_PADDING at h
    split_ifs at h ⊢ with h1
    · simp only at h
      have e : (y * 100 + x * 10 + o) / 10 % 10 + l + 4 =
          (y * 100 + x * 10 + o) / 10 % 10 + 4 + l := by omega
      rw [e] at h
      rcases h.2.2 with h | h <;> omega
    · simp only at h
      have e : (y * 100 + x * 10 + o) / 100 + l + 4 =
          (y * 100 + x * 10 + o) / 100 + 4 + l := by omega
      rw [e] at h
      rcases h.2.2 with h | h <;> omega
  rw [generateShipConfigs_eq_filter S s hs] at hmem ⊢
  exact List.count_eq_one_of_mem (allCodes_nodup.filter _) hmem

/-- Witness of C5 on the initial board: the upward placement of the length-5
ship anchored in row 5 of column 0. -/
theorem generateShipConfigs_complete_witness :
    (generateShipConfigs initBoard 4).count (5 * 100 + 0 * 10 + 0) = 1 :=
  generateShipConfigs_complete initBoard 4 (by decide) 0 5 0 (by decide) (by decide) (by decide)
    (by decide)

/-- C6. `shipConfigsCollide` decides footprint overlap: for placements inside
the inner board it returns 1 exactly when the two footprints share a square,
and 0 exactly when they do not. -/
theorem shipConfigsCollide_decides_overlap (s1 s2 c1 c2 : Nat)
    (h1 : insideBoard s1 c1) (h2 : insideBoard s2 c2) :
    (shipConfigsCollide s1 s2 c1 c2 = 1 ↔
        ∃ sq, sq ∈ footprint s1 c1 ∧ sq ∈ footprint s2 c2) ∧
      (shipConfigsCollide s1 s2 c1 c2 = 0 ↔
        ¬ ∃ sq, sq ∈ footprint s1 c1 ∧ sq ∈ footprint s2 c2) := by
  have h := collide_iff_overlap s1 s2 c1 c2 h1 h2
  refine ⟨h, ?_⟩
  rw [← h]
  rcases shipConfigsCollide_le_one s1 s2 c1 c2 with e | e <;> simp [e]

/-- Witness of C6: the length-2 ship lying rightward from (0,0) and a length-3
ship standing upward from (1,0) share the square (1,0). -/
theorem shipConfigsCollide_decides_overlap_witness :
    insideBoard 0 1 ∧ insideBoard 1 10 ∧ shipConfigsCollide 0 1 1 10 = 1 ∧
      ∃ sq, sq ∈ footprint 0 1 ∧ sq ∈ footprint 1 10 :=
  ⟨by decide, by decide, by decide,
    (shipConfigsCollide_decides_overlap 0 1 1 10 (by decide) (by decide)).1.1 (by decide)⟩

/-! ### validConfig -/

theorem forLoop_zero_succ {σ : Type} (n : Nat) (body : Nat → σ → σ) (init : σ) :
    forLoop 0 (n + 1) body init = body n (forLoop 0 n body init) := by
  unfold forLoop
  simp only [Nat.sub_zero]
  rw [List.range'_concat, List.foldl_append]
  simp

theorem forLoop_zero_zero {σ : Type} (body : Nat → σ → σ) (init : σ) :
    forLoop 0 0 body init = init := by
  unfold forLoop
  simp

/-- Effect of the marking loop of `validConfig`: after `n` rounds the squares
`start + l * step` with `l < n` are marked, the step being 1 rightward and 10
upward. -/
theorem markLoop_eq (right n start : Nat) (cov : Nat → Nat) :
    forLoop 0 n (fun _ st => markSquare right st) (start, cov) =
      (start + n * (if right ≠ 0 then 1 else 10),
        fun i => if ∃ l, l < n ∧ i = start + l * (if right ≠ 0 then 1 else 10) then 1
          else cov i) := by
  induction n with
  | zero => simp [forLoop_zero_zero]
  | succ n ih =>
    rw [forLoop_zero_succ, ih]
    unfold markSquare
    simp only [Prod.mk.injEq]
    constructor
    · split_ifs <;> ring
    · funext i
      by_cases hi : i = start + n * (if right ≠ 0 then 1 else 10)
      · subst hi
        rw [Function.update_same, if_pos ⟨n, Nat.lt_succ_self n, rfl⟩]
      · rw [Function.update_noteq hi]
        by_cases hex : ∃ l, l < n ∧ i = start + l * (if right ≠ 0 then 1 else 10)
        · rw [if_pos hex]
          obtain ⟨l, hl, e⟩ := hex
          rw [if_pos ⟨l, Nat.lt_succ_of_lt hl, e⟩]
        · rw [if_neg hex, if_neg]
          rintro ⟨l, hl, e⟩
          rcases Nat.lt_succ_iff_lt_or_eq.1 hl with h | h
          · exact hex ⟨l, h, e⟩
          · subst h; exact hi e

theorem coveredLoop_eq (t : Nat → Nat) (n : Nat) :
    forLoop 0 n (fun s coveredSquares =>
      let currentCoord := t s / 10
      let right := t s % 10
      (forLoop 0 (shipLengthFromIndex s) (fun _ st => markSquare right st)
        (currentCoord, coveredSquares)).2) (fun _ => 0) =
      fun i => if ∃ s, s < n ∧ ∃ l, l < shipLengthFromIndex s ∧
        i = t s / 10 + l * (if t s % 10 ≠ 0 then 1 else 10) then 1 else 0 := by
  induction n with
  | zero => simp [forLoop_zero_zero]
  | succ n ih =>
    rw [forLoop_zero_succ, ih]
    simp only [markLoop_eq]
    funext i
    by_cases h1 : ∃ l, l < shipLengthFromIndex n ∧
        i = t n / 10 + l * (if t n % 10 ≠ 0 then 1 else 10)
    · rw [if_pos h1, if_pos ⟨n, Nat.lt_succ_self n, h1⟩]
    · rw [if_neg h1]
      by_cases h2 : ∃ s, s < n ∧ ∃ l, l < shipLengthFromIndex s ∧
          i = t s / 10 + l * (if t s % 10 ≠ 0 then 1 else 10)
      · rw [if_pos h2]
        obtain ⟨s, hs, h⟩ := h2
        rw [if_pos ⟨s, Nat.lt_succ_of_lt hs, h⟩]
      · rw [if_neg h2, if_neg]
        rintro ⟨s, hs, h⟩
        rcases Nat.lt_succ_iff_lt_or_eq.1 hs with h' | h'
        · exact h2 ⟨s, h', h⟩
        · subst h'; exact h1 h

theorem coveredSquares_eq_zero_iff (t : Nat → Nat) (i : Nat) :
    coveredSquares t i = 0 ↔ ¬ ∃ s, s < 5 ∧ ∃ l, l < shipLengthFromIndex s ∧
        i = t s / 10 + l * (if t s % 10 ≠ 0 then 1 else 10) := by
  unfold coveredSquares
  rw [coveredLoop_eq]
  simp only []
  split_ifs with h
  · exact ⟨fun e => by simp at e, fun e => absurd h e⟩
  · exact ⟨fun _ => h, fun _ => rfl⟩

theorem mem_footprint_iff_index (s c x y : Nat) (h : insideBoard s c) (hx : x < 10) :
    (x, y) ∈ footprint s c ↔ ∃ l, l < shipLengthFromIndex s ∧
      10 * y + x = c / 10 + l * (if c % 10 ≠ 0 then 1 else 10) := by
  rw [footprint_mem]
  constructor
  · rintro ⟨l, hl, e⟩
    refine ⟨l, hl, ?_⟩
    have b := insideBoard_cell s c h l hl
    split_ifs at e b ⊢ <;> simp only [Prod.mk.injEq] at e <;> omega
  · rintro ⟨l, hl, e⟩
    refine ⟨l, hl, ?_⟩
    have b := insideBoard_cell s c h l hl
    split_ifs at e b ⊢ <;> simp only [Prod.mk.injEq] <;> omega

theorem anyCollision_iff (t : Nat → Nat) :
    anyCollision t = true ↔
      ∃ s1, s1 < 5 ∧ ∃ s2, s1 < s2 ∧ s2 < 5 ∧ shipConfigsCollide s1 s2 (t s1) (t s2) ≠ 0 := by
  unfold anyCollision
  simp only [List.any_eq_true, List.mem_range'_1, decide_eq_true_eq]
  constructor
  · rintro ⟨s1, h1, s2, h2, hc⟩
    exact ⟨s1, by omega, s2, by omega, by omega, hc⟩
  · rintro ⟨s1, h1, s2, h12, h2, hc⟩
    exact ⟨s1, by omega, s2, by omega, hc⟩

theorem anyUncoveredHit_iff (S : Board) (cov : Nat → Nat) :
    anyUncoveredHit S cov = true ↔
      ∃ x, x < 10 ∧ ∃ y, y < 10 ∧ S (y + 4) (x + 4) = 3 ∧ cov (10 * y + x) = 0 := by
  unfold anyUncoveredHit BOARD_PADDING BOARD_SIDELENGTH
  simp only [List.any_eq_true, List.mem_range'_1, decide_eq_true_eq]
  constructor
  · rintro ⟨x, hx, y, hy, h3, hcov⟩
    obtain ⟨x, rfl⟩ : ∃ x', x = x' + 4 := ⟨x - 4, by omega⟩
    obtain ⟨y, rfl⟩ : ∃ y', y = y' + 4 := ⟨y - 4, by omega⟩
    have e : 10 * (y + 4 - 4) + (x + 4) - 4 = 10 * y + x := by omega
    rw [e] at hcov
    exact ⟨x, by omega, y, by omega, h3, hcov⟩
  · rintro ⟨x, hx, y, hy, h3, hcov⟩
    refine ⟨x + 4, by omega, y + 4, by omega, h3, ?_⟩
    have e : 10 * (y + 4 - 4) + (x + 4) - 4 = 10 * y + x := by omega
    rw [e]; exact hcov

theorem validConfig_eq_one_iff (S : Board) (t : Nat → Nat) :
    validConfig S t = 1 ↔
      (∀ s1, s1 < 5 → ∀ s2, s1 < s2 → s2 < 5 → shipConfigsCollide s1 s2 (t s1) (t s2) = 0) ∧
        (∀ x, x < 10 → ∀ y, y < 10 → S (y + 4) (x + 4) = 3 →
          coveredSquares t (10 * y + x) ≠ 0) := by
  unfold validConfig
  by_cases hA : anyCollision t = true
  · rw [if_pos hA]
    obtain ⟨s1, h1, s2, h12, h2, hc⟩ := (anyCollision_iff t).1 hA
    constructor
    · intro h; exact absurd h zero_ne_one
    · rintro ⟨h, _⟩; exact absurd (h s1 h1 s2 h12 h2) hc
  · rw [if_neg hA]
    have hA2 : ∀ s1, s1 < 5 → ∀ s2, s1 < s2 → s2 < 5 →
        shipConfigsCollide s1 s2 (t s1) (t s2) = 0 := by
      intro s1 h1 s2 h12 h2
      by_contra hc
      exact hA ((anyCollision_iff t).2 ⟨s1, h1, s2, h12, h2, hc⟩)
    by_cases hB : anyUncoveredHit S (coveredSquares t) = true
    · rw [if_pos hB]
      obtain ⟨x, hx, y, hy, h3, hcov⟩ := (anyUncoveredHit_iff S _).1 hB
      constructor
      · intro h; exact absurd h zero_ne_one
      · rintro ⟨_, h⟩; exact absurd hcov (h x hx y hy h3)
    · rw [if_neg hB]
      refine ⟨fun _ => ⟨hA2, ?_⟩, fun _ => rfl⟩
      intro x hx y hy h3 hcov
      exact hB ((anyUncoveredHit_iff S _).2 ⟨x, hx, y, hy, h3, hcov⟩)

theorem validConfig_le_one (S : Board) (t : Nat → Nat) :
    validConfig S t = 0 ∨ validConfig S t = 1 := by
  unfold validConfig
  split_ifs <;> simp

theorem validConfig_iff_validFleet (S : Board) (t : Nat → Nat)
    (h : ∀ s, s < 5 → insideBoard s (t s)) :
    validConfig S t = 1 ↔ validFleet S t := by
  rw [validConfig_eq_one_iff]
  unfold validFleet BOARD_PADDING
  have key : ∀ s1, s1 < 5 → ∀ s2, s2 < 5 →
      (shipConfigsCollide s1 s2 (t s1) (t s2) = 0 ↔
        ∀ sq ∈ footprint s1 (t s1), sq ∉ footprint s2 (t s2)) := by
    intro s1 h1 s2 h2
    have := collide_iff_overlap s1 s2 (t s1) (t s2) (h s1 h1) (h s2 h2)
    constructor
    · intro e sq m1 m2
      have := this.2 ⟨sq, m1, m2⟩
      omega
    · intro hd
      rcases shipConfigsCollide_le_one s1 s2 (t s1) (t s2) with e | e
      · exact e
      · obtain ⟨sq, m1, m2⟩ := this.1 e
        exact absurd m2 (hd sq m1)
  constructor
  · rintro ⟨hA, hB⟩
    constructor
    · intro s1 h1 s2 h2 hne sq m1 m2
      rcases Nat.lt_or_gt_of_ne hne with hlt | hgt
      · exact (key s1 h1 s2 h2).1 (hA s1 h1 s2 hlt h2) sq m1 m2
      · exact (key s2 h2 s1 h1).1 (hA s2 h2 s1 hgt h1) sq m2 m1
    · intro x hx y hy h3
      have hc := hB x hx y hy h3
      rw [Ne, coveredSquares_eq_zero_iff, not_not] at hc
      obtain ⟨s, hs, hl⟩ := hc
      exact ⟨s, hs, (mem_footprint_iff_index s (t s) x y (h s hs) hx).2 hl⟩
  · rintro ⟨hA, hB⟩
    constructor
    · intro s1 h1 s2 h12 h2
      exact (key s1 h1 s2 h2).2 (hA s1 h1 s2 h2 (by omega))
    · intro x hx y hy h3
      obtain ⟨s, hs, hm⟩ := hB x hx y hy h3
      rw [Ne, coveredSquares_eq_zero_iff, not_not]
      exact ⟨s, hs, (mem_footprint_iff_index s (t s) x y (h s hs) hx).1 hm⟩

/-- C3. `validConfig` is exactly the fleet-validity predicate: for five
placements whose footprints lie inside the inner board it returns 1 if and
only if (a) no two footprints share a square and (b) every inner square in
state HitUnresolved (3) is covered by some footprint; otherwise it returns 0. -/
theorem validConfig_exact (S : Board) (t : Nat → Nat)
    (h : ∀ s, s < 5 → insideBoard s (t s)) :
    (validConfig S t = 1 ↔ validFleet S t) ∧ (validConfig S t = 0 ↔ ¬ validFleet S t) := by
  have h1 := validConfig_iff_validFleet S t h
  refine ⟨h1, ?_⟩
  rw [← h1]
  rcases validConfig_le_one S t with e | e <;> simp [e]

/-- A fleet for the witnesses: the five ships side by side, all standing
upward from row 0 in columns 0 to 4. -/
theorem sideBySide_inside : ∀ s, s < 5 → insideBoard s ((fun s => s * 10) s) := by
  decide

/-- Witness of C3 on the initial board, where no square is hit: the five ships
standing side by side form a valid fleet. -/
theorem validConfig_exact_witness :
    validConfig initBoard (fun s => s * 10) = 1 ∧ validFleet initBoard (fun s => s * 10) :=
  ⟨by decide, (validConfig_exact initBoard (fun s => s * 10) sideBySide_inside).1.1 (by decide)⟩

/-! ### calculateBestMove: the scan -/

theorem scan_invariant (S : Board) (mf : Nat → Int) (th : ℚ) (n : Nat) :
    ((forLoop 0 n (fun i st => scanSquare S mf th i st) (-1, 2147483647)).1 = -1 ∧
      (forLoop 0 n (fun i st => scanSquare S mf th i st) (-1, 2147483647)).2 = 2147483647 ∧
      ∀ j, j < n → S (j / 10 + BOARD_PADDING) (j % 10 + BOARD_PADDING) = 1 → mf j ≠ 0 →
        (2147483647 : ℚ) ≤ |(mf j : ℚ) - th|) ∨
    (∃ i, i < n ∧
      (forLoop 0 n (fun i st => scanSquare S mf th i st) (-1, 2147483647)).1 = (i : Int) ∧
      (forLoop 0 n (fun i st => scanSquare S mf th i st) (-1, 2147483647)).2 =
        |(mf i : ℚ) - th| ∧
      S (i / 10 + BOARD_PADDING) (i % 10 + BOARD_PADDING) = 1 ∧ mf i ≠ 0 ∧
      |(mf i : ℚ) - th| < 2147483647 ∧
      ∀ j, j < n → S (j / 10 + BOARD_PADDING) (j % 10 + BOARD_PADDING) = 1 → mf j ≠ 0 →
        |(mf i : ℚ) - th| ≤ |(mf j : ℚ) - th| ∧
          (j < i → |(mf i : ℚ) - th| < |(mf j : ℚ) - th|)) := by
  induction n with
  | zero =>
    left
    rw [forLoop_zero_zero]
    exact ⟨rfl, rfl, fun j hj => absurd hj (Nat.not_lt_zero j)⟩
  | succ n ih =>
    rw [forLoop_zero_succ]
    generalize forLoop 0 n (fun i st => scanSquare S mf th i st) (-1, 2147483647) = r at ih
    by_cases hc : S (n / 10 + BOARD_PADDING) (n % 10 + BOARD_PADDING) = 1 ∧ mf n ≠ 0
    · by_cases hd : |(mf n : ℚ) - th| < r.2
      · -- the square becomes the best move
        have hstep : scanSquare S mf th n r = ((n : Int), |(mf n : ℚ) - th|) := by
          unfold scanSquare
          rw [if_pos hc.1, if_pos hc.2]
          simp only [hd, if_true]
        rw [hstep]
        right
        refine ⟨n, Nat.lt_succ_self n, rfl, rfl, hc.1, hc.2, ?_, ?_⟩
        · rcases ih with ⟨_, h2, _⟩ | ⟨i, _, _, h2, _, _, h5, _⟩
          · rw [h2] at hd; exact hd
          · rw [h2] at hd; exact lt_trans hd h5
        · intro j hj hS hm
          rcases Nat.lt_succ_iff_lt_or_eq.1 hj with hlt | heq
          · rcases ih with ⟨_, h2, h3⟩ | ⟨i, _, _, h2, _, _, _, h6⟩
            · rw [h2] at hd
              have := h3 j hlt hS hm
              exact ⟨le_of_lt (lt_of_lt_of_le hd this), fun _ => lt_of_lt_of_le hd this⟩
            · rw [h2] at hd
              have := (h6 j hlt hS hm).1
              exact ⟨le_of_lt (lt_of_lt_of_le hd this), fun _ => lt_of_lt_of_le hd this⟩
          · subst heq
            exact ⟨le_refl _, fun h => absurd h (lt_irrefl _)⟩
      · -- the square is a candidate and does not improve the difference
        have hstep : scanSquare S mf th n r = r := by
          unfold scanSquare
          rw [if_pos hc.1, if_pos hc.2]
          simp only [hd, if_false]
        rw [hstep]
        rcases ih with ⟨h1, h2, h3⟩ | ⟨i, hi, h1, h2, h3, h4, h5, h6⟩
        · left
          refine ⟨h1, h2, ?_⟩
          intro j hj hS hm
          rcases Nat.lt_succ_iff_lt_or_eq.1 hj with hlt | heq
          · exact h3 j hlt hS hm
          · subst heq; rw [h2] at hd; exact not_lt.1 hd
        · right
          refine ⟨i, Nat.lt_succ_of_lt hi, h1, h2, h3, h4, h5, ?_⟩
          intro j hj hS hm
          rcases Nat.lt_succ_iff_lt_or_eq.1 hj with hlt | heq
          · exact h6 j hlt hS hm
          · subst heq
            rw [h2] at hd
            exact ⟨not_lt.1 hd, fun h => absurd h (by omega)⟩
    · -- the square is guessed already or nothing covers it
      have hstep : scanSquare S mf th n r = r := by
        unfold scanSquare
        by_cases h1 : S (n / 10 + BOARD_PADDING) (n % 10 + BOARD_PADDING) = 1
        · rw [if_pos h1, if_neg]
          intro h2; exact hc ⟨h1, h2⟩
        · rw [if_neg h1]
      rw [hstep]
      rcases ih with ⟨h1, h2, h3⟩ | ⟨i, hi, h1, h2, h3, h4, h5, h6⟩
      · left
        refine ⟨h1, h2, ?_⟩
        intro j hj hS hm
        rcases Nat.lt_succ_iff_lt_or_eq.1 hj with hlt | heq
        · exact h3 j hlt hS hm
        · subst heq; exact absurd ⟨hS, hm⟩ hc
      · right
        refine ⟨i, Nat.lt_succ_of_lt hi, h1, h2, h3, h4, h5, ?_⟩
        intro j hj hS hm
        rcases Nat.lt_succ_iff_lt_or_eq.1 hj with hlt | heq
        · exact h6 j hlt hS hm
        · subst heq; exact absurd ⟨hS, hm⟩ hc

/-- C1. Selection rule of `calculateBestMove`: when it returns a square `i`
(a value that is not negative), that square is Unguessed, its coverage count
is not zero, its distance to `T/2` is at most that of every Unguessed square
with a non-zero coverage count, and strictly smaller than that of every such
square before it in the scan order. -/
theorem calculateBestMove_selection (S : Board) (sunken : Nat → Nat) (shipConfigs : Configs)
    (map : Hashmap) (T : Int) (i : Nat)
    (h : calculateBestMove S sunken shipConfigs map T = (i : Int)) :
    i < 100 ∧ S (i / 10 + BOARD_PADDING) (i % 10 + BOARD_PADDING) = 1 ∧
      moveFrequencies sunken shipConfigs map i ≠ 0 ∧
      ∀ j, j < 100 → S (j / 10 + BOARD_PADDING) (j % 10 + BOARD_PADDING) = 1 →
        moveFrequencies sunken shipConfigs map j ≠ 0 →
        |(moveFrequencies sunken shipConfigs map i : ℚ) - (T : ℚ) / 2| ≤
            |(moveFrequencies sunken shipConfigs map j : ℚ) - (T : ℚ) / 2| ∧
          (j < i →
            |(moveFrequencies sunken shipConfigs map i : ℚ) - (T : ℚ) / 2| <
              |(moveFrequencies sunken shipConfigs map j : ℚ) - (T : ℚ) / 2|) := by
  unfold calculateBestMove BOARD_SIDELENGTH at h
  simp only [] at h
  rcases scan_invariant S (moveFrequencies sunken shipConfigs map) ((T : ℚ) / 2) (10 * 10) with
    ⟨h1, _, _⟩ | ⟨k, hk, h1, _, h3, h4, _, h6⟩
  · rw [h1] at h; omega
  · rw [h1] at h
    have : k = i := by exact_mod_cast h
    subst this
    exact ⟨hk, h3, h4, h6⟩

set_option maxRecDepth 100000 in
/-- Witness of C1: with one recorded fleet, in which ship 0 stands on the
squares 0 and 10, and `T = 1`, the move is square 0, the first of the two
squares at distance 1/2. -/
theorem calculateBestMove_selection_witness :
    calculateBestMove initBoard (fun _ => 0) singleConfig (singleFrequency 1) 1 = ((0 : Nat) : Int) ∧
      initBoard (0 / 10 + BOARD_PADDING) (0 % 10 + BOARD_PADDING) = 1 ∧
      moveFrequencies (fun _ => 0) singleConfig (singleFrequency 1) 0 ≠ 0 :=
  ⟨by decide!,
    (calculateBestMove_selection initBoard (fun _ => 0) singleConfig (singleFrequency 1) 1 0
      (by decide!)).2.1,
    (calculateBestMove_selection initBoard (fun _ => 0) singleConfig (singleFrequency 1) 1 0
      (by decide!)).2.2.1⟩

theorem wrap32_of_range (z : Int) (h0 : 0 ≤ z) (h1 : z < 2147483648) : wrap32 z = z := by
  unfold wrap32
  omega

theorem addLoop_eq (right : Nat) (f : Int) (n start : Nat) (mf : Nat → Int) :
    forLoop 0 n (fun _ st => addFrequency right f st) (start, mf) =
      (start + n * (if right ≠ 0 then 1 else 10),
        fun i => if ∃ l, l < n ∧ i = start + l * (if right ≠ 0 then 1 else 10)
          then wrap32 (mf i + f) else mf i) := by
  induction n with
  | zero => simp [forLoop_zero_zero]
  | succ n ih =>
    rw [forLoop_zero_succ, ih]
    unfold addFrequency
    simp only [Prod.mk.injEq]
    have hstep : 0 < (if right ≠ 0 then 1 else 10) := by split_ifs <;> omega
    have hfresh : ¬ ∃ l, l < n ∧ start + n * (if right ≠ 0 then 1 else 10) =
        start + l * (if right ≠ 0 then 1 else 10) := by
      rintro ⟨l, hl, e⟩
      have := Nat.mul_lt_mul_of_pos_right hl hstep
      omega
    constructor
    · split_ifs <;> ring
    · funext i
      by_cases hi : i = start + n * (if right ≠ 0 then 1 else 10)
      · subst hi
        have hnow : ∃ l, l < n + 1 ∧ start + n * (if right ≠ 0 then 1 else 10) =
            start + l * (if right ≠ 0 then 1 else 10) := ⟨n, Nat.lt_succ_self n, rfl⟩
        rw [Function.update_same, if_neg hfresh, if_pos hnow]
      · rw [Function.update_noteq hi]
        by_cases hex : ∃ l, l < n ∧ i = start + l * (if right ≠ 0 then 1 else 10)
        · rw [if_pos hex]
          obtain ⟨l, hl, e⟩ := hex
          have hnow : ∃ l, l < n + 1 ∧ i = start + l * (if right ≠ 0 then 1 else 10) :=
            ⟨l, Nat.lt_succ_of_lt hl, e⟩
          rw [if_pos hnow]
        · rw [if_neg hex, if_neg]
          rintro ⟨l, hl, e⟩
          rcases Nat.lt_succ_iff_lt_or_eq.1 hl with h | h
          · exact hex ⟨l, h, e⟩
          · subst h; exact hi e

theorem covers_iff_index (s p i : Nat) (h : insideBoard s p) :
    covers s p i = true ↔ ∃ l, l < shipLengthFromIndex s ∧
      i = p / 10 + l * (if p % 10 ≠ 0 then 1 else 10) := by
  unfold covers
  rw [decide_eq_true_eq, mem_footprint_iff_index s p (i % 10) (i / 10) h (Nat.mod_lt _ (by omega))]
  have e : 10 * (i / 10) + i % 10 = i := Nat.div_add_mod i 10
  rw [e]

theorem positiveFrequency_nonneg (map : Hashmap) (s p : Nat) : 0 ≤ positiveFrequency map s p := by
  unfold positiveFrequency
  split_ifs with h
  · exact le_of_lt h
  · exact le_refl 0

theorem addConfigFrequency_apply (map : Hashmap) (s p : Nat) (mf : Nat → Int) (i : Nat)
    (h : insideBoard s p) :
    addConfigFrequency map s mf p i =
      if covers s p i = true ∧ 0 < get ((s * 1000 + p : Nat) : Int) map
      then wrap32 (mf i + get ((s * 1000 + p : Nat) : Int) map) else mf i := by
  unfold addConfigFrequency
  by_cases hf : get ((s * 1000 + p : Nat) : Int) map > 0
  · rw [if_pos hf, addLoop_eq]
    dsimp only
    by_cases hc : covers s p i = true
    · rw [if_pos ((covers_iff_index s p i h).1 hc), if_pos ⟨hc, hf⟩]
    · rw [if_neg (fun hh => hc ((covers_iff_index s p i h).2 hh)), if_neg (fun hh => hc hh.1)]
  · rw [if_neg hf, if_neg (fun hh => hf hh.2)]

theorem sum_positiveFrequency_nonneg (map : Hashmap) (s : Nat) (ps : List Nat) :
    0 ≤ (ps.map (positiveFrequency map s)).sum := by
  apply List.sum_nonneg
  intro x hx
  obtain ⟨p, _, rfl⟩ := List.mem_map.1 hx
  exact positiveFrequency_nonneg map s p

theorem foldl_addConfigFrequency (map : Hashmap) (s : Nat) (i : Nat) (ps : List Nat)
    (hin : ∀ p ∈ ps, insideBoard s p) (mf : Nat → Int) (h0 : 0 ≤ mf i)
    (hsum : mf i + ((ps.filter (fun p => covers s p i)).map (positiveFrequency map s)).sum
      < 2147483648) :
    ps.foldl (addConfigFrequency map s) mf i =
      mf i + ((ps.filter (fun p => covers s p i)).map (positiveFrequency map s)).sum := by
  induction ps generalizing mf with
  | nil => simp
  | cons p ps ih =>
    have hp := hin p (List.mem_cons_self _ _)
    have hrest : ∀ q ∈ ps, insideBoard s q := fun q hq => hin q (List.mem_cons_of_mem _ hq)
    have hnn := sum_positiveFrequency_nonneg map s (ps.filter (fun p => covers s p i))
    rw [List.foldl_cons]
    have hstep : addConfigFrequency map s mf p i =
        mf i + (if covers s p i = true then positiveFrequency map s p else 0) := by
      rw [addConfigFrequency_apply map s p mf i hp]
      by_cases hc : covers s p i = true
      · simp only [hc, true_and, if_true]
        by_cases hf : 0 < get ((s * 1000 + p : Nat) : Int) map
        · have hpf : positiveFrequency map s p = get ((s * 1000 + p : Nat) : Int) map := by
            unfold positiveFrequency; rw [if_pos hf]
          rw [if_pos hf, hpf]
          apply wrap32_of_range
          · omega
          · rw [List.filter_cons, if_pos hc, List.map_cons, List.sum_cons, hpf] at hsum
            omega
        · have hpf : positiveFrequency map s p = 0 := by
            unfold positiveFrequency; rw [if_neg hf]
          rw [if_neg hf, hpf]; simp
      · simp only [hc, false_and, if_false]
        simp
    have hpn := positiveFrequency_nonneg map s p
    by_cases hc : covers s p i = true
    · rw [List.filter_cons, if_pos hc, List.map_cons, List.sum_cons] at hsum ⊢
      rw [if_pos hc] at hstep
      rw [ih hrest _ (by rw [hstep]; omega) (by rw [hstep]; omega), hstep]
      ring
    · rw [List.filter_cons, if_neg hc] at hsum ⊢
      rw [if_neg hc] at hstep
      rw [ih hrest _ (by rw [hstep]; omega) (by rw [hstep]; omega), hstep]
      ring

theorem unsunkTerm_nonneg (sunken : Nat → Nat) (cfgs : Configs) (map : Hashmap) (i s : Nat) :
    0 ≤ (if sunken s = 0 then
      (((cfgs s).filter (fun p => covers s p i)).map (positiveFrequency map s)).sum else 0) := by
  split_ifs
  · exact sum_positiveFrequency_nonneg map s _
  · exact le_refl 0

theorem unsunkSum_nonneg (sunken : Nat → Nat) (cfgs : Configs) (map : Hashmap) (i n : Nat) :
    0 ≤ ((List.range n).map (fun s => if sunken s = 0 then
      (((cfgs s).filter (fun p => covers s p i)).map (positiveFrequency map s)).sum else 0)).sum := by
  apply List.sum_nonneg
  intro x hx
  obtain ⟨s, _, rfl⟩ := List.mem_map.1 hx
  exact unsunkTerm_nonneg sunken cfgs map i s

theorem shipLoop_apply (sunken : Nat → Nat) (cfgs : Configs) (map : Hashmap) (i n : Nat)
    (hn : n ≤ 5) (hin : ∀ s, s < 5 → sunken s = 0 → ∀ p ∈ cfgs s, insideBoard s p)
    (hsum : ((List.range n).map (fun s => if sunken s = 0 then
      (((cfgs s).filter (fun p => covers s p i)).map (positiveFrequency map s)).sum else 0)).sum
        < 2147483648) :
    forLoop 0 n (fun s moveFrequencies =>
        if sunken s = 0 then (cfgs s).foldl (addConfigFrequency map s) moveFrequencies
        else moveFrequencies) (fun _ => 0) i =
      ((List.range n).map (fun s => if sunken s = 0 then
        (((cfgs s).filter (fun p => covers s p i)).map (positiveFrequency map s)).sum else 0)).sum := by
  induction n with
  | zero => simp [forLoop_zero_zero]
  | succ n ih =>
    rw [List.range_succ, List.map_append, List.sum_append, List.map_singleton,
      List.sum_singleton] at hsum ⊢
    have hterm := unsunkTerm_nonneg sunken cfgs map i n
    have hprev := unsunkSum_nonneg sunken cfgs map i n
    have ih2 := ih (by omega) (by omega)
    rw [forLoop_zero_succ]
    by_cases hs : sunken n = 0
    · rw [if_pos hs] at hsum hterm ⊢
      rw [if_pos hs, foldl_addConfigFrequency map n i (cfgs n) (hin n (by omega) hs) _
        (by rw [ih2]; exact hprev) (by rw [ih2]; exact hsum), ih2]
    · rw [if_neg hs] at hsum ⊢
      rw [if_neg hs, ih2]
      simp

/-- The first loop nest of `calculateBestMove` for any lists and any map: the
coverage count of a square `i` is the sum, over every ship that is not sunk and
every placement of its list whose footprint covers `i`, of the frequency
recorded for the pair when it is positive, provided the listed placements lie
inside the board and the sum fits a 32-bit `int`. -/
theorem moveFrequencies_eq_coverage (sunken : Nat → Nat) (shipConfigs : Configs) (map : Hashmap)
    (hin : ∀ s, s < 5 → sunken s = 0 → ∀ p ∈ shipConfigs s, insideBoard s p) (i : Nat)
    (hov : coverageOverUnsunkShips sunken shipConfigs map i < 2147483648) :
    moveFrequencies sunken shipConfigs map i =
      coverageOverUnsunkShips sunken shipConfigs map i := by
  unfold moveFrequencies coverageOverUnsunkShips at *
  exact shipLoop_apply sunken shipConfigs map i 5 (le_refl 5) hin hov

theorem singleConfig_inside :
    ∀ s, s < 5 → (fun _ => 0) s = 0 → ∀ p ∈ singleConfig s, insideBoard s p := by
  intro s hs _ p hp
  unfold singleConfig at hp
  split_ifs at hp with h0
  · subst h0
    rw [List.mem_singleton] at hp
    subst hp
    decide
  · exact absurd hp (List.not_mem_nil p)

/-! ### bruteForceTestConfigs -/

theorem forLoop_congr {σ : Type} (n : Nat) (f g : Nat → σ → σ) (init : σ)
    (h : ∀ i, i < n → ∀ st, f i st = g i st) :
    forLoop 0 n f init = forLoop 0 n g init := by
  induction n with
  | zero => simp [forLoop_zero_zero]
  | succ n ih =>
    rw [forLoop_zero_succ, forLoop_zero_succ, ih (fun i hi st => h i (Nat.lt_succ_of_lt hi) st),
      h n (Nat.lt_succ_self n)]

theorem forLoop_getD {σ : Type} (l : List Nat) (F : Nat → σ → σ) (init : σ) :
    forLoop 0 l.length (fun c st => F (l.getD c 0) st) init =
      l.foldl (fun st p => F p st) init := by
  induction l using List.reverseRecOn with
  | nil => simp [forLoop_zero_zero]
  | append_singleton l a ih =>
    rw [List.length_append, List.length_singleton, forLoop_zero_succ, List.foldl_append,
      List.foldl_cons, List.foldl_nil, ← ih]
    have e1 : (l ++ [a]).getD l.length 0 = a := by
      simp [List.getD_eq_getElem?_getD]
    rw [e1]
    congr 1
    apply forLoop_congr
    intro i hi st
    have e2 : (l ++ [a]).getD i 0 = l.getD i 0 := by
      simp [List.getD_eq_getElem?_getD, List.getElem?_append_left hi]
    rw [e2]

theorem forLoop_candidates {σ : Type} (sunken sunkenLocations : Nat → Nat) (cfgs : Configs)
    (i : Nat) (F : Nat → σ → σ) (init : σ) :
    forLoop 0 (if sunken i ≠ 0 then 1 else (cfgs i).length)
        (fun c st => F (if sunken i ≠ 0 then sunkenLocations i else (cfgs i).getD c 0) st) init =
      (candidates sunken sunkenLocations cfgs i).foldl (fun st p => F p st) init := by
  unfold candidates
  by_cases h : sunken i ≠ 0
  · simp only [if_pos h]
    rw [forLoop_zero_succ, forLoop_zero_zero]
    simp
  · simp only [if_neg h]
    exact forLoop_getD (cfgs i) F init

theorem foldl_flatMap_eq {α β σ : Type} (l : List α) (f : α → List β) (g : σ → β → σ) (init : σ) :
    (l.flatMap f).foldl g init = l.foldl (fun st a => (f a).foldl g st) init := by
  induction l generalizing init with
  | nil => simp
  | cons a l ih => rw [List.flatMap_cons, List.foldl_append, ih, List.foldl_cons]

theorem bruteForceTestConfigs_eq_foldl (S : Board) (sunken sunkenLocations : Nat → Nat)
    (cfgs : Configs) (map : Hashmap) :
    bruteForceTestConfigs S sunken sunkenLocations cfgs map =
      (crossProduct (candidates sunken sunkenLocations cfgs)).foldl
        (fun st t => Option.bind st (testConfig S t)) (some (0, map)) := by
  have h4 : ∀ (t3 : Nat → Nat) (st : Option (Int × Hashmap)),
      forLoop 0 (if sunken 4 ≠ 0 then 1 else (cfgs 4).length)
        (fun c5 st => Option.bind st (testConfig S (Function.update t3 4
          (if sunken 4 ≠ 0 then sunkenLocations 4 else (cfgs 4).getD c5 0)))) st =
      (candidates sunken sunkenLocations cfgs 4).foldl
        (fun st p4 => Option.bind st (testConfig S (Function.update t3 4 p4))) st :=
    fun t3 st => forLoop_candidates sunken sunkenLocations cfgs 4
      (fun p st => Option.bind st (testConfig S (Function.update t3 4 p))) st
  have h3 : ∀ (t2 : Nat → Nat) (st : Option (Int × Hashmap)),
      forLoop 0 (if sunken 3 ≠ 0 then 1 else (cfgs 3).length)
        (fun c4 st => (candidates sunken sunkenLocations cfgs 4).foldl
          (fun st p4 => Option.bind st (testConfig S (Function.update (Function.update t2 3
            (if sunken 3 ≠ 0 then sunkenLocations 3 else (cfgs 3).getD c4 0)) 4 p4))) st) st =
      (candidates sunken sunkenLocations cfgs 3).foldl (fun st p3 =>
        (candidates sunken sunkenLocations cfgs 4).foldl
          (fun st p4 => Option.bind st (testConfig S (Function.update (Function.update t2 3 p3)
            4 p4))) st) st :=
    fun t2 st => forLoop_candidates sunken sunkenLocations cfgs 3
      (fun p st => (candidates sunken sunkenLocations cfgs 4).foldl
          (fun st p4 => Option.bind st (testConfig S (Function.update (Function.update t2 3 p)
            4 p4))) st) st
  have h2 : ∀ (t1 : Nat → Nat) (st : Option (Int × Hashmap)),
      forLoop 0 (if sunken 2 ≠ 0 then 1 else (cfgs 2).length)
        (fun c3 st => (candidates sunken sunkenLocations cfgs 3).foldl (fun st p3 =>
          (candidates sunken sunkenLocations cfgs 4).foldl
            (fun st p4 => Option.bind st (testConfig S (Function.update (Function.update
              (Function.update t1 2
                (if sunken 2 ≠ 0 then sunkenLocations 2 else (cfgs 2).getD c3 0)) 3 p3)
              4 p4))) st) st) st =
      (candidates sunken sunkenLocations cfgs 2).foldl (fun st p2 =>
        (candidates sunken sunkenLocations cfgs 3).foldl (fun st p3 =>
          (candidates sunken sunkenLocations cfgs 4).foldl
            (fun st p4 => Option.bind st (testConfig S (Function.update (Function.update
              (Function.update t1 2 p2) 3 p3) 4 p4))) st) st) st :=
    fun t1 st => forLoop_candidates sunken sunkenLocations cfgs 2
      (fun p st => (candidates sunken sunkenLocations cfgs 3).foldl (fun st p3 =>
          (candidates sunken sunkenLocations cfgs 4).foldl
            (fun st p4 => Option.bind st (testConfig S (Function.update (Function.update
              (Function.update t1 2 p) 3 p3) 4 p4))) st) st) st
  have h1 : ∀ (t0 : Nat → Nat) (st : Option (Int × Hashmap)),
      forLoop 0 (if sunken 1 ≠ 0 then 1 else (cfgs 1).length)
        (fun c2 st => (candidates sunken sunkenLocations cfgs 2).foldl (fun st p2 =>
          (candidates sunken sunkenLocations cfgs 3).foldl (fun st p3 =>
            (candidates sunken sunkenLocations cfgs 4).foldl
              (fun st p4 => Option.bind st (testConfig S (Function.update (Function.update
                (Function.update (Function.update t0 1
                  (if sunken 1 ≠ 0 then sunkenLocations 1 else (cfgs 1).getD c2 0)) 2 p2) 3 p3)
                4 p4))) st) st) st) st =
      (candidates sunken sunkenLocations cfgs 1).foldl (fun st p1 =>
        (candidates sunken sunkenLocations cfgs 2).foldl (fun st p2 =>
          (candidates sunken sunkenLocations cfgs 3).foldl (fun st p3 =>
            (candidates sunken sunkenLocations cfgs 4).foldl
              (fun st p4 => Option.bind st (testConfig S (Function.update (Function.update
                (Function.update (Function.update t0 1 p1) 2 p2) 3 p3) 4 p4))) st) st) st) st :=
    fun t0 st => forLoop_candidates sunken sunkenLocations cfgs 1
      (fun p st => (candidates sunken sunkenLocations cfgs 2).foldl (fun st p2 =>
          (candidates sunken sunkenLocations cfgs 3).foldl (fun st p3 =>
            (candidates sunken sunkenLocations cfgs 4).foldl
              (fun st p4 => Option.bind st (testConfig S (Function.update (Function.update
                (Function.update (Function.update t0 1 p) 2 p2) 3 p3) 4 p4))) st) st) st) st
  have h0 : ∀ (st : Option (Int × Hashmap)),
      forLoop 0 (if sunken 0 ≠ 0 then 1 else (cfgs 0).length)
        (fun c1 st => (candidates sunken sunkenLocations cfgs 1).foldl (fun st p1 =>
          (candidates sunken sunkenLocations cfgs 2).foldl (fun st p2 =>
            (candidates sunken sunkenLocations cfgs 3).foldl (fun st p3 =>
              (candidates sunken sunkenLocations cfgs 4).foldl
                (fun st p4 => Option.bind st (testConfig S (Function.update (Function.update
                  (Function.update (Function.update (Function.update (fun _ => 0) 0
                    (if sunken 0 ≠ 0 then sunkenLocations 0 else (cfgs 0).getD c1 0)) 1 p1)
                    2 p2) 3 p3) 4 p4))) st) st) st) st) st =
      (candidates sunken sunkenLocations cfgs 0).foldl (fun st p0 =>
        (candidates sunken sunkenLocations cfgs 1).foldl (fun st p1 =>
          (candidates sunken sunkenLocations cfgs 2).foldl (fun st p2 =>
            (candidates sunken sunkenLocations cfgs 3).foldl (fun st p3 =>
              (candidates sunken sunkenLocations cfgs 4).foldl
                (fun st p4 => Option.bind st (testConfig S (Function.update (Function.update
                  (Function.update (Function.update (Function.update (fun _ => 0) 0 p0) 1 p1)
                    2 p2) 3 p3) 4 p4))) st) st) st) st) st :=
    fun st => forLoop_candidates sunken sunkenLocations cfgs 0
      (fun p st => (candidates sunken sunkenLocations cfgs 1).foldl (fun st p1 =>
          (candidates sunken sunkenLocations cfgs 2).foldl (fun st p2 =>
            (candidates sunken sunkenLocations cfgs 3).foldl (fun st p3 =>
              (candidates sunken sunkenLocations cfgs 4).foldl
                (fun st p4 => Option.bind st (testConfig S (Function.update (Function.update
                  (Function.update (Function.update (Function.update (fun _ => 0) 0 p) 1 p1)
                    2 p2) 3 p3) 4 p4))) st) st) st) st) st
  unfold bruteForceTestConfigs crossProduct fleet
  simp only [h4, h3, h2, h1, h0, foldl_flatMap_eq, List.foldl_map]

theorem hash_of_nonneg (k : Int) (h : 0 ≤ k) : hash k = (k * 2654435761) % 1024 := by
  unfold hash size
  exact Int.tmod_eq_emod (by omega) (by omega)

theorem hash_injective_on_keys (k k2 : Int) (h1 : frequencyKey k) (h2 : frequencyKey k2)
    (h : hash k = hash k2) : k = k2 := by
  unfold frequencyKey at h1 h2
  rw [hash_of_nonneg k h1.1, hash_of_nonneg k2 h2.1] at h
  have hd : (1024 : Int) ∣ (k - k2) * 2654435761 := by omega
  have hd2 : (1024 : Int) ∣ k - k2 :=
    Int.dvd_of_dvd_mul_left_of_gcd_one hd (by decide)
  clear h hd
  obtain ⟨e, he⟩ := hd2
  have hlo : -4 ≤ e := by omega
  have hhi : e ≤ 4 := by omega
  interval_cases e <;> omega

theorem put_frequencyKey (map : Hashmap) (hB : frequencyMap map) (k v : Int)
    (hk : frequencyKey k) :
    ∃ m2, put k v map = some m2 ∧ frequencyMap m2 ∧
      ∀ k2, k2 ≠ -1 → get k2 m2 = if k2 = k then v else get k2 map := by
  have hkey : (map (hash k)).key = -1 ∨ (map (hash k)).key = k := by
    rcases hB (hash k) with h | ⟨h1, h2⟩
    · exact Or.inl h
    · exact Or.inr (hash_injective_on_keys _ _ h1 hk h2)
  have hput : put k v map = some (Function.update map (hash k) ⟨k, v⟩) := by
    unfold put addEntry
    dsimp only
    rcases hkey with h | h
    · rw [if_pos h]
    · by_cases h1 : (map (hash k)).key = -1
      · rw [if_pos h1]
      · rw [if_neg h1, if_pos h.symm, h]
  refine ⟨_, hput, ?_, ?_⟩
  · intro a
    by_cases ha : a = hash k
    · subst ha
      rw [Function.update_same]
      exact Or.inr ⟨hk, rfl⟩
    · rw [Function.update_noteq ha]
      exact hB a
  · intro k2 hk2
    unfold get
    dsimp only
    by_cases ha : hash k2 = hash k
    · rw [ha, Function.update_same]
      dsimp only
      by_cases he : k2 = k
      · rw [if_pos he, if_pos (by omega)]
      · rw [if_neg he, if_neg (by omega)]
        rcases hkey with h | h
        · rw [h, if_neg (by omega)]
        · rw [h, if_neg (by omega)]
    · rw [Function.update_noteq ha]
      have he : k2 ≠ k := fun e => ha (by rw [e])
      rw [if_neg he]

theorem incrementFrequency_spec (t : Nat → Nat) (s : Nat) (map : Hashmap)
    (hB : frequencyMap map) (hk : frequencyKey ((s * 1000 + t s : Nat) : Int)) :
    ∃ m2, incrementFrequency t s map = some m2 ∧ frequencyMap m2 ∧
      ∀ k2, k2 ≠ -1 → get k2 m2 =
        if k2 = ((s * 1000 + t s : Nat) : Int) then incremented (get k2 map) else get k2 map := by
  unfold incrementFrequency
  dsimp only
  by_cases h : get ((s * 1000 + t s : Nat) : Int) map = -1
  · rw [if_pos h]
    obtain ⟨m2, h1, h2, h3⟩ := put_frequencyKey map hB _ 1 hk
    refine ⟨m2, h1, h2, ?_⟩
    intro k2 hk2
    rw [h3 k2 hk2]
    by_cases he : k2 = ((s * 1000 + t s : Nat) : Int)
    · rw [if_pos he, if_pos he, he]
      unfold incremented
      rw [if_pos h]
    · rw [if_neg he, if_neg he]
  · rw [if_neg h]
    obtain ⟨m2, h1, h2, h3⟩ := put_frequencyKey map hB _
      (wrap32 (get ((s * 1000 + t s : Nat) : Int) map + 1)) hk
    refine ⟨m2, h1, h2, ?_⟩
    intro k2 hk2
    rw [h3 k2 hk2]
    by_cases he : k2 = ((s * 1000 + t s : Nat) : Int)
    · rw [if_pos he, if_pos he, he]
      unfold incremented
      rw [if_neg h]
    · rw [if_neg he, if_neg he]

theorem fleetCodes_key (t : Nat → Nat) (ht : fleetCodes t) (s : Nat) (hs : s < 5) :
    frequencyKey ((s * 1000 + t s : Nat) : Int) := by
  have := ht s hs
  unfold frequencyKey
  omega

theorem recordLoop_spec (t : Nat → Nat) (ht : fleetCodes t) (map : Hashmap)
    (hB : frequencyMap map) (n : Nat) (hn : n ≤ 5) :
    ∃ m2, forLoop 0 n (fun s map => Option.bind map (incrementFrequency t s)) (some map) =
        some m2 ∧ frequencyMap m2 ∧
      ∀ k2, k2 ≠ -1 → get k2 m2 =
        if ∃ s, s < n ∧ k2 = ((s * 1000 + t s : Nat) : Int) then incremented (get k2 map)
        else get k2 map := by
  induction n with
  | zero =>
    refine ⟨map, by rw [forLoop_zero_zero], hB, ?_⟩
    intro k2 _
    rw [if_neg]
    rintro ⟨s, hs, _⟩
    exact absurd hs (Nat.not_lt_zero s)
  | succ n ih =>
    obtain ⟨m1, h1, hB1, hg1⟩ := ih (by omega)
    obtain ⟨m2, h2, hB2, hg2⟩ := incrementFrequency_spec t n m1 hB1
      (fleetCodes_key t ht n (by omega))
    refine ⟨m2, ?_, hB2, ?_⟩
    · rw [forLoop_zero_succ, h1]
      exact h2
    · intro k2 hk2
      rw [hg2 k2 hk2, hg1 k2 hk2]
      by_cases he : k2 = ((n * 1000 + t n : Nat) : Int)
      · have hnow : ∃ s, s < n + 1 ∧ k2 = ((s * 1000 + t s : Nat) : Int) :=
          ⟨n, Nat.lt_succ_self n, he⟩
        have hbefore : ¬ ∃ s, s < n ∧ k2 = ((s * 1000 + t s : Nat) : Int) := by
          rintro ⟨s, hs, e⟩
          have b1 := ht s (by omega)
          have b2 := ht n (by omega)
          omega
        rw [if_pos he, if_neg hbefore, if_pos hnow]
      · rw [if_neg he]
        by_cases hex : ∃ s, s < n ∧ k2 = ((s * 1000 + t s : Nat) : Int)
        · obtain ⟨s, hs, e⟩ := hex
          have hnow : ∃ s, s < n + 1 ∧ k2 = ((s * 1000 + t s : Nat) : Int) :=
            ⟨s, Nat.lt_succ_of_lt hs, e⟩
          rw [if_pos ⟨s, hs, e⟩, if_pos hnow]
        · rw [if_neg hex, if_neg]
          rintro ⟨s, hs, e⟩
          rcases Nat.lt_succ_iff_lt_or_eq.1 hs with h | h
          · exact hex ⟨s, h, e⟩
          · subst h; exact he e

theorem mem_fleetKeys (t : Nat → Nat) (k : Int) :
    k ∈ fleetKeys t ↔ ∃ s, s < 5 ∧ k = ((s * 1000 + t s : Nat) : Int) := by
  unfold fleetKeys
  simp only [List.mem_map, List.mem_range]
  constructor
  · rintro ⟨s, hs, e⟩; exact ⟨s, hs, e.symm⟩
  · rintro ⟨s, hs, e⟩; exact ⟨s, hs, e.symm⟩

theorem validCount_append (S : Board) (ts : List (Nat → Nat)) (t : Nat → Nat) :
    validCount S (ts ++ [t]) = validCount S ts + (if validConfig S t = 1 then 1 else 0) := by
  unfold validCount
  rw [List.filter_append, List.length_append]
  by_cases h : validConfig S t = 1
  · simp [List.filter_cons, h]
  · simp [List.filter_cons, h]

theorem keyCount_append (S : Board) (k : Int) (ts : List (Nat → Nat)) (t : Nat → Nat) :
    keyCount S k (ts ++ [t]) =
      keyCount S k ts + (if validConfig S t = 1 ∧ k ∈ fleetKeys t then 1 else 0) := by
  unfold keyCount
  rw [List.filter_append, List.length_append]
  by_cases h : validConfig S t = 1 ∧ k ∈ fleetKeys t
  · simp [List.filter_cons, h]
  · rw [if_neg h]
    rw [not_and_or] at h
    rcases h with h | h <;> simp [List.filter_cons, h]

theorem validCount_le_length (S : Board) (ts : List (Nat → Nat)) :
    validCount S ts ≤ ts.length := by
  unfold validCount
  exact List.length_filter_le _ _

theorem keyCount_le_validCount (S : Board) (k : Int) (ts : List (Nat → Nat)) :
    keyCount S k ts ≤ validCount S ts := by
  induction ts using List.reverseRecOn with
  | nil => simp [keyCount, validCount]
  | append_singleton ts t ih =>
    rw [keyCount_append, validCount_append]
    by_cases h : validConfig S t = 1
    · rw [if_pos h]
      split_ifs <;> omega
    · rw [if_neg h, if_neg (fun hh => h hh.1)]
      omega

theorem testConfig_spec (S : Board) (ts : List (Nat → Nat)) (t : Nat → Nat) (st : Int × Hashmap)
    (hst : searchState S ts st) (ht : fleetCodes t)
    (hlen : (ts ++ [t]).length < 2147483648) :
    ∃ st2, testConfig S t st = some st2 ∧ searchState S (ts ++ [t]) st2 := by
  obtain ⟨hB, hv, hg⟩ := hst
  have hvl := validCount_le_length S ts
  rw [List.length_append, List.length_singleton] at hlen
  unfold testConfig
  by_cases hval : validConfig S t = 1
  · have hne : validConfig S t ≠ 0 := by omega
    rw [if_pos hne]
    obtain ⟨m2, h1, hB2, hg2⟩ := recordLoop_spec t ht st.2 hB 5 (le_refl 5)
    refine ⟨(wrap32 (st.1 + 1), m2), ?_, hB2, ?_, ?_⟩
    · dsimp only
      rw [h1]
      rfl
    · dsimp only
      rw [validCount_append, if_pos hval, hv, wrap32_of_range _ (by omega) (by omega)]
      push_cast
      rfl
    · intro k hk
      dsimp only
      have hkl := keyCount_le_validCount S k ts
      have hget := hg k hk
      have hnew := hg2 k hk
      have hcnt := keyCount_append S k ts t
      by_cases hmem : k ∈ fleetKeys t
      · rw [if_pos ((mem_fleetKeys t k).1 hmem)] at hnew
        rw [if_pos (And.intro hval hmem)] at hcnt
        rw [hnew, hcnt, hget]
        unfold incremented
        by_cases hc : keyCount S k ts = 0
        · rw [hc]
          simp
        · have h1 : ((keyCount S k ts : Nat) : Int) ≠ -1 := by omega
          have h2 : keyCount S k ts + 1 ≠ 0 := by omega
          rw [if_neg hc, if_neg h1, if_neg h2, wrap32_of_range _ (by omega) (by omega)]
          push_cast
          rfl
      · rw [if_neg (fun hh => hmem ((mem_fleetKeys t k).2 hh))] at hnew
        rw [if_neg (fun hh : validConfig S t = 1 ∧ k ∈ fleetKeys t => hmem hh.2)] at hcnt
        rw [hnew, hcnt, hget]
        simp
  · have he : validConfig S t = 0 := by
      rcases validConfig_le_one S t with h | h
      · exact h
      · exact absurd h hval
    rw [if_neg (by omega)]
    refine ⟨st, rfl, hB, ?_, ?_⟩
    · rw [validCount_append, if_neg hval, hv]; simp
    · intro k hk
      have hcnt := keyCount_append S k ts t
      rw [if_neg (fun hh : validConfig S t = 1 ∧ k ∈ fleetKeys t => hval hh.1)] at hcnt
      rw [hg k hk, hcnt]
      simp

theorem search_foldl_spec (S : Board) (rest : List (Nat → Nat)) :
    ∀ (ts : List (Nat → Nat)) (st : Int × Hashmap), searchState S ts st →
      (∀ t ∈ rest, fleetCodes t) → (ts ++ rest).length < 2147483648 →
      ∃ st2, rest.foldl (fun st t => Option.bind st (testConfig S t)) (some st) = some st2 ∧
        searchState S (ts ++ rest) st2 := by
  induction rest with
  | nil =>
    intro ts st hst _ _
    exact ⟨st, rfl, by rw [List.append_nil]; exact hst⟩
  | cons t rest ih =>
    intro ts st hst hcodes hlen
    have hlen2 : (ts ++ [t] ++ rest).length < 2147483648 := by
      rw [List.append_assoc]; exact hlen
    have hlen1 : (ts ++ [t]).length < 2147483648 := by
      rw [List.length_append] at hlen2; omega
    obtain ⟨st1, h1, hst1⟩ := testConfig_spec S ts t st hst
      (hcodes t (List.mem_cons_self _ _)) hlen1
    obtain ⟨st2, h2, hst2⟩ := ih (ts ++ [t]) st1 hst1
      (fun u hu => hcodes u (List.mem_cons_of_mem _ hu)) hlen2
    refine ⟨st2, ?_, ?_⟩
    · rw [List.foldl_cons]
      show List.foldl _ (testConfig S t st) rest = _
      rw [h1]; exact h2
    · have e : ts ++ t :: rest = ts ++ [t] ++ rest := by simp
      rw [e]; exact hst2

theorem searchState_fresh (S : Board) (junk : Int → Int) :
    searchState S [] (0, initializeHashmap junk) := by
  refine ⟨?_, ?_, ?_⟩
  · intro a; left; rfl
  · simp [validCount]
  · intro k hk
    have hc : keyCount S k [] = 0 := by simp [keyCount]
    rw [hc, if_pos rfl]
    unfold get initializeHashmap
    dsimp only
    rw [if_neg (by omega)]

theorem fleet_apply (p0 p1 p2 p3 p4 : Nat) :
    fleet p0 p1 p2 p3 p4 0 = p0 ∧ fleet p0 p1 p2 p3 p4 1 = p1 ∧ fleet p0 p1 p2 p3 p4 2 = p2 ∧
      fleet p0 p1 p2 p3 p4 3 = p3 ∧ fleet p0 p1 p2 p3 p4 4 = p4 := by
  unfold fleet
  simp [Function.update]

theorem mem_crossProduct (cand : Nat → List Nat) (t : Nat → Nat) (h : t ∈ crossProduct cand) :
    ∀ s, s < 5 → t s ∈ cand s := by
  unfold crossProduct at h
  simp only [List.mem_flatMap, List.mem_map] at h
  obtain ⟨p0, h0, p1, h1, p2, h2, p3, h3, p4, h4, rfl⟩ := h
  obtain ⟨e0, e1, e2, e3, e4⟩ := fleet_apply p0 p1 p2 p3 p4
  intro s hs
  interval_cases s
  · rw [e0]; exact h0
  · rw [e1]; exact h1
  · rw [e2]; exact h2
  · rw [e3]; exact h3
  · rw [e4]; exact h4

theorem insideBoard_codes (s p : Nat) (hs : s < 5) (h : insideBoard s p) :
    p % 10 ≤ 1 ∧ p / 100 ≤ 9 := by
  have hL : 0 < shipLengthFromIndex s := by
    interval_cases s <;> simp [shipLengthFromIndex]
  have := insideBoard_cell s p h 0 hL
  split_ifs at this <;> omega

theorem crossProduct_fleetCodes (cand : Nat → List Nat)
    (hin : ∀ s, s < 5 → ∀ p ∈ cand s, insideBoard s p) :
    ∀ t ∈ crossProduct cand, fleetCodes t := by
  intro t ht s hs
  exact insideBoard_codes s (t s) hs (hin s hs _ (mem_crossProduct cand t ht s hs))

theorem bruteForceTestConfigs_spec (S : Board) (sunken sunkenLocations : Nat → Nat)
    (cfgs : Configs) (junk : Int → Int)
    (hin : ∀ s, s < 5 → ∀ p ∈ candidates sunken sunkenLocations cfgs s, insideBoard s p)
    (hlen : (crossProduct (candidates sunken sunkenLocations cfgs)).length < 2147483648) :
    ∃ st, bruteForceTestConfigs S sunken sunkenLocations cfgs (initializeHashmap junk) = some st ∧
      searchState S (crossProduct (candidates sunken sunkenLocations cfgs)) st := by
  rw [bruteForceTestConfigs_eq_foldl]
  have := search_foldl_spec S (crossProduct (candidates sunken sunkenLocations cfgs)) []
    (0, initializeHashmap junk) (searchState_fresh S junk)
    (crossProduct_fleetCodes _ hin) (by simpa using hlen)
  simpa using this

theorem length_flatMap_const {α β : Type} (l : List α) (f : α → List β) (c : Nat)
    (h : ∀ a, (f a).length = c) : (l.flatMap f).length = l.length * c := by
  induction l with
  | nil => simp
  | cons a l ih =>
    rw [List.flatMap_cons, List.length_append, ih, h a, List.length_cons]
    ring

theorem length_crossProduct (cand : Nat → List Nat) :
    (crossProduct cand).length =
      (cand 0).length * (cand 1).length * (cand 2).length * (cand 3).length *
        (cand 4).length := by
  unfold crossProduct
  rw [length_flatMap_const _ _ ((cand 1).length * ((cand 2).length * ((cand 3).length *
    (cand 4).length)))]
  · ring
  · intro p0
    rw [length_flatMap_const _ _ ((cand 2).length * ((cand 3).length * (cand 4).length))]
    intro p1
    rw [length_flatMap_const _ _ ((cand 3).length * (cand 4).length)]
    intro p2
    rw [length_flatMap_const _ _ (cand 4).length]
    intro p3
    rw [List.length_map]

theorem keyCount_eq_occupiedCount (S : Board) (s p : Nat) (hs : s < 5) (hp : p < 1000)
    (ts : List (Nat → Nat)) (hts : ∀ t ∈ ts, fleetCodes t) :
    keyCount S ((s * 1000 + p : Nat) : Int) ts = occupiedCount S s p ts := by
  unfold keyCount occupiedCount
  congr 1
  apply List.filter_congr
  intro t ht
  have hmem : ((s * 1000 + p : Nat) : Int) ∈ fleetKeys t ↔ t s = p := by
    rw [mem_fleetKeys]
    constructor
    · rintro ⟨s2, hs2, e⟩
      have b := hts t ht s2 hs2
      have e2 : s * 1000 + p = s2 * 1000 + t s2 := by exact_mod_cast e
      have e3 : s = s2 := by omega
      subst e3
      omega
    · intro e
      exact ⟨s, hs, by rw [e]⟩
  rw [decide_eq_decide.2 hmem]

/-- C8. `bruteForceTestConfigs` returns the exact number of valid fleets: run
on a fresh frequency map, with every candidate placement inside the board and
fewer than `2^31` tuples, it tests the tuples of the cross product of the
candidate lists one after the other, each once (a non-sunk ship ranges over its
placement list, a sunk ship has the single placement `sunkenLocations[s]`), and
the value it returns is the number of tuples for which `validConfig` returns
1. -/
theorem bruteForceTestConfigs_counts_valid_fleets (S : Board)
    (sunken sunkenLocations : Nat → Nat) (shipConfigs : Configs) (junk : Int → Int)
    (hin : ∀ s, s < 5 → ∀ p ∈ candidates sunken sunkenLocations shipConfigs s, insideBoard s p)
    (hsize : (candidates sunken sunkenLocations shipConfigs 0).length *
      (candidates sunken sunkenLocations shipConfigs 1).length *
      (candidates sunken sunkenLocations shipConfigs 2).length *
      (candidates sunken sunkenLocations shipConfigs 3).length *
      (candidates sunken sunkenLocations shipConfigs 4).length < 2147483648) :
    (∃ map, bruteForceTestConfigs S sunken sunkenLocations shipConfigs
        (initializeHashmap junk) =
      some ((validCount S (crossProduct (candidates sunken sunkenLocations shipConfigs)) : Int),
        map)) ∧
    bruteForceTestConfigs S sunken sunkenLocations shipConfigs (initializeHashmap junk) =
      (crossProduct (candidates sunken sunkenLocations shipConfigs)).foldl
        (fun st t => Option.bind st (testConfig S t)) (some (0, initializeHashmap junk)) := by
  refine ⟨?_, bruteForceTestConfigs_eq_foldl S sunken sunkenLocations shipConfigs _⟩
  obtain ⟨st, h1, _, h2, _⟩ := bruteForceTestConfigs_spec S sunken sunkenLocations shipConfigs
    junk hin (by rw [length_crossProduct]; exact hsize)
  refine ⟨st.2, ?_⟩
  rw [h1, ← h2]

theorem example_inside :
    ∀ s, s < 5 → ∀ p ∈ candidates exampleSunken exampleLocations exampleConfigs s,
      insideBoard s p := by
  decide

/-- Witness of C8: ship 0 has three candidate placements and the other ships
are sunk side by side; two of the three fleets are valid. -/
theorem bruteForceTestConfigs_counts_valid_fleets_witness :
    ∃ map, bruteForceTestConfigs initBoard exampleSunken exampleLocations exampleConfigs
      (initializeHashmap (fun _ => 0)) = some (((2 : Nat) : Int), map) := by
  have h := (bruteForceTestConfigs_counts_valid_fleets initBoard exampleSunken exampleLocations
    exampleConfigs (fun _ => 0) example_inside (by decide)).1
  have e : validCount initBoard
      (crossProduct (candidates exampleSunken exampleLocations exampleConfigs)) = 2 := by
    decide
  rw [e] at h
  exact h

/-- C9. Frequency records after the exhaustive search: run on a fresh frequency
map, with every candidate placement inside the board and fewer than `2^31`
tuples, `bruteForceTestConfigs` leaves a map in which, for every ship `s` and
every placement code `p`, `get (s*1000 + p)` is the number of valid fleets of
the cross product in which ship `s` occupies `p` when that number is at least
1, and `-1` when it is 0. -/
theorem bruteForceTestConfigs_frequencies (S : Board)
    (sunken sunkenLocations : Nat → Nat) (shipConfigs : Configs) (junk : Int → Int)
    (hin : ∀ s, s < 5 → ∀ p ∈ candidates sunken sunkenLocations shipConfigs s, insideBoard s p)
    (hsize : (candidates sunken sunkenLocations shipConfigs 0).length *
      (candidates sunken sunkenLocations shipConfigs 1).length *
      (candidates sunken sunkenLocations shipConfigs 2).length *
      (candidates sunken sunkenLocations shipConfigs 3).length *
      (candidates sunken sunkenLocations shipConfigs 4).length < 2147483648) :
    ∃ validConfigs map,
      bruteForceTestConfigs S sunken sunkenLocations shipConfigs (initializeHashmap junk) =
        some (validConfigs, map) ∧
      ∀ s, s < 5 → ∀ p, p < 1000 →
        get ((s * 1000 + p : Nat) : Int) map =
          if occupiedCount S s p (crossProduct (candidates sunken sunkenLocations shipConfigs)) = 0
          then -1
          else (occupiedCount S s p
            (crossProduct (candidates sunken sunkenLocations shipConfigs)) : Int) := by
  obtain ⟨st, h1, _, _, h3⟩ := bruteForceTestConfigs_spec S sunken sunkenLocations shipConfigs
    junk hin (by rw [length_crossProduct]; exact hsize)
  refine ⟨st.1, st.2, h1, ?_⟩
  intro s hs p hp
  rw [h3 _ (by omega), keyCount_eq_occupiedCount S s p hs hp _ (crossProduct_fleetCodes _ hin)]

/-- Witness of C9 on the same search: ship 0 stands upward from (0,0) in one
valid fleet and lies rightward from (0,0) in none; ship 1 is in both. -/
theorem bruteForceTestConfigs_frequencies_witness :
    ∃ validConfigs map,
      bruteForceTestConfigs initBoard exampleSunken exampleLocations exampleConfigs
        (initializeHashmap (fun _ => 0)) = some (validConfigs, map) ∧
      get ((0 * 1000 + 0 : Nat) : Int) map = 1 ∧ get ((0 * 1000 + 1 : Nat) : Int) map = -1 ∧
      get ((1 * 1000 + 10 : Nat) : Int) map = 2 := by
  obtain ⟨v, m, h1, h2⟩ := bruteForceTestConfigs_frequencies initBoard exampleSunken
    exampleLocations exampleConfigs (fun _ => 0) example_inside (by decide)
  refine ⟨v, m, h1, ?_, ?_, ?_⟩
  · rw [h2 0 (by decide) 0 (by decide)]; decide
  · rw [h2 0 (by decide) 1 (by decide)]; decide
  · rw [h2 1 (by decide) 10 (by decide)]; decide

/-! ### determineShipCollisions -/

set_option maxRecDepth 100000 in
/-- C7, at a failing input. On the board whose only unguessed squares are
(0,0), (1,0), (0,1), (1,1), (1,2) and (1,3), the placement 0 of ship 0 and the
placement 110 of ship 1 are both generated and their footprints share no
square, yet the lookup of `testCollide` for them finds the value 67: it was
stored for the colliding placements 1 of ship 0 and 10 of ship 1, whose key is
the same, as `0 * 100 + 110 = 1 * 100 + 10`. -/
theorem determineShipCollisions_key_alias :
    wellFormed cornerBoard ∧
      0 ∈ generateShipConfigs cornerBoard 0 ∧ 110 ∈ generateShipConfigs cornerBoard 1 ∧
      (∀ sq ∈ footprint 0 0, sq ∉ footprint 1 110) ∧ shipConfigsCollide 0 1 0 110 = 0 ∧
      shipConfigsCollide 0 1 1 10 = 1 ∧
      (determineShipCollisions (generateShipConfigs cornerBoard)
        (initializeHashmap (fun _ => 0))).map (testCollide 0 0 1 1 0 1 0 0) = some 67 := by
  decide

/-! ### The generated lists as candidates of the search -/

/-- On a well-formed board every generated placement lies inside the board, as
the searches and the selector assume of the lists they read. -/
theorem generateShipConfigs_inside (S : Board) (hS : wellFormed S) (s : Nat) (hs : s < 5)
    (c : Nat) (hc : c ∈ generateShipConfigs S s) : insideBoard s c := by
  obtain ⟨⟨ho, hy⟩, hcells⟩ := (mem_generateShipConfigs S s hs c).1 hc
  refine ⟨ho, ?_⟩
  intro sq hsq
  obtain ⟨l, hl, rfl⟩ := (footprint_mem s c sq).1 hsq
  have hL := shipLengthFromIndex_le s
  have hcell := hcells l hl
  unfold cellOf at hcell
  split_ifs at hcell ⊢ with h1
  · have := wellFormed_odd S hS _ _ (by omega) (by omega) hcell
    simp only
    omega
  · have := wellFormed_odd S hS _ _ (by omega) (by omega) hcell
    simp only
    omega

/-! ### numConfigsToBeTested and the choice of the search -/

set_option maxRecDepth 100000 in
theorem allCodes_length : allCodes.length = 200 := by
  decide

theorem length_generateShipConfigs_le (S : Board) (s : Nat) (hs : s < 5) :
    (generateShipConfigs S s).length ≤ 200 := by
  rw [generateShipConfigs_eq_filter S s hs]
  exact le_trans (List.length_filter_le _ _) (le_of_eq allCodes_length)

theorem numConfigsLoop_eq (round : ℚ → ℚ) (hround : exactOnIntegers round)
    (sunken : Nat → Nat) (cfgs : Configs) (hlen : ∀ i, i < 5 → (cfgs i).length ≤ 200)
    (n : Nat) (hn : n ≤ 5) :
    forLoop 0 n (fun i num =>
        if sunken i = 0 then round (num * ((cfgs i).length : ℚ)) else num) 1 =
      ((((List.range n).map (fun i => if sunken i = 0 then (cfgs i).length else 1)).prod : Nat) : ℚ)
      ∧ ((List.range n).map (fun i => if sunken i = 0 then (cfgs i).length else 1)).prod
        ≤ 200 ^ n := by
  induction n with
  | zero => simp [forLoop_zero_zero]
  | succ n ih =>
    obtain ⟨h1, h2⟩ := ih (by omega)
    have hl := hlen n (by omega)
    rw [forLoop_zero_succ, h1, List.range_succ, List.map_append, List.prod_append,
      List.map_singleton, List.prod_singleton]
    have hpow : 200 ^ (n + 1) ≤ 200 ^ 5 := Nat.pow_le_pow_right (by omega) hn
    by_cases hs : sunken n = 0
    · simp only [hs, if_true]
      have hb : ((List.range n).map (fun i => if sunken i = 0 then (cfgs i).length else 1)).prod *
          (cfgs n).length ≤ 200 ^ (n + 1) := by
        rw [pow_succ]
        exact Nat.mul_le_mul h2 hl
      refine ⟨?_, hb⟩
      rw [← Nat.cast_mul]
      exact hround _ (le_trans hb (le_trans hpow (by norm_num)))
    · simp only [hs, if_false]
      refine ⟨by simp, ?_⟩
      rw [pow_succ, Nat.mul_one]
      exact le_trans h2 (Nat.le_mul_of_pos_right _ (by omega))

theorem numConfigsToBeTested_eq (round : ℚ → ℚ) (hround : exactOnIntegers round)
    (sunken : Nat → Nat) (cfgs : Configs) (hlen : ∀ i, i < 5 → (cfgs i).length ≤ 200) :
    numConfigsToBeTested round sunken cfgs = ((configProduct sunken cfgs : Nat) : ℚ) := by
  unfold numConfigsToBeTested configProduct
  exact (numConfigsLoop_eq round hround sunken cfgs hlen 5 (le_refl 5)).1


theorem generateMove_move (round : ℚ → ℚ) (env : Environment) (g : Game) :
    (g.generateMove round env).1 =
      if numConfigsToBeTested round g.sunken (generateShipConfigs g.S) > (MAX_CONFIGS_TESTED : ℚ)
      then (randomlyTestConfigs g.S env.random g.sunken g.sunkenLocations
          (generateShipConfigs g.S) (initializeHashmap env.frequencyJunk)).map
        (fun r => calculateBestMove g.S g.sunken (generateShipConfigs g.S) r.2 r.1)
      else (bruteForceTestConfigs g.S g.sunken g.sunkenLocations
          (generateShipConfigs g.S) (initializeHashmap env.frequencyJunk)).map
        (fun r => calculateBestMove g.S g.sunken (generateShipConfigs g.S) r.2 r.1) := by
  unfold Game.generateMove
  dsimp only
  by_cases h : numConfigsToBeTested round g.sunken (generateShipConfigs g.S) >
      (MAX_CONFIGS_TESTED : ℚ)
  · have h2 : numConfigsToBeTested round
        (Game.determineShipCollisions (Game.generateShipConfigs
          { g with shipCollisionMap := some (initializeHashmap env.collisionJunk)
                   shipPositionFrequencyMap := some (initializeHashmap env.frequencyJunk) })).sunken
        (Game.determineShipCollisions (Game.generateShipConfigs
          { g with shipCollisionMap := some (initializeHashmap env.collisionJunk)
                   shipPositionFrequencyMap := some (initializeHashmap env.frequencyJunk) })).shipConfigs
        > (MAX_CONFIGS_TESTED : ℚ) := h
    rw [if_pos h, if_pos h2]
    unfold Game.randomlyTestConfigs Game.calculateBestMove Game.determineShipCollisions
      Game.generateShipConfigs
    dsimp only
    have e : (some (initializeHashmap env.frequencyJunk)).bind
        (randomlyTestConfigs g.S env.random g.sunken g.sunkenLocations
          (generateShipConfigs g.S)) =
        randomlyTestConfigs g.S env.random g.sunken g.sunkenLocations
          (generateShipConfigs g.S) (initializeHashmap env.frequencyJunk) :=
      Option.some_bind (initializeHashmap env.frequencyJunk) (randomlyTestConfigs g.S env.random g.sunken g.sunkenLocations
          (generateShipConfigs g.S))
    rw [e]
    generalize randomlyTestConfigs g.S env.random g.sunken g.sunkenLocations
      (generateShipConfigs g.S) (initializeHashmap env.frequencyJunk) = res
    cases res with
    | none => simp only [Option.map_none', Option.none_bind]
    | some val => simp only [Option.map_some', Option.some_bind]
  · have h2 : ¬ numConfigsToBeTested round
        (Game.determineShipCollisions (Game.generateShipConfigs
          { g with shipCollisionMap := some (initializeHashmap env.collisionJunk)
                   shipPositionFrequencyMap := some (initializeHashmap env.frequencyJunk) })).sunken
        (Game.determineShipCollisions (Game.generateShipConfigs
          { g with shipCollisionMap := some (initializeHashmap env.collisionJunk)
                   shipPositionFrequencyMap := some (initializeHashmap env.frequencyJunk) })).shipConfigs
        > (MAX_CONFIGS_TESTED : ℚ) := h
    rw [if_neg h, if_neg h2]
    unfold Game.bruteForceTestConfigs Game.calculateBestMove Game.determineShipCollisions
      Game.generateShipConfigs
    dsimp only
    have e : (some (initializeHashmap env.frequencyJunk)).bind
        (bruteForceTestConfigs g.S g.sunken g.sunkenLocations (generateShipConfigs g.S)) =
        bruteForceTestConfigs g.S g.sunken g.sunkenLocations
          (generateShipConfigs g.S) (initializeHashmap env.frequencyJunk) :=
      Option.some_bind (initializeHashmap env.frequencyJunk)
        (bruteForceTestConfigs g.S g.sunken g.sunkenLocations (generateShipConfigs g.S))
    rw [e]
    generalize bruteForceTestConfigs g.S g.sunken g.sunkenLocations
      (generateShipConfigs g.S) (initializeHashmap env.frequencyJunk) = res
    cases res with
    | none => simp only [Option.map_none', Option.none_bind]
    | some val => simp only [Option.map_some', Option.some_bind]

theorem numConfigsToBeTested_gt_iff (round : ℚ → ℚ) (hround : exactOnIntegers round)
    (sunken : Nat → Nat) (S : Board) :
    numConfigsToBeTested round sunken (generateShipConfigs S) > (MAX_CONFIGS_TESTED : ℚ) ↔
      MAX_CONFIGS_TESTED < configProduct sunken (generateShipConfigs S) := by
  rw [numConfigsToBeTested_eq round hround sunken _
    (fun i hi => length_generateShipConfigs_le S i hi)]
  exact Nat.cast_lt

/-- C11. Strategy selection in `generateMove`, for `double` arithmetic that is
exact on the integers up to `2^53`: the value `numConfigsToBeTested` computes
from the generated lists is exactly the product of the list sizes of the ships
that are not sunk; the sampled search is what the move comes from if the
product exceeds `MAX_CONFIGS_TESTED`, and the exhaustive search if it does
not; these are the only two cases, as the test `configsToBeTested >
MAX_CONFIGS_TESTED` holds exactly when the product exceeds 10,000,000. -/
theorem generateMove_strategy (round : ℚ → ℚ) (hround : exactOnIntegers round)
    (env : Environment) (g : Game) :
    numConfigsToBeTested round g.sunken (generateShipConfigs g.S) =
        ((configProduct g.sunken (generateShipConfigs g.S) : Nat) : ℚ) ∧
      (numConfigsToBeTested round g.sunken (generateShipConfigs g.S) >
          (MAX_CONFIGS_TESTED : ℚ) ↔
        10000000 < configProduct g.sunken (generateShipConfigs g.S)) ∧
      (configProduct g.sunken (generateShipConfigs g.S) ≤ 10000000 →
        (g.generateMove round env).1 =
          (bruteForceTestConfigs g.S g.sunken g.sunkenLocations (generateShipConfigs g.S)
            (initializeHashmap env.frequencyJunk)).map
          (fun r => calculateBestMove g.S g.sunken (generateShipConfigs g.S) r.2 r.1)) ∧
      (10000000 < configProduct g.sunken (generateShipConfigs g.S) →
        (g.generateMove round env).1 =
          (randomlyTestConfigs g.S env.random g.sunken g.sunkenLocations
            (generateShipConfigs g.S) (initializeHashmap env.frequencyJunk)).map
          (fun r => calculateBestMove g.S g.sunken (generateShipConfigs g.S) r.2 r.1)) := by
  have hiff := numConfigsToBeTested_gt_iff round hround g.sunken g.S
  have hmax : MAX_CONFIGS_TESTED = 10000000 := rfl
  rw [hmax] at hiff
  refine ⟨numConfigsToBeTested_eq round hround g.sunken _
    (fun i hi => length_generateShipConfigs_le g.S i hi), ?_, ?_, ?_⟩
  · rw [hmax]; exact hiff
  · intro h
    rw [generateMove_move, if_neg]
    rw [hmax, hiff]
    omega
  · intro h
    rw [generateMove_move, if_pos]
    rw [hmax, hiff]
    exact h

/-- Witness of C11: arithmetic that rounds nothing, on the state after `init`. -/
theorem generateMove_strategy_witness :
    exactOnIntegers id ∧
      numConfigsToBeTested id initGame.sunken (generateShipConfigs initGame.S) =
        ((configProduct initGame.sunken (generateShipConfigs initGame.S) : Nat) : ℚ) :=
  ⟨fun _ _ => rfl, (generateMove_strategy id (fun _ _ => rfl) zeroEnvironment initGame).1⟩

/-! ### The hash of the frequency keys -/

/-- C20. Frequency keys never share a hash bucket: two distinct keys
`s*1000 + sq*10 + o` with `s` in 0..4, `sq` in 0..99 and `o` in \{0,1\} have
different hashes, and on a map that holds frequency keys only, each at the
address of its hash, an insertion under a frequency key has a result: it does
not reach the chaining case of `addEntry`. -/
theorem frequency_keys_distinct_buckets :
    (∀ s sq o s2 sq2 o2 : Nat, s < 5 → sq < 100 → o ≤ 1 → s2 < 5 → sq2 < 100 → o2 ≤ 1 →
        s * 1000 + sq * 10 + o ≠ s2 * 1000 + sq2 * 10 + o2 →
        hash ((s * 1000 + sq * 10 + o : Nat) : Int) ≠
          hash ((s2 * 1000 + sq2 * 10 + o2 : Nat) : Int)) ∧
      (∀ (map : Hashmap) (s sq o : Nat) (v : Int), frequencyMap map → s < 5 → sq < 100 →
        o ≤ 1 →
        ∃ m2, addEntry ⟨((s * 1000 + sq * 10 + o : Nat) : Int), v⟩ map = some m2 ∧
          frequencyMap m2) := by
  constructor
  · intro s sq o s2 sq2 o2 hs hsq ho hs2 hsq2 ho2 hne hh
    apply hne
    have h1 : frequencyKey ((s * 1000 + sq * 10 + o : Nat) : Int) := by
      unfold frequencyKey; omega
    have h2 : frequencyKey ((s2 * 1000 + sq2 * 10 + o2 : Nat) : Int) := by
      unfold frequencyKey; omega
    have := hash_injective_on_keys _ _ h1 h2 hh
    exact_mod_cast this
  · intro map s sq o v hB hs hsq ho
    have h1 : frequencyKey ((s * 1000 + sq * 10 + o : Nat) : Int) := by
      unfold frequencyKey; omega
    obtain ⟨m2, hput, hB2, _⟩ := put_frequencyKey map hB _ v h1
    exact ⟨m2, hput, hB2⟩

/-- Witness of C20: the keys of ship 0 at placement 0 and of ship 1 at
placement 21 have different hashes. -/
theorem frequency_keys_distinct_buckets_witness :
    hash ((0 * 1000 + 0 * 10 + 0 : Nat) : Int) ≠ hash ((1 * 1000 + 2 * 10 + 1 : Nat) : Int) :=
  frequency_keys_distinct_buckets.1 0 0 0 1 2 1 (by decide) (by decide) (by decide) (by decide)
    (by decide) (by decide) (by decide)

/-! ### The padding boundary on the initial board -/

theorem initBoard_odd (r c : Nat) :
    initBoard r c % 2 = 1 ↔ 4 ≤ r ∧ r < 14 ∧ 4 ≤ c ∧ c < 14 := by
  unfold initBoard
  split_ifs with h
  · simp [h]
  · simp [h]

theorem shipLengthFromIndex_pos (s : Nat) (hs : s < 5) : 0 < shipLengthFromIndex s := by
  interval_cases s <;> simp [shipLengthFromIndex]

/-- C16. Padding boundary on the board `init` produces: for a ship of length
`L`, the upward placement anchored at `(x, y)` is generated exactly when
`y ≤ 10 - L`, and the rightward one exactly when `x ≤ 10 - L`; for the length-5
ship the last anchors generated are row 5 upward and column 5 rightward. -/
theorem generateShipConfigs_initBoard (s x y : Nat) (hs : s < 5) (hx : x ≤ 9) (hy : y ≤ 9) :
    (y * 100 + x * 10 + 0 ∈ generateShipConfigs initBoard s ↔
        y + shipLengthFromIndex s ≤ 10) ∧
      (y * 100 + x * 10 + 1 ∈ generateShipConfigs initBoard s ↔
        x + shipLengthFromIndex s ≤ 10) := by
  have hL := shipLengthFromIndex_pos s hs
  constructor
  · rw [mem_generateShipConfigs initBoard s hs]
    have e1 : (y * 100 + x * 10 + 0) % 10 = 0 := by omega
    have e2 : (y * 100 + x * 10 + 0) / 10 % 10 = x := by omega
    have e3 : (y * 100 + x * 10 + 0) / 100 = y := by omega
    unfold cellOf
    rw [e1, e2, e3]
    simp only [zero_ne_one, if_false, initBoard_odd]
    constructor
    · rintro ⟨_, h⟩
      have := h (shipLengthFromIndex s - 1) (by omega)
      omega
    · intro h
      refine ⟨by omega, fun l hl => by omega⟩
  · rw [mem_generateShipConfigs initBoard s hs]
    have e1 : (y * 100 + x * 10 + 1) % 10 = 1 := by omega
    have e2 : (y * 100 + x * 10 + 1) / 10 % 10 = x := by omega
    have e3 : (y * 100 + x * 10 + 1) / 100 = y := by omega
    unfold cellOf
    rw [e1, e2, e3]
    simp only [if_true, initBoard_odd]
    constructor
    · rintro ⟨_, h⟩
      have := h (shipLengthFromIndex s - 1) (by omega)
      omega
    · intro h
      refine ⟨by omega, fun l hl => by omega⟩

/-- Witness of C16 for the length-5 ship in column 0: the upward placement
anchored in row 5 is generated and the one anchored in row 6 is not. -/
theorem generateShipConfigs_initBoard_witness :
    5 * 100 + 0 * 10 + 0 ∈ generateShipConfigs initBoard 4 ∧
      6 * 100 + 0 * 10 + 0 ∉ generateShipConfigs initBoard 4 :=
  ⟨(generateShipConfigs_initBoard 4 0 5 (by decide) (by decide) (by decide)).1.2 (by decide),
    fun h => absurd
      ((generateShipConfigs_initBoard 4 0 6 (by decide) (by decide) (by decide)).1.1 h)
      (by decide)⟩

/-! ### promptShipSinkage -/

theorem setColumnLoop_eq (S : Board) (r0 c0 n : Nat) :
    forLoop 0 n (fun i S => setCell S (r0 + i) c0 4) S =
      fun r c => if (∃ i, i < n ∧ r = r0 + i) ∧ c = c0 then 4 else S r c := by
  induction n with
  | zero =>
    rw [forLoop_zero_zero]
    funext r c
    rw [if_neg]
    rintro ⟨⟨i, hi, _⟩, _⟩
    exact absurd hi (Nat.not_lt_zero i)
  | succ n ih =>
    rw [forLoop_zero_succ, ih]
    funext r c
    unfold setCell
    by_cases h1 : r = r0 + n ∧ c = c0
    · have h2 : (∃ i, i < n + 1 ∧ r = r0 + i) ∧ c = c0 := ⟨⟨n, by omega, h1.1⟩, h1.2⟩
      rw [if_pos h1, if_pos h2]
    · rw [if_neg h1]
      beta_reduce
      by_cases h3 : (∃ i, i < n ∧ r = r0 + i) ∧ c = c0
      · obtain ⟨⟨i, hi, e⟩, hc⟩ := h3
        have h2 : (∃ i, i < n + 1 ∧ r = r0 + i) ∧ c = c0 := ⟨⟨i, by omega, e⟩, hc⟩
        have h4 : (∃ i, i < n ∧ r = r0 + i) ∧ c = c0 := ⟨⟨i, hi, e⟩, hc⟩
        rw [if_pos h4, if_pos h2]
      · rw [if_neg h3, if_neg]
        rintro ⟨⟨i, hi, e⟩, hc⟩
        rcases Nat.lt_succ_iff_lt_or_eq.1 hi with h | h
        · exact h3 ⟨⟨i, h, e⟩, hc⟩
        · subst h; exact h1 ⟨e, hc⟩

theorem setRowLoop_eq (S : Board) (r0 c0 n : Nat) :
    forLoop 0 n (fun i S => setCell S r0 (c0 + i) 4) S =
      fun r c => if r = r0 ∧ ∃ i, i < n ∧ c = c0 + i then 4 else S r c := by
  induction n with
  | zero =>
    rw [forLoop_zero_zero]
    funext r c
    rw [if_neg]
    rintro ⟨_, i, hi, _⟩
    exact absurd hi (Nat.not_lt_zero i)
  | succ n ih =>
    rw [forLoop_zero_succ, ih]
    funext r c
    unfold setCell
    by_cases h1 : r = r0 ∧ c = c0 + n
    · have h2 : r = r0 ∧ ∃ i, i < n + 1 ∧ c = c0 + i := ⟨h1.1, n, by omega, h1.2⟩
      rw [if_pos h1, if_pos h2]
    · rw [if_neg h1]
      beta_reduce
      by_cases h3 : r = r0 ∧ ∃ i, i < n ∧ c = c0 + i
      · obtain ⟨hr, i, hi, e⟩ := h3
        have h2 : r = r0 ∧ ∃ i, i < n + 1 ∧ c = c0 + i := ⟨hr, i, by omega, e⟩
        have h4 : r = r0 ∧ ∃ i, i < n ∧ c = c0 + i := ⟨hr, i, hi, e⟩
        rw [if_pos h4, if_pos h2]
      · rw [if_neg h3, if_neg]
        rintro ⟨hr, i, hi, e⟩
        rcases Nat.lt_succ_iff_lt_or_eq.1 hi with h | h
        · exact h3 ⟨hr, i, h, e⟩
        · subst h; exact h1 ⟨hr, e⟩

theorem promptShipSinkage_board (g : Game) (s x y o : Nat) (hx1 : 1 ≤ x) (hx : x ≤ 10)
    (hy1 : 1 ≤ y) (ho : o ≤ 1) (r c : Nat) :
    (g.promptShipSinkage s x y o).S r c =
      if ∃ l, l < shipLengthFromIndex (s - 1) ∧
        (c, r) = (if ((y - 1) * 100 + (x - 1) * 10 + o) % 10 = 1
          then (((y - 1) * 100 + (x - 1) * 10 + o) / 10 % 10 + l + BOARD_PADDING,
            ((y - 1) * 100 + (x - 1) * 10 + o) / 100 + BOARD_PADDING)
          else (((y - 1) * 100 + (x - 1) * 10 + o) / 10 % 10 + BOARD_PADDING,
            ((y - 1) * 100 + (x - 1) * 10 + o) / 100 + l + BOARD_PADDING))
      then 4 else g.S r c := by
  have e1 : ((y - 1) * 100 + (x - 1) * 10 + o) % 10 = o := by omega
  have e2 : ((y - 1) * 100 + (x - 1) * 10 + o) / 10 % 10 = x - 1 := by omega
  have e3 : ((y - 1) * 100 + (x - 1) * 10 + o) / 100 = y - 1 := by omega
  rw [e1, e2, e3]
  unfold Game.promptShipSinkage BOARD_PADDING
  dsimp only
  rcases Nat.le_one_iff_eq_zero_or_eq_one.1 ho with h0 | h1
  · subst h0
    simp only [if_true, zero_ne_one, if_false, setColumnLoop_eq, Prod.mk.injEq]
    congr 1
    apply propext
    constructor
    · rintro ⟨⟨i, hi, e⟩, hc⟩
      exact ⟨i, hi, by omega, by omega⟩
    · rintro ⟨i, hi, hc, e⟩
      exact ⟨⟨i, hi, by omega⟩, by omega⟩
  · subst h1
    simp only [one_ne_zero, if_true, if_false, setRowLoop_eq, Prod.mk.injEq]
    congr 1
    apply propext
    constructor
    · rintro ⟨hr, i, hi, e⟩
      exact ⟨i, hi, by omega, by omega⟩
    · rintro ⟨i, hi, hc, e⟩
      exact ⟨by omega, i, hi, by omega⟩

/-- C15. Ship-sinkage report: for a ship number `s` in 1..5 that is not sunk,
an anchor `(x, y)` in 1..10 and an orientation `o` in \{0,1\} whose footprint
lies inside the board, the update of `promptShipSinkage` sets `sunken[s-1]` to
1 and `sunkenLocations[s-1]` to `(y-1)*100 + (x-1)*10 + o`, sets every cell of
the footprint to HitOnSunkShip (4), and leaves every other cell of `S` and the
flag and placement of every other ship as they were. -/
theorem promptShipSinkage_report (g : Game) (s x y o : Nat) (_hs1 : 1 ≤ s) (_hs5 : s ≤ 5)
    (_hnot : g.sunken (s - 1) = 0) (hx1 : 1 ≤ x) (hx : x ≤ 10) (hy1 : 1 ≤ y) (_hy : y ≤ 10)
    (ho : o ≤ 1) (_hin : insideBoard (s - 1) ((y - 1) * 100 + (x - 1) * 10 + o)) :
    (g.promptShipSinkage s x y o).sunken (s - 1) = 1 ∧
      (g.promptShipSinkage s x y o).sunkenLocations (s - 1) =
        (y - 1) * 100 + (x - 1) * 10 + o ∧
      (∀ sq ∈ footprint (s - 1) ((y - 1) * 100 + (x - 1) * 10 + o),
        (g.promptShipSinkage s x y o).S (sq.2 + BOARD_PADDING) (sq.1 + BOARD_PADDING) = 4) ∧
      (∀ r c, (¬ ∃ sq ∈ footprint (s - 1) ((y - 1) * 100 + (x - 1) * 10 + o),
          r = sq.2 + BOARD_PADDING ∧ c = sq.1 + BOARD_PADDING) →
        (g.promptShipSinkage s x y o).S r c = g.S r c) ∧
      (∀ t, t ≠ s - 1 →
        (g.promptShipSinkage s x y o).sunken t = g.sunken t ∧
          (g.promptShipSinkage s x y o).sunkenLocations t = g.sunkenLocations t) := by
  refine ⟨?_, ?_, ?_, ?_, ?_⟩
  · unfold Game.promptShipSinkage
    dsimp only
    rw [Function.update_same]
  · unfold Game.promptShipSinkage
    dsimp only
    rw [Function.update_same]
  · intro sq hsq
    obtain ⟨l, hl, rfl⟩ := (footprint_mem _ _ sq).1 hsq
    rw [promptShipSinkage_board g s x y o hx1 hx hy1 ho, if_pos]
    refine ⟨l, hl, ?_⟩
    split_ifs <;> rfl
  · intro r c hno
    rw [promptShipSinkage_board g s x y o hx1 hx hy1 ho, if_neg]
    rintro ⟨l, hl, e⟩
    apply hno
    refine ⟨_, (footprint_mem _ _ _).2 ⟨l, hl, rfl⟩, ?_⟩
    split_ifs at e ⊢ <;> simp only [Prod.mk.injEq] at e <;> exact ⟨e.2, e.1⟩
  · intro t ht
    unfold Game.promptShipSinkage
    dsimp only
    rw [Function.update_noteq ht, Function.update_noteq ht]
    exact ⟨rfl, rfl⟩

/-- Witness of C15 on the state after `init`: ship number 5 is reported sunk
with anchor (1,1), lying rightward. -/
theorem promptShipSinkage_report_witness :
    (initGame.promptShipSinkage 5 1 1 1).sunken (5 - 1) = 1 ∧
      (initGame.promptShipSinkage 5 1 1 1).sunkenLocations (5 - 1) = 1 :=
  ⟨(promptShipSinkage_report initGame 5 1 1 1 (by decide) (by decide) rfl (by decide)
      (by decide) (by decide) (by decide) (by decide) (by decide)).1,
    (promptShipSinkage_report initGame 5 1 1 1 (by decide) (by decide) rfl (by decide)
      (by decide) (by decide) (by decide) (by decide) (by decide)).2.1⟩

/-! ### validConfig with a single ship left -/

theorem generateShipConfigs_cells (S : Board) (hS : wellFormed S) (s : Nat) (hs : s < 5)
    (c : Nat) (hc : c ∈ generateShipConfigs S s) (sq : Nat × Nat) (hsq : sq ∈ footprint s c) :
    S (sq.2 + BOARD_PADDING) (sq.1 + BOARD_PADDING) = 1 ∨
      S (sq.2 + BOARD_PADDING) (sq.1 + BOARD_PADDING) = 3 := by
  obtain ⟨⟨ho, hy⟩, hcells⟩ := (mem_generateShipConfigs S s hs c).1 hc
  obtain ⟨l, hl, rfl⟩ := (footprint_mem s c sq).1 hsq
  have hL := shipLengthFromIndex_le s
  have hcell := hcells l hl
  unfold cellOf at hcell
  unfold BOARD_PADDING
  split_ifs at hcell ⊢ with h1
  · have := wellFormed_odd S hS _ _ (by omega) (by omega) hcell
    simp only
    have e : c / 10 % 10 + l + 4 = c / 10 % 10 + 4 + l := by omega
    rw [e]; exact this.2
  · have := wellFormed_odd S hS _ _ (by omega) (by omega) hcell
    simp only
    have e : c / 100 + l + 4 = c / 100 + 4 + l := by omega
    rw [e]; exact this.2

theorem validConfig_eq_zero_of_not_validFleet (S : Board) (t : Nat → Nat)
    (h : ∀ s, s < 5 → insideBoard s (t s)) (hn : ¬ validFleet S t) : validConfig S t = 0 := by
  rcases validConfig_le_one S t with e | e
  · exact e
  · exact absurd ((validConfig_iff_validFleet S t h).1 e) hn

/-- C17, counterexample. The ships 0 to 3 are sunk and pinned in the columns 0
to 3, the square (5,0) is a miss and nothing is hit: the fleet that puts the
length-5 ship upward from (5,0), over the miss, is accepted by `validConfig`. -/
theorem validConfig_single_ship_counterexample :
    (∀ s, s < 5 → insideBoard s (fleet 0 10 20 30 50 s)) ∧
      (5, 0) ∈ footprint 4 (fleet 0 10 20 30 50 4) ∧
      sunkBoard (0 + BOARD_PADDING) (5 + BOARD_PADDING) = 2 ∧
      validConfig sunkBoard (fleet 0 10 20 30 50) = 1 := by
  decide

/-- C17, amended. With the ships 0 to 3 pinned, `validConfig` rejects every
candidate fleet in which the footprint of the length-5 ship overlaps the
footprint of a pinned ship, hence, when every square marked HitOnSunkShip (4)
lies in a pinned footprint, every fleet in which it overlaps such a square; it
rejects every candidate whose footprints leave a HitUnresolved (3) square
uncovered. An overlap with a Miss (2) square is not tested by `validConfig`:
on a well-formed board no placement that `generateShipConfigs` lists for the
length-5 ship covers a Miss or HitOnSunkShip square. -/
theorem validConfig_single_ship (S : Board) (t : Nat → Nat)
    (h : ∀ s, s < 5 → insideBoard s (t s)) :
    ((∃ s, s < 4 ∧ ∃ sq, sq ∈ footprint 4 (t 4) ∧ sq ∈ footprint s (t s)) →
        validConfig S t = 0) ∧
      ((∀ x, x < 10 → ∀ y, y < 10 → S (y + BOARD_PADDING) (x + BOARD_PADDING) = 4 →
          ∃ s, s < 4 ∧ (x, y) ∈ footprint s (t s)) →
        (∃ sq, sq ∈ footprint 4 (t 4) ∧ S (sq.2 + BOARD_PADDING) (sq.1 + BOARD_PADDING) = 4) →
        validConfig S t = 0) ∧
      ((∃ x, x < 10 ∧ ∃ y, y < 10 ∧ S (y + BOARD_PADDING) (x + BOARD_PADDING) = 3 ∧
          ∀ s, s < 5 → (x, y) ∉ footprint s (t s)) →
        validConfig S t = 0) ∧
      (wellFormed S → ∀ p ∈ generateShipConfigs S 4, ∀ sq ∈ footprint 4 p,
        S (sq.2 + BOARD_PADDING) (sq.1 + BOARD_PADDING) ≠ 2 ∧
          S (sq.2 + BOARD_PADDING) (sq.1 + BOARD_PADDING) ≠ 4) := by
  have hoverlap : (∃ s, s < 4 ∧ ∃ sq, sq ∈ footprint 4 (t 4) ∧ sq ∈ footprint s (t s)) →
      validConfig S t = 0 := by
    rintro ⟨s, hs, sq, m4, ms⟩
    apply validConfig_eq_zero_of_not_validFleet S t h
    intro hv
    exact hv.1 4 (by omega) s (by omega) (by omega) sq m4 ms
  refine ⟨hoverlap, ?_, ?_, ?_⟩
  · rintro h4 ⟨sq, m4, hstate⟩
    have hb := (h 4 (by omega)).2 sq m4
    obtain ⟨s, hs, ms⟩ := h4 sq.1 hb.1 sq.2 hb.2 hstate
    exact hoverlap ⟨s, hs, sq, m4, ms⟩
  · rintro ⟨x, hx, y, hy, h3, hno⟩
    apply validConfig_eq_zero_of_not_validFleet S t h
    intro hv
    obtain ⟨s, hs, hm⟩ := hv.2 x hx y hy h3
    exact hno s hs hm
  · intro hS p hp sq hsq
    rcases generateShipConfigs_cells S hS 4 (by omega) p hp sq hsq with e | e <;>
      rw [e] <;> exact ⟨by decide, by decide⟩

/-- Witness of C17 as amended: on the same board the fleet that puts the
length-5 ship upward from (3,0), over the pinned length-4 ship, is rejected. -/
theorem validConfig_single_ship_witness :
    validConfig sunkBoard (fleet 0 10 20 30 30) = 0 :=
  (validConfig_single_ship sunkBoard (fleet 0 10 20 30 30) (by decide)).1
    ⟨3, by decide, (3, 0), by decide, by decide⟩

/-! ### put and get on a shared bucket, and promptGuess without a move -/

theorem put_get_of_some (map m2 : Hashmap) (k v : Int) (h : put k v map = some m2) :
    ∀ k2, k2 ≠ -1 → get k2 m2 = if k2 = k then v else get k2 map := by
  unfold put addEntry at h
  dsimp only at h
  intro k2 hk2
  by_cases h1 : (map (hash k)).key = -1
  · rw [if_pos h1] at h
    have hm : m2 = Function.update map (hash k) ⟨k, v⟩ := (Option.some.inj h).symm
    subst hm
    unfold get
    dsimp only
    by_cases ha : hash k2 = hash k
    · rw [ha, Function.update_same, h1]
      dsimp only
      by_cases he : k2 = k
      · rw [if_pos he, if_pos (by omega)]
      · rw [if_neg he, if_neg (by omega), if_neg (by omega)]
    · rw [Function.update_noteq ha]
      have he : k2 ≠ k := fun e => ha (by rw [e])
      rw [if_neg he]
  · rw [if_neg h1] at h
    by_cases h2 : k = (map (hash k)).key
    · rw [if_pos h2] at h
      have hm : m2 = Function.update map (hash k) ⟨(map (hash k)).key, v⟩ :=
        (Option.some.inj h).symm
      subst hm
      unfold get
      dsimp only
      by_cases ha : hash k2 = hash k
      · rw [ha, Function.update_same]
        dsimp only
        by_cases he : k2 = k
        · rw [if_pos he, if_pos (by omega)]
        · rw [if_neg he, if_neg (by omega), if_neg (by omega)]
      · rw [Function.update_noteq ha]
        have he : k2 ≠ k := fun e => ha (by rw [e])
        rw [if_neg he]
    · rw [if_neg h2] at h
      exact absurd h (by simp)

/-- C13, at a failing input. The keys 0 and 1024 have the same hash: on a fresh
map, after `put(0, 5)`, the call `put(1024, 7)` reaches the case of `addEntry`
that links the local entry of `put` into the bucket, and the map has no
represented state from which `get(1024)` could return 7. -/
theorem put_shared_bucket :
    hash 0 = hash 1024 ∧
      (put 0 5 (initializeHashmap (fun _ => 0))).map (get 0) = some 5 ∧
      ((put 0 5 (initializeHashmap (fun _ => 0))).bind (put 1024 7)).isNone = true := by
  decide

set_option maxRecDepth 100000 in
/-- C14, at a failing input. On a board without an unguessed square
`generateMove` returns `-1`, and `promptGuess`, answered with a hit, writes 3
into `S[4][3]`, a padding cell of column 3, while `numGuesses` grows by 1. -/
theorem promptGuess_without_move :
    (missGame.generateMove id zeroEnvironment).1 = some (-1) ∧
      missGame.S 4 3 = 0 ∧
      (missGame.promptGuess id zeroEnvironment 1).map (fun g => (g.S 4 3, g.numGuesses)) =
        some (3, 1) := by
  decide!

/-! ### What the move-generation pass leaves of the global state -/

theorem generateMove_state (round : ℚ → ℚ) (env : Environment) (g : Game) :
    (g.generateMove round env).2 =
      { g with shipConfigs := generateShipConfigs g.S, shipCollisionMap := none,
               shipPositionFrequencyMap := none } := by
  unfold Game.generateMove
  dsimp only
  by_cases h : numConfigsToBeTested round
        (Game.determineShipCollisions (Game.generateShipConfigs
          { g with shipCollisionMap := some (initializeHashmap env.collisionJunk)
                   shipPositionFrequencyMap := some (initializeHashmap env.frequencyJunk) })).sunken
        (Game.determineShipCollisions (Game.generateShipConfigs
          { g with shipCollisionMap := some (initializeHashmap env.collisionJunk)
                   shipPositionFrequencyMap := some (initializeHashmap env.frequencyJunk) })).shipConfigs
        > (MAX_CONFIGS_TESTED : ℚ)
  · rw [if_pos h]
    unfold Game.randomlyTestConfigs Game.determineShipCollisions Game.generateShipConfigs
    rfl
  · rw [if_neg h]
    unfold Game.bruteForceTestConfigs Game.determineShipCollisions Game.generateShipConfigs
    rfl

/-- C18. The move-generation pipeline does not touch the game state:
`generateShipConfigs`, `determineShipCollisions`, `validConfig`, both searches,
`calculateBestMove` and `generateMove` leave the board `S`, the flags `sunken`
and the placements `sunkenLocations` as they found them, and `numGuesses` too;
only the placement lists with their counts and the two maps are written. -/
theorem move_generation_frame (round : ℚ → ℚ) (env : Environment) (src : RandomSource)
    (g : Game) (t : Nat → Nat) (totalTested : Int) :
    (g.generateShipConfigs.S = g.S ∧ g.generateShipConfigs.sunken = g.sunken ∧
        g.generateShipConfigs.sunkenLocations = g.sunkenLocations ∧
        g.generateShipConfigs.numGuesses = g.numGuesses) ∧
      (g.determineShipCollisions.S = g.S ∧ g.determineShipCollisions.sunken = g.sunken ∧
        g.determineShipCollisions.sunkenLocations = g.sunkenLocations ∧
        g.determineShipCollisions.numGuesses = g.numGuesses ∧
        g.determineShipCollisions.shipConfigs = g.shipConfigs) ∧
      (g.validConfig t).2 = g ∧
      ((g.bruteForceTestConfigs).2.S = g.S ∧ (g.bruteForceTestConfigs).2.sunken = g.sunken ∧
        (g.bruteForceTestConfigs).2.sunkenLocations = g.sunkenLocations ∧
        (g.bruteForceTestConfigs).2.numGuesses = g.numGuesses ∧
        (g.bruteForceTestConfigs).2.shipConfigs = g.shipConfigs) ∧
      ((g.randomlyTestConfigs src).2.S = g.S ∧ (g.randomlyTestConfigs src).2.sunken = g.sunken ∧
        (g.randomlyTestConfigs src).2.sunkenLocations = g.sunkenLocations ∧
        (g.randomlyTestConfigs src).2.numGuesses = g.numGuesses ∧
        (g.randomlyTestConfigs src).2.shipConfigs = g.shipConfigs) ∧
      (g.calculateBestMove totalTested).2 = g ∧
      ((g.generateMove round env).2.S = g.S ∧ (g.generateMove round env).2.sunken = g.sunken ∧
        (g.generateMove round env).2.sunkenLocations = g.sunkenLocations ∧
        (g.generateMove round env).2.numGuesses = g.numGuesses) := by
  refine ⟨⟨rfl, rfl, rfl, rfl⟩, ⟨rfl, rfl, rfl, rfl, rfl⟩, rfl, ⟨rfl, rfl, rfl, rfl, rfl⟩,
    ⟨rfl, rfl, rfl, rfl, rfl⟩, rfl, ?_⟩
  rw [generateMove_state]
  exact ⟨rfl, rfl, rfl, rfl⟩

/-! ### The pass does not depend on what the fresh maps hold -/

theorem sameContent_fresh (j1 j2 : Int → Int) :
    sameContent (initializeHashmap j1) (initializeHashmap j2) := by
  intro a
  exact ⟨rfl, fun h => absurd rfl h⟩

theorem get_same (m1 m2 : Hashmap) (h : sameContent m1 m2) (k : Int) (hk : k ≠ -1) :
    get k m1 = get k m2 := by
  unfold get
  dsimp only
  obtain ⟨h1, h2⟩ := h (hash k)
  rw [← h1]
  by_cases hc : k - (m1 (hash k)).key = 0
  · rw [if_pos hc, if_pos hc]
    exact h2 (by omega)
  · rw [if_neg hc, if_neg hc]

theorem put_same (m1 m2 : Hashmap) (h : sameContent m1 m2) (k v : Int) (hk : k ≠ -1) :
    sameMap (put k v m1) (put k v m2) := by
  unfold put addEntry
  dsimp only
  obtain ⟨h1, _⟩ := h (hash k)
  rw [← h1]
  have hupd : ∀ e : entry, e.key ≠ -1 →
      sameContent (Function.update m1 (hash k) e) (Function.update m2 (hash k) e) := by
    intro e he a
    by_cases ha : a = hash k
    · subst ha
      rw [Function.update_same, Function.update_same]
      exact ⟨rfl, fun _ => rfl⟩
    · rw [Function.update_noteq ha, Function.update_noteq ha]
      exact h a
  by_cases hc : (m1 (hash k)).key = -1
  · rw [if_pos hc, if_pos hc]
    exact hupd ⟨k, v⟩ hk
  · rw [if_neg hc, if_neg hc]
    by_cases he : k = (m1 (hash k)).key
    · rw [if_pos he, if_pos he]
      exact hupd ⟨(m1 (hash k)).key, v⟩ hc
    · rw [if_neg he, if_neg he]
      trivial

theorem incrementFrequency_same (t : Nat → Nat) (s : Nat) (m1 m2 : Hashmap)
    (h : sameContent m1 m2) :
    sameMap (incrementFrequency t s m1) (incrementFrequency t s m2) := by
  unfold incrementFrequency
  dsimp only
  have hk : ((s * 1000 + t s : Nat) : Int) ≠ -1 := by omega
  rw [get_same m1 m2 h _ hk]
  split_ifs
  · exact put_same m1 m2 h _ _ hk
  · exact put_same m1 m2 h _ _ hk

theorem recordLoop_same (t : Nat → Nat) (n : Nat) (o1 o2 : Option Hashmap)
    (h : sameMap o1 o2) :
    sameMap (forLoop 0 n (fun s map => Option.bind map (incrementFrequency t s)) o1)
      (forLoop 0 n (fun s map => Option.bind map (incrementFrequency t s)) o2) := by
  induction n with
  | zero => rw [forLoop_zero_zero, forLoop_zero_zero]; exact h
  | succ n ih =>
    rw [forLoop_zero_succ, forLoop_zero_succ]
    generalize forLoop 0 n (fun s map => Option.bind map (incrementFrequency t s)) o1 = r1 at ih
    generalize forLoop 0 n (fun s map => Option.bind map (incrementFrequency t s)) o2 = r2 at ih
    cases r1 with
    | none =>
      cases r2 with
      | none => trivial
      | some m2 => exact absurd ih id
    | some m1 =>
      cases r2 with
      | none => exact absurd ih id
      | some m2 => exact incrementFrequency_same t n m1 m2 ih

theorem testConfig_same (S : Board) (t : Nat → Nat) (st1 st2 : Int × Hashmap)
    (h1 : st1.1 = st2.1) (h2 : sameContent st1.2 st2.2) :
    sameSearch (testConfig S t st1) (testConfig S t st2) := by
  unfold testConfig
  by_cases hv : validConfig S t ≠ 0
  · rw [if_pos hv, if_pos hv]
    dsimp only
    have := recordLoop_same t 5 (some st1.2) (some st2.2) h2
    generalize forLoop 0 5 (fun s map => Option.bind map (incrementFrequency t s))
      (some st1.2) = r1 at this
    generalize forLoop 0 5 (fun s map => Option.bind map (incrementFrequency t s))
      (some st2.2) = r2 at this
    cases r1 with
    | none =>
      cases r2 with
      | none => trivial
      | some m2 => exact absurd this id
    | some m1 =>
      cases r2 with
      | none => exact absurd this id
      | some m2 =>
        refine ⟨?_, this⟩
        show wrap32 (st1.1 + 1) = wrap32 (st2.1 + 1)
        rw [h1]
  · rw [if_neg hv, if_neg hv]
    exact ⟨h1, h2⟩

theorem search_foldl_same (S : Board) (ts : List (Nat → Nat)) :
    ∀ (o1 o2 : Option (Int × Hashmap)), sameSearch o1 o2 →
      sameSearch (ts.foldl (fun st t => Option.bind st (testConfig S t)) o1)
        (ts.foldl (fun st t => Option.bind st (testConfig S t)) o2) := by
  induction ts with
  | nil => intro o1 o2 h; exact h
  | cons t ts ih =>
    intro o1 o2 h
    rw [List.foldl_cons, List.foldl_cons]
    apply ih
    cases o1 with
    | none =>
      cases o2 with
      | none => trivial
      | some b => exact absurd h id
    | some a =>
      cases o2 with
      | none => exact absurd h id
      | some b => exact testConfig_same S t a b h.1 h.2

theorem bruteForceTestConfigs_same (S : Board) (sunken sunkenLocations : Nat → Nat)
    (cfgs : Configs) (j1 j2 : Int → Int) :
    sameSearch (bruteForceTestConfigs S sunken sunkenLocations cfgs (initializeHashmap j1))
      (bruteForceTestConfigs S sunken sunkenLocations cfgs (initializeHashmap j2)) := by
  rw [bruteForceTestConfigs_eq_foldl, bruteForceTestConfigs_eq_foldl]
  exact search_foldl_same S _ _ _ ⟨rfl, sameContent_fresh j1 j2⟩

theorem addConfigFrequency_same (m1 m2 : Hashmap) (h : sameContent m1 m2) (s : Nat) :
    addConfigFrequency m1 s = addConfigFrequency m2 s := by
  funext mf p
  unfold addConfigFrequency
  dsimp only
  rw [get_same m1 m2 h _ (by omega)]

theorem calculateBestMove_same (S : Board) (sunken : Nat → Nat) (cfgs : Configs)
    (m1 m2 : Hashmap) (h : sameContent m1 m2) (T : Int) :
    calculateBestMove S sunken cfgs m1 T = calculateBestMove S sunken cfgs m2 T := by
  unfold calculateBestMove moveFrequencies
  simp only [addConfigFrequency_same m1 m2 h]

theorem exhaustive_move_same (S : Board) (sunken sunkenLocations : Nat → Nat)
    (cfgs : Configs) (j1 j2 : Int → Int) :
    (bruteForceTestConfigs S sunken sunkenLocations cfgs (initializeHashmap j1)).map
        (fun r => calculateBestMove S sunken cfgs r.2 r.1) =
      (bruteForceTestConfigs S sunken sunkenLocations cfgs (initializeHashmap j2)).map
        (fun r => calculateBestMove S sunken cfgs r.2 r.1) := by
  have h := bruteForceTestConfigs_same S sunken sunkenLocations cfgs j1 j2
  generalize bruteForceTestConfigs S sunken sunkenLocations cfgs (initializeHashmap j1) = r1 at h
  generalize bruteForceTestConfigs S sunken sunkenLocations cfgs (initializeHashmap j2) = r2 at h
  cases r1 with
  | none =>
    cases r2 with
    | none => rfl
    | some b => exact absurd h id
  | some a =>
    cases r2 with
    | none => exact absurd h id
    | some b =>
      simp only [Option.map_some']
      rw [h.1, calculateBestMove_same S sunken cfgs a.2 b.2 h.2]

theorem generateMove_exhaustive (round : ℚ → ℚ) (env : Environment) (g : Game)
    (hex : ¬ numConfigsToBeTested round g.sunken (generateShipConfigs g.S) >
      (MAX_CONFIGS_TESTED : ℚ)) :
    (g.generateMove round env).1 =
      (bruteForceTestConfigs g.S g.sunken g.sunkenLocations (generateShipConfigs g.S)
        (initializeHashmap env.frequencyJunk)).map
      (fun r => calculateBestMove g.S g.sunken (generateShipConfigs g.S) r.2 r.1) := by
  rw [generateMove_move, if_neg hex]

theorem generateMove_same (round : ℚ → ℚ) (e1 e2 : Environment) (g1 g2 : Game)
    (hS : g1.S = g2.S) (hsunk : g1.sunken = g2.sunken)
    (hloc : g1.sunkenLocations = g2.sunkenLocations)
    (hex : ¬ numConfigsToBeTested round g1.sunken (generateShipConfigs g1.S) >
      (MAX_CONFIGS_TESTED : ℚ)) :
    (g1.generateMove round e1).1 = (g2.generateMove round e2).1 := by
  have hex2 : ¬ numConfigsToBeTested round g2.sunken (generateShipConfigs g2.S) >
      (MAX_CONFIGS_TESTED : ℚ) := by
    rw [← hS, ← hsunk]; exact hex
  rw [generateMove_exhaustive round e1 g1 hex, generateMove_exhaustive round e2 g2 hex2,
    ← hS, ← hsunk, ← hloc]
  exact exhaustive_move_same g1.S g1.sunken g1.sunkenLocations _ _ _

theorem length_candidates (sunken sunkenLocations : Nat → Nat) (cfgs : Configs) (i : Nat) :
    (candidates sunken sunkenLocations cfgs i).length =
      if sunken i = 0 then (cfgs i).length else 1 := by
  unfold candidates
  by_cases h : sunken i = 0
  · rw [if_pos h, if_neg (not_not.2 h)]
  · rw [if_neg h, if_pos h]
    rfl

theorem length_crossProduct_candidates (sunken sunkenLocations : Nat → Nat) (cfgs : Configs) :
    (crossProduct (candidates sunken sunkenLocations cfgs)).length =
      configProduct sunken cfgs := by
  rw [length_crossProduct]
  simp only [length_candidates]
  unfold configProduct
  simp only [List.range_succ, List.range_zero, List.nil_append, List.singleton_append,
    List.cons_append, List.map_cons, List.map_nil, List.prod_cons, List.prod_nil]
  ring

theorem generateMove_exhaustive_some (round : ℚ → ℚ) (hround : exactOnIntegers round)
    (env : Environment) (g : Game)
    (hex : ¬ numConfigsToBeTested round g.sunken (generateShipConfigs g.S) >
      (MAX_CONFIGS_TESTED : ℚ))
    (hS : wellFormed g.S)
    (hloc : ∀ s, s < 5 → g.sunken s ≠ 0 → insideBoard s (g.sunkenLocations s)) :
    ∃ move, (g.generateMove round env).1 = some move := by
  have hin : ∀ s, s < 5 →
      ∀ p ∈ candidates g.sunken g.sunkenLocations (generateShipConfigs g.S) s,
        insideBoard s p := by
    intro s hs p hp
    unfold candidates at hp
    by_cases h : g.sunken s ≠ 0
    · rw [if_pos h, List.mem_singleton] at hp
      rw [hp]; exact hloc s hs h
    · rw [if_neg h] at hp
      exact generateShipConfigs_inside g.S hS s hs p hp
  have hlen : (crossProduct (candidates g.sunken g.sunkenLocations
      (generateShipConfigs g.S))).length < 2147483648 := by
    rw [length_crossProduct_candidates]
    have := (numConfigsToBeTested_gt_iff round hround g.sunken g.S).not.1 hex
    have hmax : MAX_CONFIGS_TESTED = 10000000 := rfl
    omega
  obtain ⟨st, h1, _⟩ := bruteForceTestConfigs_spec g.S g.sunken g.sunkenLocations
    (generateShipConfigs g.S) env.frequencyJunk hin hlen
  rw [generateMove_exhaustive round env g hex, h1]
  exact ⟨_, rfl⟩

/-- C12. Idempotence of `generateMove` under the exhaustive strategy: run from
two states that agree on the board, the sunk flags and the sunk placements,
whatever the lists, the maps and the guess counter hold and whatever `malloc`
and the generators return, it returns the same move; in particular a second
call right after the first returns the same move. With exact arithmetic, a
well-formed board and sunk placements inside the board, the move is a value of
the function: the frequency map never chains. -/
theorem generateMove_idempotent (round : ℚ → ℚ) (e1 e2 : Environment) (g1 g2 : Game)
    (hS : g1.S = g2.S) (hsunk : g1.sunken = g2.sunken)
    (hloc : g1.sunkenLocations = g2.sunkenLocations)
    (hex : ¬ numConfigsToBeTested round g1.sunken (generateShipConfigs g1.S) >
      (MAX_CONFIGS_TESTED : ℚ)) :
    (g1.generateMove round e1).1 = (g2.generateMove round e2).1 ∧
      ((g1.generateMove round e1).2.generateMove round e2).1 = (g1.generateMove round e1).1 ∧
      (exactOnIntegers round → wellFormed g1.S →
        (∀ s, s < 5 → g1.sunken s ≠ 0 → insideBoard s (g1.sunkenLocations s)) →
        ∃ move, (g1.generateMove round e1).1 = some move) := by
  refine ⟨generateMove_same round e1 e2 g1 g2 hS hsunk hloc hex, ?_, ?_⟩
  · refine (generateMove_same round e1 e2 g1 _ ?_ ?_ ?_ hex).symm
    · rw [generateMove_state]
    · rw [generateMove_state]
    · rw [generateMove_state]
  · intro hround hwf hin
    exact generateMove_exhaustive_some round hround e1 g1 hex hwf hin

set_option maxRecDepth 100000 in
theorem sunkGame_exhaustive :
    ¬ numConfigsToBeTested id sunkGame.sunken (generateShipConfigs sunkGame.S) >
      (MAX_CONFIGS_TESTED : ℚ) := by
  decide!

/-- Witness of C12: with the length-5 ship alone left the search is exhaustive,
and the move is the same from two states with different leftovers and in two
different environments. -/
theorem generateMove_idempotent_witness :
    (sunkGame.generateMove id zeroEnvironment).1 =
      (sunkGameLater.generateMove id otherEnvironment).1 :=
  (generateMove_idempotent id zeroEnvironment otherEnvironment sunkGame sunkGameLater
    rfl rfl rfl sunkGame_exhaustive).1

/-! ### randomlyTestConfigs -/

theorem selectLoop_none (src : RandomSource) (sunken sunkenLocations : Nat → Nat)
    (cfgs : Configs) (j0 : Nat) (hj : (cfgs j0).length = 0) (n : Nat) (hn : j0 < n)
    (init : Option ((Nat → Nat) × Nat × Nat)) :
    forLoop 0 n (fun j sel => Option.bind sel (selectConfig src sunken sunkenLocations cfgs j))
      init = none := by
  induction n with
  | zero => exact absurd hn (Nat.not_lt_zero j0)
  | succ n ih =>
    rw [forLoop_zero_succ]
    rcases Nat.lt_succ_iff_lt_or_eq.1 hn with h | h
    · rw [ih h]
      rfl
    · subst h
      generalize forLoop 0 j0
        (fun j sel => Option.bind sel (selectConfig src sunken sunkenLocations cfgs j)) init = prev
      cases prev with
      | none => rfl
      | some st =>
        show selectConfig src sunken sunkenLocations cfgs j0 st = none
        unfold selectConfig
        rw [if_pos hj]

theorem randomTrial_none (S : Board) (src : RandomSource) (sunken sunkenLocations : Nat → Nat)
    (cfgs : Configs) (j0 : Nat) (hj0 : j0 < 5) (hj : (cfgs j0).length = 0)
    (st : (Int × Hashmap) × Nat × Nat) :
    randomTrial S src sunken sunkenLocations cfgs st = none := by
  unfold randomTrial
  rw [selectLoop_none src sunken sunkenLocations cfgs j0 hj 5 hj0]
  rfl

theorem randomlyTestConfigs_none (S : Board) (src : RandomSource)
    (sunken sunkenLocations : Nat → Nat) (cfgs : Configs) (j0 : Nat) (hj0 : j0 < 5)
    (hj : (cfgs j0).length = 0) (map : Hashmap) :
    randomlyTestConfigs S src sunken sunkenLocations cfgs map = none := by
  unfold randomlyTestConfigs
  have hmax : MAX_CONFIGS_TESTED = 9999999 + 1 := rfl
  rw [hmax, forLoop_zero_succ]
  generalize forLoop 0 9999999
    (fun _ st => Option.bind st (randomTrial S src sunken sunkenLocations cfgs))
    (some ((0, map), 0, 0)) = prev
  cases prev with
  | none => rfl
  | some st =>
    show Option.map _ (randomTrial S src sunken sunkenLocations cfgs st) = none
    rw [randomTrial_none S src sunken sunkenLocations cfgs j0 hj0 hj st]
    rfl

set_option maxRecDepth 100000 in
theorem blockedGame_lists :
    (generateShipConfigs blockedGame.S 4).length = 0 ∧
      numConfigsToBeTested id blockedGame.sunken (generateShipConfigs blockedGame.S) >
        (MAX_CONFIGS_TESTED : ℚ) := by
  decide!

set_option maxRecDepth 100000 in
theorem blockedGame_product :
    configProduct blockedGame.sunken (generateShipConfigs blockedGame.S) = 12582912 := by
  decide

/-- C19, at a failing input. Four blocks of 4x4 squares are unguessed and the
length-5 ship is sunk: its placement list is empty, the lists of the other
ships have 96, 64, 64 and 32 entries, so `generateMove` calls the sampled
search; there the first `genrand_int32() % numShipConfigs[4]` divides by zero,
for every random stream, and no candidate is validated. -/
theorem randomlyTestConfigs_division_by_zero :
    (generateShipConfigs blockedGame.S 4).length = 0 ∧
      configProduct blockedGame.sunken (generateShipConfigs blockedGame.S) = 12582912 ∧
      numConfigsToBeTested id blockedGame.sunken (generateShipConfigs blockedGame.S) >
        (MAX_CONFIGS_TESTED : ℚ) ∧
      (∀ (src : RandomSource) (map : Hashmap),
        randomlyTestConfigs blockedGame.S src blockedGame.sunken blockedGame.sunkenLocations
          (generateShipConfigs blockedGame.S) map = none) ∧
      ∀ env : Environment, (blockedGame.generateMove id env).1 = none := by
  refine ⟨blockedGame_lists.1, blockedGame_product, blockedGame_lists.2, ?_, ?_⟩
  · intro src map
    exact randomlyTestConfigs_none _ src _ _ _ 4 (by decide) blockedGame_lists.1 map
  · intro env
    rw [generateMove_move, if_pos blockedGame_lists.2,
      randomlyTestConfigs_none _ env.random _ _ _ 4 (by decide) blockedGame_lists.1]
    rfl

theorem getD_mem (l : List Nat) (i : Nat) (h : i < l.length) : l.getD i 0 ∈ l := by
  rw [List.getD_eq_getElem _ _ h]
  exact List.getElem_mem h

theorem selectLoop_some (src : RandomSource) (sunken sunkenLocations : Nat → Nat)
    (cfgs : Configs) (hne : ∀ j, j < 5 → (cfgs j).length ≠ 0) (n : Nat) (hn : n ≤ 5)
    (t0 : Nat → Nat) (g r : Nat) :
    ∃ t g2 r2,
      forLoop 0 n (fun j sel => Option.bind sel (selectConfig src sunken sunkenLocations cfgs j))
        (some (t0, g, r)) = some (t, g2, r2) ∧
      ∀ j, j < n → t j ∈ candidates sunken sunkenLocations cfgs j := by
  induction n with
  | zero =>
    exact ⟨t0, g, r, by rw [forLoop_zero_zero], fun j hj => absurd hj (Nat.not_lt_zero j)⟩
  | succ n ih =>
    obtain ⟨t, g2, r2, h1, h2⟩ := ih (by omega)
    have hlen := hne n (by omega)
    have hpos : 0 < (cfgs n).length := Nat.pos_of_ne_zero hlen
    rw [forLoop_zero_succ, h1]
    by_cases hs : sunken n = 0
    · refine ⟨Function.update t n ((cfgs n).getD (src.rand r2 % (cfgs n).length) 0),
        g2 + 1, r2 + 1, ?_, ?_⟩
      · show selectConfig src sunken sunkenLocations cfgs n (t, g2, r2) = _
        unfold selectConfig
        rw [if_neg hlen]
        dsimp only
        rw [if_pos hs]
      · intro j hj
        by_cases hjn : j = n
        · subst hjn
          rw [Function.update_same]
          unfold candidates
          rw [if_neg (not_not.2 hs)]
          exact getD_mem _ _ (Nat.mod_lt _ hpos)
        · rw [Function.update_noteq hjn]
          exact h2 j (by omega)
    · refine ⟨Function.update t n (sunkenLocations n), g2 + 1, r2, ?_, ?_⟩
      · show selectConfig src sunken sunkenLocations cfgs n (t, g2, r2) = _
        unfold selectConfig
        rw [if_neg hlen]
        dsimp only
        rw [if_neg hs]
      · intro j hj
        by_cases hjn : j = n
        · subst hjn
          rw [Function.update_same]
          unfold candidates
          rw [if_pos hs]
          exact List.mem_singleton_self _
        · rw [Function.update_noteq hjn]
          exact h2 j (by omega)

theorem randomLoop_spec (S : Board) (src : RandomSource) (sunken sunkenLocations : Nat → Nat)
    (cfgs : Configs) (hne : ∀ j, j < 5 → (cfgs j).length ≠ 0) (map : Hashmap) (n : Nat) :
    ∃ (ts : List (Nat → Nat)) (g r : Nat), ts.length = n ∧
      (∀ t ∈ ts, ∀ j, j < 5 → t j ∈ candidates sunken sunkenLocations cfgs j) ∧
      forLoop 0 n (fun _ st => Option.bind st (randomTrial S src sunken sunkenLocations cfgs))
          (some ((0, map), 0, 0)) =
        (ts.foldl (fun st t => Option.bind st (testConfig S t)) (some (0, map))).map
          (fun st => (st, g, r)) := by
  induction n with
  | zero => exact ⟨[], 0, 0, rfl, fun t ht => absurd ht (List.not_mem_nil t), by
      rw [forLoop_zero_zero]; rfl⟩
  | succ n ih =>
    obtain ⟨ts, g, r, hlen, hmem, hrun⟩ := ih
    obtain ⟨t, g2, r2, hsel, htm⟩ :=
      selectLoop_some src sunken sunkenLocations cfgs hne 5 (le_refl 5) (fun _ => 0) g r
    refine ⟨ts ++ [t], g2, r2, by rw [List.length_append, hlen]; rfl, ?_, ?_⟩
    · intro u hu
      rcases List.mem_append.1 hu with h | h
      · exact hmem u h
      · rw [List.mem_singleton] at h
        rw [h]; exact htm
    · rw [forLoop_zero_succ, hrun, List.foldl_append, List.foldl_cons, List.foldl_nil]
      generalize ts.foldl (fun st t => Option.bind st (testConfig S t)) (some (0, map)) = prev
      cases prev with
      | none => rfl
      | some st =>
        show randomTrial S src sunken sunkenLocations cfgs (st, g, r) = _
        unfold randomTrial
        dsimp only
        rw [hsel]
        rfl

/-- The sampled search when no placement list is empty: it tests
`MAX_CONFIGS_TESTED` fleets one after the other, each made of candidates of the
five ships. -/
theorem randomlyTestConfigs_eq_foldl (S : Board) (src : RandomSource)
    (sunken sunkenLocations : Nat → Nat) (cfgs : Configs)
    (hne : ∀ j, j < 5 → (cfgs j).length ≠ 0) (map : Hashmap) :
    ∃ ts : List (Nat → Nat), ts.length = MAX_CONFIGS_TESTED ∧
      (∀ t ∈ ts, ∀ j, j < 5 → t j ∈ candidates sunken sunkenLocations cfgs j) ∧
      randomlyTestConfigs S src sunken sunkenLocations cfgs map =
        ts.foldl (fun st t => Option.bind st (testConfig S t)) (some (0, map)) := by
  obtain ⟨ts, g, r, hlen, hmem, hrun⟩ :=
    randomLoop_spec S src sunken sunkenLocations cfgs hne map MAX_CONFIGS_TESTED
  refine ⟨ts, hlen, hmem, ?_⟩
  unfold randomlyTestConfigs
  rw [hrun]
  generalize ts.foldl (fun st t => Option.bind st (testConfig S t)) (some (0, map)) = res
  cases res <;> rfl

/-- The sampled search on a fresh map, with no empty list and every candidate
inside the board: the value returned is the number of tested fleets that
`validConfig` accepts, and the map left is in the state of a search over the
tested fleets. -/
theorem randomlyTestConfigs_spec (S : Board) (src : RandomSource)
    (sunken sunkenLocations : Nat → Nat) (cfgs : Configs)
    (hne : ∀ j, j < 5 → (cfgs j).length ≠ 0)
    (hin : ∀ s, s < 5 → ∀ p ∈ candidates sunken sunkenLocations cfgs s, insideBoard s p)
    (junk : Int → Int) :
    ∃ (ts : List (Nat → Nat)) (st : Int × Hashmap), ts.length = MAX_CONFIGS_TESTED ∧
      (∀ t ∈ ts, ∀ j, j < 5 → t j ∈ candidates sunken sunkenLocations cfgs j) ∧
      randomlyTestConfigs S src sunken sunkenLocations cfgs (initializeHashmap junk) = some st ∧
      searchState S ts st := by
  obtain ⟨ts, hlen, hmem, hrun⟩ :=
    randomlyTestConfigs_eq_foldl S src sunken sunkenLocations cfgs hne (initializeHashmap junk)
  have hcodes : ∀ t ∈ ts, fleetCodes t := by
    intro t ht s hs
    exact insideBoard_codes s (t s) hs (hin s hs _ (hmem t ht s hs))
  have hmax : MAX_CONFIGS_TESTED = 10000000 := rfl
  obtain ⟨st, h1, h2⟩ := search_foldl_spec S ts [] (0, initializeHashmap junk)
    (searchState_fresh S junk) hcodes (by rw [List.nil_append, hlen, hmax]; omega)
  refine ⟨ts, st, hlen, hmem, ?_, ?_⟩
  · rw [hrun]; exact h1
  · rw [List.nil_append] at h2; exact h2

/-! ### promptGuess when a square is returned -/

theorem calculateBestMove_cases (S : Board) (sunken : Nat → Nat) (shipConfigs : Configs)
    (map : Hashmap) (T : Int) :
    calculateBestMove S sunken shipConfigs map T = -1 ∨
      ∃ i : Nat, calculateBestMove S sunken shipConfigs map T = (i : Int) ∧ i < 100 ∧
        S (i / 10 + BOARD_PADDING) (i % 10 + BOARD_PADDING) = 1 := by
  unfold calculateBestMove BOARD_SIDELENGTH
  simp only []
  rcases scan_invariant S (moveFrequencies sunken shipConfigs map) ((T : ℚ) / 2) (10 * 10) with
    ⟨h1, _, _⟩ | ⟨k, hk, h1, _, h3, _, _, _⟩
  · left; exact h1
  · right; exact ⟨k, h1, hk, h3⟩

theorem generateMove_cases (round : ℚ → ℚ) (env : Environment) (g : Game) :
    (g.generateMove round env).1 = none ∨ (g.generateMove round env).1 = some (-1) ∨
      ∃ i : Nat, (g.generateMove round env).1 = some (i : Int) ∧ i < 100 ∧
        g.S (i / 10 + BOARD_PADDING) (i % 10 + BOARD_PADDING) = 1 := by
  rw [generateMove_move]
  split_ifs with h
  · generalize randomlyTestConfigs g.S env.random g.sunken g.sunkenLocations
      (generateShipConfigs g.S) (initializeHashmap env.frequencyJunk) = res
    cases res with
    | none => left; simp only [Option.map_none']
    | some r =>
      right
      simp only [Option.map_some', Option.some.injEq]
      exact calculateBestMove_cases g.S g.sunken (generateShipConfigs g.S) r.2 r.1
  · generalize bruteForceTestConfigs g.S g.sunken g.sunkenLocations
      (generateShipConfigs g.S) (initializeHashmap env.frequencyJunk) = res
    cases res with
    | none => left; simp only [Option.map_none']
    | some r =>
      right
      simp only [Option.map_some', Option.some.injEq]
      exact calculateBestMove_cases g.S g.sunken (generateShipConfigs g.S) r.2 r.1

theorem generateMove_numGuesses (round : ℚ → ℚ) (env : Environment) (g : Game) (n : Int) :
    (Game.generateMove round env { g with numGuesses := n }).1 = (g.generateMove round env).1 := by
  rw [generateMove_move, generateMove_move]

/-- One step of `promptGuess` when `generateMove` returns a square `i` that is
not negative: the square was Unguessed, the step writes the answer into its
cell, an inner cell, and into no other cell, and `numGuesses` grows by 1. -/
theorem promptGuess_inner_cell (round : ℚ → ℚ) (env : Environment) (inp : Nat) (g : Game)
    (i : Nat) (h : (g.generateMove round env).1 = some (i : Int)) :
    i < 100 ∧ g.S (i / 10 + BOARD_PADDING) (i % 10 + BOARD_PADDING) = 1 ∧
      ∃ g2, g.promptGuess round env inp = some g2 ∧
        g2.S = setCell g.S (i / 10 + BOARD_PADDING) (i % 10 + BOARD_PADDING)
          (if inp = 1 then 3 else 2) ∧
        g2.numGuesses = wrap32 (g.numGuesses + 1) ∧ g2.sunken = g.sunken ∧
        g2.sunkenLocations = g.sunkenLocations := by
  have hcell : i < 100 ∧ g.S (i / 10 + BOARD_PADDING) (i % 10 + BOARD_PADDING) = 1 := by
    rcases generateMove_cases round env g with h1 | h1 | ⟨k, h1, hk, hS⟩
    · rw [h1] at h; exact absurd h (by simp)
    · rw [h1] at h
      have : (-1 : Int) = (i : Int) := Option.some.inj h
      omega
    · rw [h1] at h
      have : (k : Int) = (i : Int) := Option.some.inj h
      have : k = i := by exact_mod_cast this
      subst this
      exact ⟨hk, hS⟩
  refine ⟨hcell.1, hcell.2, ?_⟩
  have hd : Int.tdiv (i : Int) 10 = ((i / 10 : Nat) : Int) := rfl
  have hm : Int.tmod (i : Int) 10 = ((i % 10 : Nat) : Int) := rfl
  have hr : ((BOARD_PADDING : Int) + Int.tdiv (i : Int) 10).toNat = i / 10 + BOARD_PADDING := by
    rw [hd]; unfold BOARD_PADDING; omega
  have hc : ((BOARD_PADDING : Int) + Int.tmod (i : Int) 10).toNat = i % 10 + BOARD_PADDING := by
    rw [hm]; unfold BOARD_PADDING; omega
  unfold Game.promptGuess
  dsimp only
  rw [generateMove_numGuesses, h, Option.map_some', generateMove_state, hr, hc]
  exact ⟨_, rfl, rfl, rfl, rfl, rfl⟩

/-! ### The opening move -/

set_option maxRecDepth 100000 in
theorem initBoard_counts :
    (List.range 5).map (fun s => (generateShipConfigs initBoard s).length) =
      [180, 160, 160, 140, 120] := by
  decide

set_option maxRecDepth 100000 in
theorem initBoard_product :
    configProduct initGame.sunken (generateShipConfigs initBoard) = 77414400000 := by
  decide

theorem initBoard_nonempty : ∀ j, j < 5 → (generateShipConfigs initBoard j).length ≠ 0 := by
  intro j hj
  have h := initBoard_counts
  simp only [List.range, List.range.loop, List.map_cons, List.map_nil, List.cons.injEq,
    and_true] at h
  obtain ⟨h0, h1, h2, h3, h4⟩ := h
  interval_cases j <;> omega

theorem initBoard_wellFormed : wellFormed initBoard := by
  decide

theorem opening_candidates_inside : ∀ s, s < 5 →
    ∀ p ∈ candidates initGame.sunken initGame.sunkenLocations (generateShipConfigs initGame.S) s,
      insideBoard s p := by
  intro s hs p hp
  exact generateShipConfigs_inside initBoard initBoard_wellFormed s hs p hp

/-- C25. The opening move uses sampling: on the board `init` leaves, with no
ship sunk, `generateShipConfigs` lists 180, 160, 160, 140 and 120 placements,
`numConfigsToBeTested` returns their product 77,414,400,000, which exceeds
`MAX_CONFIGS_TESTED`, and the move `generateMove` returns is the one computed
from the result of `randomlyTestConfigs`, which has a result for every random stream. -/
theorem opening_move_sampled (round : ℚ → ℚ) (hround : exactOnIntegers round)
    (env : Environment) :
    (List.range 5).map (fun s => (generateShipConfigs initGame.S s).length) =
        [180, 160, 160, 140, 120] ∧
      numConfigsToBeTested round initGame.sunken (generateShipConfigs initGame.S) =
        77414400000 ∧
      numConfigsToBeTested round initGame.sunken (generateShipConfigs initGame.S) >
        (MAX_CONFIGS_TESTED : ℚ) ∧
      (initGame.generateMove round env).1 =
        (randomlyTestConfigs initGame.S env.random initGame.sunken initGame.sunkenLocations
          (generateShipConfigs initGame.S) (initializeHashmap env.frequencyJunk)).map
        (fun r => calculateBestMove initGame.S initGame.sunken (generateShipConfigs initGame.S)
          r.2 r.1) ∧
      ∃ move, (initGame.generateMove round env).1 = some move := by
  have hS : initGame.S = initBoard := rfl
  have hnum : numConfigsToBeTested round initGame.sunken (generateShipConfigs initGame.S) =
      77414400000 := by
    rw [numConfigsToBeTested_eq round hround initGame.sunken _
      (fun i hi => length_generateShipConfigs_le initGame.S i hi), hS, initBoard_product]
    norm_num
  have hgt : numConfigsToBeTested round initGame.sunken (generateShipConfigs initGame.S) >
      (MAX_CONFIGS_TESTED : ℚ) := by
    rw [hnum]
    have hmax : MAX_CONFIGS_TESTED = 10000000 := rfl
    rw [hmax]
    norm_num
  refine ⟨?_, hnum, hgt, ?_, ?_⟩
  · rw [hS]; exact initBoard_counts
  · rw [generateMove_move, if_pos hgt]
  · obtain ⟨ts, st, _, _, hrun, _⟩ := randomlyTestConfigs_spec initGame.S env.random
      initGame.sunken initGame.sunkenLocations (generateShipConfigs initGame.S)
      initBoard_nonempty opening_candidates_inside env.frequencyJunk
    rw [generateMove_move, if_pos hgt, hrun]
    exact ⟨_, rfl⟩

/-- Witness of C25: arithmetic that rounds nothing. -/
theorem opening_move_sampled_witness :
    exactOnIntegers id ∧
      numConfigsToBeTested id initGame.sunken (generateShipConfigs initGame.S) >
        (MAX_CONFIGS_TESTED : ℚ) :=
  ⟨fun _ _ => rfl, (opening_move_sampled id (fun _ _ => rfl) zeroEnvironment).2.2.1⟩

/-! ### Generated placements and sunk ships -/

theorem no_collision_with_marked (S : Board) (hS : wellFormed S) (s t p q : Nat) (hs : s < 5)
    (hp : p ∈ generateShipConfigs S s)
    (hq : ∀ sq ∈ footprint t q, S (sq.2 + BOARD_PADDING) (sq.1 + BOARD_PADDING) = 4) :
    ¬ ∃ sq, sq ∈ footprint s p ∧ sq ∈ footprint t q := by
  rintro ⟨sq, h1, h2⟩
  have h4 := hq sq h2
  rcases generateShipConfigs_cells S hS s hs p hp sq h1 with h | h <;> omega

/-- C26. Generated placements never hit a sunk ship: on a well-formed board in
which the recorded placement of each sunk ship lies inside the board and every
square of its footprint is marked HitOnSunkShip (4), `shipConfigsCollide`
returns 0 for every placement `p` generated for a ship `s` and the recorded
placement of every sunk ship `t` other than `s`, the arguments in index order:
`(s, t, p, sunkenLocations[t])` when `s < t` and `(t, s, sunkenLocations[t], p)`
when `t < s`. -/
theorem generated_placements_miss_sunk_ships (S : Board) (sunken sunkenLocations : Nat → Nat)
    (hS : wellFormed S)
    (hsunk : ∀ t, t < 5 → sunken t ≠ 0 →
      insideBoard t (sunkenLocations t) ∧
        ∀ sq ∈ footprint t (sunkenLocations t),
          S (sq.2 + BOARD_PADDING) (sq.1 + BOARD_PADDING) = 4)
    (s : Nat) (hs : s < 5) (p : Nat) (hp : p ∈ generateShipConfigs S s)
    (t : Nat) (ht : t < 5) (_hts : t ≠ s) (hsunken : sunken t ≠ 0) :
    (s < t → shipConfigsCollide s t p (sunkenLocations t) = 0) ∧
      (t < s → shipConfigsCollide t s (sunkenLocations t) p = 0) := by
  obtain ⟨hin, hmark⟩ := hsunk t ht hsunken
  have hpin := generateShipConfigs_inside S hS s hs p hp
  have hno := no_collision_with_marked S hS s t p (sunkenLocations t) hs hp hmark
  constructor
  · intro _
    rcases shipConfigsCollide_le_one s t p (sunkenLocations t) with h | h
    · exact h
    · exact absurd ((collide_iff_overlap s t p (sunkenLocations t) hpin hin).1 h) hno
  · intro _
    rcases shipConfigsCollide_le_one t s (sunkenLocations t) p with h | h
    · exact h
    · obtain ⟨sq, h1, h2⟩ := (collide_iff_overlap t s (sunkenLocations t) p hin hpin).1 h
      exact absurd ⟨sq, h2, h1⟩ hno

theorem sunkBoard_wellFormed : wellFormed sunkBoard := by
  decide

set_option maxRecDepth 100000 in
theorem sunkGame_marked : ∀ t, t < 5 → sunkGame.sunken t ≠ 0 →
    insideBoard t (sunkGame.sunkenLocations t) ∧
      ∀ sq ∈ footprint t (sunkGame.sunkenLocations t),
        sunkBoard (sq.2 + BOARD_PADDING) (sq.1 + BOARD_PADDING) = 4 := by
  decide

set_option maxRecDepth 100000 in
theorem sunkBoard_generated : 40 ∈ generateShipConfigs sunkBoard 4 := by
  decide

/-- Witness of C26: on the board with the ships 0 to 3 sunk in the columns 0 to
3, the length-5 ship standing in column 4 does not collide with the sunk
ship 0. -/
theorem generated_placements_miss_sunk_ships_witness :
    shipConfigsCollide 0 4 (sunkGame.sunkenLocations 0) 40 = 0 :=
  (generated_placements_miss_sunk_ships sunkBoard sunkGame.sunken sunkGame.sunkenLocations
    sunkBoard_wellFormed sunkGame_marked 4 (by decide) 40 sunkBoard_generated 0 (by decide)
    (by decide) (by decide)).2 (by decide)

/-! ### The array bounds of generateShipConfigs -/

theorem fits_initBoard_of_wellFormed (S : Board) (hS : wellFormed S) (s : Nat) (c : Nat)
    (hc : c ∈ allCodes) (h : fits S s c = true) : fits initBoard s c = true := by
  have hcode := (mem_allCodes c).1 hc
  unfold fits at h ⊢
  rw [List.all_eq_true] at h ⊢
  intro l hl
  have hlt := List.mem_range.1 hl
  have hL := shipLengthFromIndex_le s
  have hodd := of_decide_eq_true (h l hl)
  rw [decide_eq_true_eq]
  have hx : c / 10 % 10 < 10 := Nat.mod_lt _ (by decide)
  unfold cellOf at hodd ⊢
  unfold initBoard
  by_cases ho : c % 10 = 1
  · rw [if_pos ho] at hodd ⊢
    have := (wellFormed_odd S hS _ _ (by omega) (by omega) hodd).1
    rw [if_pos this]
  · rw [if_neg ho] at hodd ⊢
    have := (wellFormed_odd S hS _ _ (by omega) (by omega) hodd).1
    rw [if_pos this]

theorem length_generateShipConfigs_le_initBoard (S : Board) (hS : wellFormed S) (s : Nat)
    (hs : s < 5) :
    (generateShipConfigs S s).length ≤ (generateShipConfigs initBoard s).length := by
  rw [generateShipConfigs_eq_filter S s hs, generateShipConfigs_eq_filter initBoard s hs,
    ← List.countP_eq_length_filter, ← List.countP_eq_length_filter]
  exact List.countP_mono_left (fun c hc h => fits_initBoard_of_wellFormed S hS s c hc h)

theorem generateShipConfigsBody_reads (S S2 : Board) (x y : Nat) (shipConfigs : Configs)
    (h : ∀ rc ∈ generateShipConfigsReads x y, S rc.1 rc.2 = S2 rc.1 rc.2) :
    generateShipConfigsBody S x y shipConfigs = generateShipConfigsBody S2 x y shipConfigs := by
  have hm : ∀ rc, rc ∈ generateShipConfigsReads x y ↔
      ∃ i, i < 5 ∧ (rc = (y + i, x) ∨ rc = (y, x + i)) := by
    intro rc
    unfold generateShipConfigsReads
    simp only [List.mem_flatMap, List.mem_range, List.mem_cons, List.mem_singleton,
      List.not_mem_nil, or_false]
  have c0 : S y x = S2 y x := h (y, x) ((hm _).2 ⟨0, by decide, Or.inl rfl⟩)
  have u1 : S (y + 1) x = S2 (y + 1) x := h (y + 1, x) ((hm _).2 ⟨1, by decide, Or.inl rfl⟩)
  have u2 : S (y + 2) x = S2 (y + 2) x := h (y + 2, x) ((hm _).2 ⟨2, by decide, Or.inl rfl⟩)
  have u3 : S (y + 3) x = S2 (y + 3) x := h (y + 3, x) ((hm _).2 ⟨3, by decide, Or.inl rfl⟩)
  have u4 : S (y + 4) x = S2 (y + 4) x := h (y + 4, x) ((hm _).2 ⟨4, by decide, Or.inl rfl⟩)
  have r1 : S y (x + 1) = S2 y (x + 1) := h (y, x + 1) ((hm _).2 ⟨1, by decide, Or.inr rfl⟩)
  have r2 : S y (x + 2) = S2 y (x + 2) := h (y, x + 2) ((hm _).2 ⟨2, by decide, Or.inr rfl⟩)
  have r3 : S y (x + 3) = S2 y (x + 3) := h (y, x + 3) ((hm _).2 ⟨3, by decide, Or.inr rfl⟩)
  have r4 : S y (x + 4) = S2 y (x + 4) := h (y, x + 4) ((hm _).2 ⟨4, by decide, Or.inr rfl⟩)
  unfold generateShipConfigsBody
  rw [c0, u1, u2, u3, u4, r1, r2, r3, r4]

/-- C24. `generateShipConfigs` stays inside its arrays. For every spot the two
loops visit, the cells `S[y + i][x]` and `S[y][x + i]` the body reads have both
indices in 0..17, and the body reads no other cell: it returns the same lists on
two boards that agree on these cells. On a well-formed board the final
`numShipConfigs[s]` is at most `2 * 10 * (11 - shipLengthFromIndex s)`, which is
at most the capacity 200 of `shipConfigs[s]`. -/
theorem generateShipConfigs_in_bounds (S : Board) (hS : wellFormed S) :
    (∀ x, BOARD_PADDING ≤ x → x < BOARD_SIDELENGTH + BOARD_PADDING →
      ∀ y, BOARD_PADDING ≤ y → y < BOARD_SIDELENGTH + BOARD_PADDING →
        (∀ rc ∈ generateShipConfigsReads x y, rc.1 < 18 ∧ rc.2 < 18) ∧
          ∀ (S2 : Board) (shipConfigs : Configs),
            (∀ rc ∈ generateShipConfigsReads x y, S rc.1 rc.2 = S2 rc.1 rc.2) →
            generateShipConfigsBody S x y shipConfigs =
              generateShipConfigsBody S2 x y shipConfigs) ∧
      ∀ s, s < 5 →
        (generateShipConfigs S s).length ≤ 2 * 10 * (11 - shipLengthFromIndex s) ∧
          2 * 10 * (11 - shipLengthFromIndex s) ≤ 200 := by
  constructor
  · intro x hx1 hx2 y hy1 hy2
    unfold BOARD_PADDING at hx1 hy1
    unfold BOARD_SIDELENGTH BOARD_PADDING at hx2 hy2
    constructor
    · intro rc hrc
      unfold generateShipConfigsReads at hrc
      simp only [List.mem_flatMap, List.mem_range, List.mem_cons, List.mem_singleton,
        List.not_mem_nil, or_false] at hrc
      obtain ⟨i, hi, h | h⟩ := hrc
      · rw [h]; exact ⟨by show y + i < 18; omega, by show x < 18; omega⟩
      · rw [h]; exact ⟨by show y < 18; omega, by show x + i < 18; omega⟩
    · intro S2 shipConfigs h
      exact generateShipConfigsBody_reads S S2 x y shipConfigs h
  · intro s hs
    have h := length_generateShipConfigs_le_initBoard S hS s hs
    have hc := initBoard_counts
    simp only [List.range, List.range.loop, List.map_cons, List.map_nil, List.cons.injEq,
      and_true] at hc
    obtain ⟨h0, h1, h2, h3, h4⟩ := hc
    interval_cases s <;> simp only [shipLengthFromIndex] <;> omega

/-- Witness of C24: the board with four sunk ships is well formed, and the list
of the length-5 ship has at most 120 entries. -/
theorem generateShipConfigs_in_bounds_witness :
    wellFormed sunkBoard ∧ (generateShipConfigs sunkBoard 4).length ≤ 120 :=
  ⟨sunkBoard_wellFormed,
    ((generateShipConfigs_in_bounds sunkBoard sunkBoard_wellFormed).2 4 (by decide)).1⟩

/-! ### The moduli of the sampled search -/

theorem selectConfig_eq_none_iff (src : RandomSource) (sunken sunkenLocations : Nat → Nat)
    (cfgs : Configs) (j : Nat) (st : (Nat → Nat) × Nat × Nat) :
    selectConfig src sunken sunkenLocations cfgs j st = none ↔ (cfgs j).length = 0 := by
  unfold selectConfig
  by_cases h : (cfgs j).length = 0
  · rw [if_pos h]
    exact ⟨fun _ => h, fun _ => rfl⟩
  · rw [if_neg h]
    by_cases hs : sunken j = 0
    · rw [if_pos hs]
      exact ⟨fun e => Option.noConfusion e, fun e => absurd e h⟩
    · rw [if_neg hs]
      exact ⟨fun e => Option.noConfusion e, fun e => absurd e h⟩

theorem selectLoop_prefix (src : RandomSource) (sunken sunkenLocations : Nat → Nat)
    (cfgs : Configs) (n : Nat) (hne : ∀ j, j < n → (cfgs j).length ≠ 0)
    (st : (Nat → Nat) × Nat × Nat) :
    ∃ st2,
      forLoop 0 n (fun j sel => Option.bind sel (selectConfig src sunken sunkenLocations cfgs j))
        (some st) = some st2 := by
  induction n with
  | zero => exact ⟨st, by rw [forLoop_zero_zero]⟩
  | succ n ih =>
    obtain ⟨st2, h⟩ := ih (fun j hj => hne j (Nat.lt_succ_of_lt hj))
    rw [forLoop_zero_succ, h]
    show ∃ st3, selectConfig src sunken sunkenLocations cfgs n st2 = some st3
    have hn := hne n (Nat.lt_succ_self n)
    cases hsel : selectConfig src sunken sunkenLocations cfgs n st2 with
    | none => exact absurd ((selectConfig_eq_none_iff _ _ _ _ _ _).1 hsel) hn
    | some st3 => exact ⟨st3, rfl⟩

set_option maxRecDepth 100000 in
theorem blockedGame_unsunk_lists :
    ∀ j, j < 4 → (generateShipConfigs blockedGame.S j).length ≠ 0 := by
  decide

/-- C23, at a failing input. A modulus of the sampled search divides by zero
exactly when the list of its ship is empty, whether the ship is sunk or not. In
the state with four blocks of unguessed squares and the length-5 ship sunk,
every ship that is not sunk has a non-empty list and the sampled search is the
one called; the selection for the ships 0 to 3 succeeds, and for the sunk ship
4 the modulus `genrand_int32() % numShipConfigs[4]` divides by zero, for every
random stream. -/
theorem selectConfig_modulus_by_zero :
    (∀ (src : RandomSource) (sunken sunkenLocations : Nat → Nat) (cfgs : Configs) (j : Nat)
        (st : (Nat → Nat) × Nat × Nat),
        selectConfig src sunken sunkenLocations cfgs j st = none ↔ (cfgs j).length = 0) ∧
      (∀ j, j < 5 → blockedGame.sunken j = 0 →
        (generateShipConfigs blockedGame.S j).length ≠ 0) ∧
      blockedGame.sunken 4 ≠ 0 ∧ (generateShipConfigs blockedGame.S 4).length = 0 ∧
      MAX_CONFIGS_TESTED < configProduct blockedGame.sunken (generateShipConfigs blockedGame.S) ∧
      ∀ (src : RandomSource) (st : (Nat → Nat) × Nat × Nat),
        ∃ st4,
          forLoop 0 4 (fun j sel => Option.bind sel
              (selectConfig src blockedGame.sunken blockedGame.sunkenLocations
                (generateShipConfigs blockedGame.S) j)) (some st) = some st4 ∧
            selectConfig src blockedGame.sunken blockedGame.sunkenLocations
              (generateShipConfigs blockedGame.S) 4 st4 = none := by
  refine ⟨selectConfig_eq_none_iff, ?_, by decide, blockedGame_lists.1, ?_, ?_⟩
  · intro j hj hs
    have h4 : j ≠ 4 := by
      intro e
      rw [e] at hs
      exact absurd hs (by decide)
    exact blockedGame_unsunk_lists j (by omega)
  · rw [blockedGame_product]
    decide
  · intro src st
    obtain ⟨st4, h⟩ := selectLoop_prefix src blockedGame.sunken blockedGame.sunkenLocations
      (generateShipConfigs blockedGame.S) 4 blockedGame_unsunk_lists st
    exact ⟨st4, h, (selectConfig_eq_none_iff _ _ _ _ _ _).2 blockedGame_lists.1⟩

/-! ### The frequencies of one ship -/

theorem validCount_cons (S : Board) (t : Nat → Nat) (ts : List (Nat → Nat)) :
    validCount S (t :: ts) = validCount S ts + (if validConfig S t = 1 then 1 else 0) := by
  unfold validCount
  by_cases h : validConfig S t = 1
  · simp [List.filter_cons, h]
  · simp [List.filter_cons, h]

theorem occupiedCount_cons (S : Board) (s p : Nat) (t : Nat → Nat) (ts : List (Nat → Nat)) :
    occupiedCount S s p (t :: ts) =
      occupiedCount S s p ts + (if validConfig S t = 1 ∧ t s = p then 1 else 0) := by
  unfold occupiedCount
  by_cases h : validConfig S t = 1 ∧ t s = p
  · simp [List.filter_cons, h.1, h.2]
  · rw [if_neg h]
    have : (decide (validConfig S t = 1) && decide (t s = p)) = false := by
      simpa using h
    simp [List.filter_cons, this]

theorem sum_occupiedCount (S : Board) (s : Nat) (ts : List (Nat → Nat))
    (hts : ∀ t ∈ ts, t s < 1000) :
    Finset.sum (Finset.range 1000) (fun p => occupiedCount S s p ts) = validCount S ts := by
  induction ts with
  | nil => simp [occupiedCount, validCount]
  | cons t ts ih =>
    have ht : t s ∈ Finset.range 1000 := Finset.mem_range.2 (hts t (List.mem_cons_self t ts))
    simp only [occupiedCount_cons, validCount_cons, Finset.sum_add_distrib]
    rw [ih (fun u hu => hts u (List.mem_cons_of_mem t hu))]
    by_cases h : validConfig S t = 1
    · simp only [h, true_and, if_true]
      rw [Finset.sum_ite_eq, if_pos ht]
    · simp only [h, false_and, if_false, Finset.sum_const_zero]

theorem occupiedCount_pinned (S : Board) (s q : Nat) (ts : List (Nat → Nat))
    (hts : ∀ t ∈ ts, t s = q) : occupiedCount S s q ts = validCount S ts := by
  induction ts with
  | nil => rfl
  | cons t ts ih =>
    rw [occupiedCount_cons, validCount_cons, ih (fun u hu => hts u (List.mem_cons_of_mem t hu))]
    have ht := hts t (List.mem_cons_self t ts)
    simp only [ht, and_true]

theorem recordedFrequency_of_searchState (S : Board) (ts : List (Nat → Nat))
    (st : Int × Hashmap) (hst : searchState S ts st) (hts : ∀ t ∈ ts, fleetCodes t)
    (s p : Nat) (hs : s < 5) (hp : p < 1000) :
    recordedFrequency st.2 s p = (occupiedCount S s p ts : Int) ∧
      get ((s * 1000 + p : Nat) : Int) st.2 =
        if occupiedCount S s p ts = 0 then -1 else (occupiedCount S s p ts : Int) := by
  have hk : ((s * 1000 + p : Nat) : Int) ≠ -1 := by omega
  have hget := hst.2.2 _ hk
  rw [keyCount_eq_occupiedCount S s p hs hp ts hts] at hget
  refine ⟨?_, hget⟩
  unfold recordedFrequency
  rw [hget]
  by_cases h0 : occupiedCount S s p ts = 0
  · rw [if_pos h0, if_pos rfl, h0]
    rfl
  · rw [if_neg h0, if_neg (by omega)]

/-- The frequencies a search leaves add up, for each ship, to its counter, and
the key of a pinned ship holds the counter when it is positive. -/
theorem searchState_sums (S : Board) (sunken sunkenLocations : Nat → Nat) (cfgs : Configs)
    (hin : ∀ s, s < 5 → ∀ p ∈ candidates sunken sunkenLocations cfgs s, insideBoard s p)
    (ts : List (Nat → Nat))
    (hmem : ∀ t ∈ ts, ∀ j, j < 5 → t j ∈ candidates sunken sunkenLocations cfgs j)
    (st : Int × Hashmap) (hst : searchState S ts st) :
    (∀ s, s < 5 →
        Finset.sum (Finset.range 1000) (fun p => recordedFrequency st.2 s p) = st.1) ∧
      ∀ s, s < 5 → sunken s ≠ 0 → 0 < st.1 →
        get ((s * 1000 + sunkenLocations s : Nat) : Int) st.2 = st.1 := by
  have hcodes : ∀ t ∈ ts, fleetCodes t := by
    intro t ht s hs
    exact insideBoard_codes s (t s) hs (hin s hs _ (hmem t ht s hs))
  have hlt : ∀ s, s < 5 → ∀ t ∈ ts, t s < 1000 := by
    intro s hs t ht
    have := hcodes t ht s hs
    omega
  constructor
  · intro s hs
    rw [hst.2.1, ← sum_occupiedCount S s ts (hlt s hs), Nat.cast_sum]
    apply Finset.sum_congr rfl
    intro p hp
    exact (recordedFrequency_of_searchState S ts st hst hcodes s p hs
      (Finset.mem_range.1 hp)).1
  · intro s hs hsunk hpos
    have hpin : ∀ t ∈ ts, t s = sunkenLocations s := by
      intro t ht
      have := hmem t ht s hs
      unfold candidates at this
      rw [if_pos hsunk] at this
      exact List.mem_singleton.1 this
    have hq : sunkenLocations s < 1000 := by
      have : sunkenLocations s ∈ candidates sunken sunkenLocations cfgs s := by
        unfold candidates
        rw [if_pos hsunk]
        exact List.mem_singleton_self _
      have := insideBoard_codes s _ hs (hin s hs _ this)
      omega
    rw [(recordedFrequency_of_searchState S ts st hst hcodes s _ hs hq).2,
      occupiedCount_pinned S s _ ts hpin, hst.2.1]
    rw [hst.2.1] at hpos
    have : validCount S ts ≠ 0 := by
      intro e
      rw [e] at hpos
      exact absurd hpos (by decide)
    rw [if_neg this]

/-- C22. Frequencies of one ship add up to the valid-fleet count. With every
candidate placement inside the board, on a fresh frequency map: the exhaustive
search, over fewer than `2^31` fleets, returns a value `V` and leaves a map in
which, for every ship, the recorded frequencies of its placement codes (an
absent one counting as 0) add up to `V`, and in which the key of a sunk ship at
its recorded placement holds `V` when `V > 0`; the sampled search has a result
when no list is empty, and whenever it returns `V`, for any random stream, the
map it leaves has the same two properties. -/
theorem frequencies_sum_to_valid_count (S : Board) (sunken sunkenLocations : Nat → Nat)
    (shipConfigs : Configs) (junk : Int → Int)
    (hin : ∀ s, s < 5 → ∀ p ∈ candidates sunken sunkenLocations shipConfigs s, insideBoard s p) :
    (configProduct sunken shipConfigs < 2147483648 →
      ∃ V map,
        bruteForceTestConfigs S sunken sunkenLocations shipConfigs (initializeHashmap junk) =
          some (V, map) ∧
        (∀ s, s < 5 →
          Finset.sum (Finset.range 1000) (fun p => recordedFrequency map s p) = V) ∧
        ∀ s, s < 5 → sunken s ≠ 0 → 0 < V →
          get ((s * 1000 + sunkenLocations s : Nat) : Int) map = V) ∧
      (∀ src : RandomSource, (∀ j, j < 5 → (shipConfigs j).length ≠ 0) →
        ∃ V map,
          randomlyTestConfigs S src sunken sunkenLocations shipConfigs
            (initializeHashmap junk) = some (V, map)) ∧
      ∀ (src : RandomSource) (V : Int) (map : Hashmap),
        randomlyTestConfigs S src sunken sunkenLocations shipConfigs (initializeHashmap junk) =
          some (V, map) →
        (∀ s, s < 5 →
          Finset.sum (Finset.range 1000) (fun p => recordedFrequency map s p) = V) ∧
        ∀ s, s < 5 → sunken s ≠ 0 → 0 < V →
          get ((s * 1000 + sunkenLocations s : Nat) : Int) map = V := by
  refine ⟨?_, ?_, ?_⟩
  · intro hsize
    rw [← length_crossProduct_candidates sunken sunkenLocations shipConfigs] at hsize
    obtain ⟨st, hrun, hst⟩ := bruteForceTestConfigs_spec S sunken sunkenLocations shipConfigs
      junk hin hsize
    have h := searchState_sums S sunken sunkenLocations shipConfigs hin _
      (fun t ht => mem_crossProduct _ t ht) st hst
    exact ⟨st.1, st.2, hrun, h.1, h.2⟩
  · intro src hne
    obtain ⟨ts, st, _, _, hrun, _⟩ := randomlyTestConfigs_spec S src sunken sunkenLocations
      shipConfigs hne hin junk
    exact ⟨st.1, st.2, hrun⟩
  · intro src V map hres
    by_cases hne : ∀ j, j < 5 → (shipConfigs j).length ≠ 0
    · obtain ⟨ts, st, _, hmem, hrun, hst⟩ := randomlyTestConfigs_spec S src sunken
        sunkenLocations shipConfigs hne hin junk
      rw [hrun] at hres
      have e : st = (V, map) := Option.some.inj hres
      rw [e] at hst
      exact searchState_sums S sunken sunkenLocations shipConfigs hin ts hmem (V, map) hst
    · have hex : ∃ j, j < 5 ∧ (shipConfigs j).length = 0 := by
        by_contra hcon
        exact hne (fun j hj hz => hcon ⟨j, hj, hz⟩)
      obtain ⟨j, hj, hz⟩ := hex
      rw [randomlyTestConfigs_none S src sunken sunkenLocations shipConfigs j hj hz] at hres
      exact Option.noConfusion hres

/-- Witness of C22: ship 0 has three candidate placements and the other ships
are sunk side by side. -/
theorem frequencies_sum_to_valid_count_witness :
    ∃ V map,
      bruteForceTestConfigs initBoard exampleSunken exampleLocations exampleConfigs
          (initializeHashmap (fun _ => 0)) = some (V, map) ∧
        (∀ s, s < 5 →
          Finset.sum (Finset.range 1000) (fun p => recordedFrequency map s p) = V) ∧
        ∀ s, s < 5 → exampleSunken s ≠ 0 → 0 < V →
          get ((s * 1000 + exampleLocations s : Nat) : Int) map = V :=
  (frequencies_sum_to_valid_count initBoard exampleSunken exampleLocations exampleConfigs
    (fun _ => 0) example_inside).1 (by decide)

/-! ### The coverage count of a square -/

theorem shipCoverCount_cons (S : Board) (s i : Nat) (t : Nat → Nat) (ts : List (Nat → Nat)) :
    shipCoverCount S s i (t :: ts) =
      shipCoverCount S s i ts +
        (if validConfig S t = 1 ∧ covers s (t s) i = true then 1 else 0) := by
  unfold shipCoverCount
  by_cases h : validConfig S t = 1 ∧ covers s (t s) i = true
  · simp [List.filter_cons, h.1, h.2]
  · rw [if_neg h]
    have : (decide (validConfig S t = 1) && covers s (t s) i) = false := by
      simpa using h
    simp [List.filter_cons, this]

theorem coveringCount_cons (S : Board) (sunken : Nat → Nat) (i : Nat) (t : Nat → Nat)
    (ts : List (Nat → Nat)) :
    coveringCount S sunken i (t :: ts) =
      coveringCount S sunken i ts +
        (if validConfig S t = 1 ∧
            (List.range 5).any (fun s => decide (sunken s = 0) && covers s (t s) i) = true
          then 1 else 0) := by
  unfold coveringCount
  by_cases h : validConfig S t = 1 ∧
      (List.range 5).any (fun s => decide (sunken s = 0) && covers s (t s) i) = true
  · rw [if_pos h, List.filter_cons, if_pos (by rw [Bool.and_eq_true, decide_eq_true_eq]; exact h)]
    rfl
  · rw [if_neg h, List.filter_cons,
      if_neg (by rw [Bool.and_eq_true, decide_eq_true_eq]; exact h)]
    rfl

theorem coveringCount_le_validCount (S : Board) (sunken : Nat → Nat) (i : Nat)
    (ts : List (Nat → Nat)) : coveringCount S sunken i ts ≤ validCount S ts := by
  induction ts with
  | nil => exact Nat.le_refl _
  | cons t ts ih =>
    rw [coveringCount_cons, validCount_cons]
    by_cases h : validConfig S t = 1
    · rw [if_pos h]
      split_ifs <;> omega
    · rw [if_neg h, if_neg (fun hh => h hh.1)]
      omega

theorem sum_indicator_nodup (l : List Nat) (hl : l.Nodup) (a : Nat) :
    (l.map (fun p => if a = p then (1 : Int) else 0)).sum = if a ∈ l then 1 else 0 := by
  induction l with
  | nil => rfl
  | cons q l ih =>
    rw [List.nodup_cons] at hl
    rw [List.map_cons, List.sum_cons, ih hl.2]
    by_cases h : a = q
    · subst h
      rw [if_pos rfl, if_neg hl.1, if_pos (List.mem_cons_self _ _)]
      rfl
    · rw [if_neg h]
      by_cases hm : a ∈ l
      · rw [if_pos hm, if_pos (List.mem_cons_of_mem _ hm)]
        rfl
      · rw [if_neg hm, if_neg (by rw [List.mem_cons]; tauto)]
        rfl

theorem sum_map_zero (l : List Nat) : (l.map (fun _ => (0 : Int))).sum = 0 := by
  induction l with
  | nil => rfl
  | cons q l ih => rw [List.map_cons, List.sum_cons, ih]; rfl

theorem sum_occupied_covering (S : Board) (s i : Nat) (L : List Nat) (hL : L.Nodup)
    (ts : List (Nat → Nat)) (hmem : ∀ t ∈ ts, t s ∈ L) :
    ((L.filter (fun p => covers s p i)).map (fun p => (occupiedCount S s p ts : Int))).sum =
      (shipCoverCount S s i ts : Int) := by
  induction ts with
  | nil =>
    have : (fun p => (occupiedCount S s p [] : Int)) = fun _ => (0 : Int) := rfl
    rw [this, sum_map_zero]
    rfl
  | cons t ts ih =>
    have hrest := ih (fun u hu => hmem u (List.mem_cons_of_mem t hu))
    have ht := hmem t (List.mem_cons_self t ts)
    have hfun : (fun p => (occupiedCount S s p (t :: ts) : Int)) =
        fun p => (occupiedCount S s p ts : Int) +
          (if validConfig S t = 1 ∧ t s = p then (1 : Int) else 0) := by
      funext p
      rw [occupiedCount_cons]
      push_cast
      rfl
    rw [hfun, List.sum_map_add, hrest, shipCoverCount_cons]
    push_cast
    congr 1
    by_cases hv : validConfig S t = 1
    · simp only [hv, true_and]
      rw [sum_indicator_nodup _ (hL.filter _) (t s)]
      simp only [List.mem_filter, ht, true_and]
    · simp only [hv, false_and, if_false]
      exact sum_map_zero _

theorem sum_indicator_five (b : Nat → Bool)
    (hex : ∀ s1 s2, s1 < s2 → s2 < 5 → b s1 = true → b s2 = true → False) :
    ((List.range 5).map (fun s => if b s = true then (1 : Int) else 0)).sum =
      if (List.range 5).any b = true then 1 else 0 := by
  have h01 := hex 0 1 (by decide) (by decide)
  have h02 := hex 0 2 (by decide) (by decide)
  have h03 := hex 0 3 (by decide) (by decide)
  have h04 := hex 0 4 (by decide) (by decide)
  have h12 := hex 1 2 (by decide) (by decide)
  have h13 := hex 1 3 (by decide) (by decide)
  have h14 := hex 1 4 (by decide) (by decide)
  have h23 := hex 2 3 (by decide) (by decide)
  have h24 := hex 2 4 (by decide) (by decide)
  have h34 := hex 3 4 (by decide) (by decide)
  have hr : List.range 5 = [0, 1, 2, 3, 4] := rfl
  rw [hr]
  simp only [List.map_cons, List.map_nil, List.sum_cons, List.sum_nil, List.any_cons,
    List.any_nil, Bool.or_false]
  cases h0 : b 0 <;> cases h1 : b 1 <;> cases h2 : b 2 <;> cases h3 : b 3 <;>
    cases h4 : b 4 <;> simp_all

theorem nodup_flatMap_of_key (l : List Nat) (hl : l.Nodup) (f : Nat → List (Nat → Nat))
    (k : Nat) (hf : ∀ x ∈ l, (f x).Nodup) (hk : ∀ x ∈ l, ∀ t ∈ f x, t k = x) :
    (l.flatMap f).Nodup := by
  rw [List.nodup_flatMap]
  refine ⟨hf, hl.pairwise_of_forall_ne ?_⟩
  intro a ha b hb hab t hta htb
  exact hab ((hk a ha t hta).symm.trans (hk b hb t htb))

theorem crossProduct_nodup (cand : Nat → List Nat) (h : ∀ s, s < 5 → (cand s).Nodup) :
    (crossProduct cand).Nodup := by
  unfold crossProduct
  refine nodup_flatMap_of_key _ (h 0 (by decide)) _ 0 (fun p0 _ => ?_) ?_
  · refine nodup_flatMap_of_key _ (h 1 (by decide)) _ 1 (fun p1 _ => ?_) ?_
    · refine nodup_flatMap_of_key _ (h 2 (by decide)) _ 2 (fun p2 _ => ?_) ?_
      · refine nodup_flatMap_of_key _ (h 3 (by decide)) _ 3 (fun p3 _ => ?_) ?_
        · refine List.Nodup.map_on ?_ (h 4 (by decide))
          intro a _ b _ hab
          have := congrFun hab 4
          rw [(fleet_apply p0 p1 p2 p3 a).2.2.2.2, (fleet_apply p0 p1 p2 p3 b).2.2.2.2] at this
          exact this
        · intro p3 _ t ht
          simp only [List.mem_map] at ht
          obtain ⟨p4, _, rfl⟩ := ht
          exact (fleet_apply p0 p1 p2 p3 p4).2.2.2.1
      · intro p2 _ t ht
        simp only [List.mem_flatMap, List.mem_map] at ht
        obtain ⟨p3, _, p4, _, rfl⟩ := ht
        exact (fleet_apply p0 p1 p2 p3 p4).2.2.1
    · intro p1 _ t ht
      simp only [List.mem_flatMap, List.mem_map] at ht
      obtain ⟨p2, _, p3, _, p4, _, rfl⟩ := ht
      exact (fleet_apply p0 p1 p2 p3 p4).2.1
  · intro p0 _ t ht
    simp only [List.mem_flatMap, List.mem_map] at ht
    obtain ⟨p1, _, p2, _, p3, _, p4, _, rfl⟩ := ht
    exact (fleet_apply p0 p1 p2 p3 p4).1

theorem generateShipConfigs_nodup (S : Board) (s : Nat) (hs : s < 5) :
    (generateShipConfigs S s).Nodup := by
  rw [generateShipConfigs_eq_filter S s hs]
  exact allCodes_nodup.filter _

theorem candidates_nodup (sunken sunkenLocations : Nat → Nat) (cfgs : Configs) (s : Nat)
    (h : sunken s = 0 → (cfgs s).Nodup) :
    (candidates sunken sunkenLocations cfgs s).Nodup := by
  unfold candidates
  by_cases hs : sunken s = 0
  · rw [if_neg (not_not.2 hs)]; exact h hs
  · rw [if_pos hs]; exact List.nodup_singleton _

theorem sum_shipCoverCount (S : Board) (sunken : Nat → Nat) (i : Nat) (ts : List (Nat → Nat))
    (hex : ∀ t ∈ ts, validConfig S t = 1 → ∀ s1 s2, s1 < s2 → s2 < 5 →
      sunken s1 = 0 → sunken s2 = 0 → covers s1 (t s1) i = true →
      covers s2 (t s2) i = true → False) :
    ((List.range 5).map (fun s =>
        if sunken s = 0 then (shipCoverCount S s i ts : Int) else 0)).sum =
      (coveringCount S sunken i ts : Int) := by
  induction ts with
  | nil =>
    have : (fun s => if sunken s = 0 then ((shipCoverCount S s i [] : Nat) : Int) else 0) =
        fun _ => (0 : Int) := by
      funext s
      split_ifs <;> rfl
    rw [this, sum_map_zero]
    rfl
  | cons t ts ih =>
    have hrest := ih (fun u hu => hex u (List.mem_cons_of_mem t hu))
    have ht := hex t (List.mem_cons_self t ts)
    by_cases hv : validConfig S t = 1
    · have hfun : (fun s => if sunken s = 0 then ((shipCoverCount S s i (t :: ts) : Nat) : Int)
            else 0) =
          fun s => (if sunken s = 0 then ((shipCoverCount S s i ts : Nat) : Int) else 0) +
            (if (decide (sunken s = 0) && covers s (t s) i) = true then (1 : Int) else 0) := by
        funext s
        rw [shipCoverCount_cons]
        by_cases h0 : sunken s = 0
        · by_cases hc : covers s (t s) i = true
          · simp [h0, hc, hv]
          · simp [h0, hc, hv]
        · simp [h0]
      rw [hfun, List.sum_map_add, hrest, coveringCount_cons,
        sum_indicator_five (fun s => decide (sunken s = 0) && covers s (t s) i)]
      · push_cast
        congr 1
        simp only [hv, true_and]
      · intro s1 s2 h12 h2 hb1 hb2
        simp only [Bool.and_eq_true, decide_eq_true_eq] at hb1 hb2
        exact ht hv s1 s2 h12 h2 hb1.1 hb2.1 hb1.2 hb2.2
    · have hfun : (fun s => if sunken s = 0 then ((shipCoverCount S s i (t :: ts) : Nat) : Int)
            else 0) =
          fun s => if sunken s = 0 then ((shipCoverCount S s i ts : Nat) : Int) else 0 := by
        funext s
        have e : shipCoverCount S s i (t :: ts) = shipCoverCount S s i ts := by
          rw [shipCoverCount_cons, if_neg (fun hh => hv hh.1), Nat.add_zero]
        rw [e]
      rw [hfun, hrest, coveringCount_cons, if_neg (fun hh => hv hh.1), Nat.add_zero]

theorem positiveFrequency_of_searchState (S : Board) (ts : List (Nat → Nat))
    (st : Int × Hashmap) (hst : searchState S ts st) (hts : ∀ t ∈ ts, fleetCodes t)
    (s p : Nat) (hs : s < 5) (hp : p < 1000) :
    positiveFrequency st.2 s p = (occupiedCount S s p ts : Int) := by
  have hget := (recordedFrequency_of_searchState S ts st hst hts s p hs hp).2
  unfold positiveFrequency
  rw [hget]
  by_cases h0 : occupiedCount S s p ts = 0
  · rw [if_pos h0, if_neg (by decide), h0]
    rfl
  · rw [if_neg h0, if_pos (by omega)]

/-- The coverage count of a square after a search over the fleets `ts` made of
candidates, the lists of the ships that are not sunk being free of duplicates:
the number of valid fleets of `ts` in which a ship that is not sunk covers the
square. -/
theorem coverage_of_searchState (S : Board) (sunken sunkenLocations : Nat → Nat)
    (cfgs : Configs)
    (hin : ∀ s, s < 5 → ∀ p ∈ candidates sunken sunkenLocations cfgs s, insideBoard s p)
    (hnodup : ∀ s, s < 5 → sunken s = 0 → (cfgs s).Nodup)
    (ts : List (Nat → Nat))
    (hmem : ∀ t ∈ ts, ∀ j, j < 5 → t j ∈ candidates sunken sunkenLocations cfgs j)
    (hlen : ts.length < 2147483648) (st : Int × Hashmap) (hst : searchState S ts st)
    (i : Nat) :
    moveFrequencies sunken cfgs st.2 i = (coveringCount S sunken i ts : Int) := by
  have hcodes : ∀ t ∈ ts, fleetCodes t := by
    intro t ht s hs
    exact insideBoard_codes s (t s) hs (hin s hs _ (hmem t ht s hs))
  have hcand : ∀ s, sunken s = 0 → candidates sunken sunkenLocations cfgs s = cfgs s := by
    intro s h0
    unfold candidates
    rw [if_neg (not_not.2 h0)]
  have hin2 : ∀ s, s < 5 → sunken s = 0 → ∀ p ∈ cfgs s, insideBoard s p := by
    intro s hs h0 p hp
    exact hin s hs p (by rw [hcand s h0]; exact hp)
  have hex : ∀ t ∈ ts, validConfig S t = 1 → ∀ s1 s2, s1 < s2 → s2 < 5 →
      sunken s1 = 0 → sunken s2 = 0 → covers s1 (t s1) i = true →
      covers s2 (t s2) i = true → False := by
    intro t ht hv s1 s2 h12 h2 _ _ hc1 hc2
    have h1 : s1 < 5 := Nat.lt_trans h12 h2
    have hi1 := hin s1 h1 _ (hmem t ht s1 h1)
    have hi2 := hin s2 h2 _ (hmem t ht s2 h2)
    have hno := ((validConfig_eq_one_iff S t).1 hv).1 s1 h1 s2 h12 h2
    have hyes := (collide_iff_overlap s1 s2 (t s1) (t s2) hi1 hi2).2
      ⟨(i % 10, i / 10), of_decide_eq_true hc1, of_decide_eq_true hc2⟩
    omega
  have hsumEq : ((List.range 5).map (fun s => if sunken s = 0 then
      (((cfgs s).filter (fun p => covers s p i)).map (positiveFrequency st.2 s)).sum
        else 0)).sum = (coveringCount S sunken i ts : Int) := by
    rw [← sum_shipCoverCount S sunken i ts hex]
    congr 1
    apply List.map_congr_left
    intro s hs
    have hs5 : s < 5 := List.mem_range.1 hs
    by_cases h0 : sunken s = 0
    · rw [if_pos h0, if_pos h0,
        ← sum_occupied_covering S s i (cfgs s) (hnodup s hs5 h0) ts
          (fun t ht => by rw [← hcand s h0]; exact hmem t ht s hs5)]
      congr 1
      apply List.map_congr_left
      intro p hp
      have hp2 : p ∈ cfgs s := (List.mem_filter.1 hp).1
      have hcode := insideBoard_codes s p hs5 (hin2 s hs5 h0 p hp2)
      exact positiveFrequency_of_searchState S ts st hst hcodes s p hs5 (by omega)
    · rw [if_neg h0, if_neg h0]
  have hbound := coveringCount_le_validCount S sunken i ts
  have hbound2 := validCount_le_length S ts
  have hrun := shipLoop_apply sunken cfgs st.2 i 5 (le_refl 5) hin2
    (by rw [hsumEq]; omega)
  unfold moveFrequencies
  exact hrun.trans hsumEq

/-- C21. A valid fleet is counted at most once per square. On a well-formed
board with the recorded placements of the sunk ships inside the board, the
exhaustive search over the generated lists, fewer than `2^31` fleets, returns
the number `V` of valid fleets of the cross product, in which no fleet is
listed twice; the coverage count `calculateBestMove` then computes for a square
`i` is the number of valid fleets in which the footprint of some ship that is
not sunk covers `i`, so it lies between 0 and `V`. -/
theorem coverage_counts_valid_fleets (S : Board) (sunken sunkenLocations : Nat → Nat)
    (junk : Int → Int) (hS : wellFormed S)
    (hloc : ∀ s, s < 5 → sunken s ≠ 0 → insideBoard s (sunkenLocations s))
    (hsize : configProduct sunken (generateShipConfigs S) < 2147483648) :
    (crossProduct (candidates sunken sunkenLocations (generateShipConfigs S))).Nodup ∧
      ∃ V map,
        bruteForceTestConfigs S sunken sunkenLocations (generateShipConfigs S)
          (initializeHashmap junk) = some (V, map) ∧
        V = (validCount S
          (crossProduct (candidates sunken sunkenLocations (generateShipConfigs S))) : Int) ∧
        ∀ i,
          moveFrequencies sunken (generateShipConfigs S) map i =
              (coveringCount S sunken i
                (crossProduct (candidates sunken sunkenLocations (generateShipConfigs S))) :
                  Int) ∧
            0 ≤ moveFrequencies sunken (generateShipConfigs S) map i ∧
            moveFrequencies sunken (generateShipConfigs S) map i ≤ V := by
  have hin : ∀ s, s < 5 →
      ∀ p ∈ candidates sunken sunkenLocations (generateShipConfigs S) s, insideBoard s p := by
    intro s hs p hp
    unfold candidates at hp
    by_cases h0 : sunken s ≠ 0
    · rw [if_pos h0, List.mem_singleton] at hp
      rw [hp]; exact hloc s hs h0
    · rw [if_neg h0] at hp
      exact generateShipConfigs_inside S hS s hs p hp
  have hlen := hsize
  rw [← length_crossProduct_candidates sunken sunkenLocations (generateShipConfigs S)] at hlen
  obtain ⟨st, hrun, hst⟩ := bruteForceTestConfigs_spec S sunken sunkenLocations
    (generateShipConfigs S) junk hin hlen
  refine ⟨crossProduct_nodup _ (fun s hs => candidates_nodup _ _ _ s
    (fun _ => generateShipConfigs_nodup S s hs)), st.1, st.2, hrun, hst.2.1, ?_⟩
  intro i
  have hcov := coverage_of_searchState S sunken sunkenLocations (generateShipConfigs S) hin
    (fun s hs _ => generateShipConfigs_nodup S s hs) _
    (fun t ht => mem_crossProduct _ t ht) hlen st hst i
  have hbound := coveringCount_le_validCount S sunken i
    (crossProduct (candidates sunken sunkenLocations (generateShipConfigs S)))
  rw [hcov, hst.2.1]
  refine ⟨rfl, ?_, ?_⟩
  · exact Int.ofNat_nonneg _
  · exact_mod_cast hbound

set_option maxRecDepth 100000 in
theorem sunkGame_size :
    configProduct sunkGame.sunken (generateShipConfigs sunkBoard) < 2147483648 := by
  decide

/-- Witness of C21: the board with the ships 0 to 3 sunk in the columns 0 to 3
and the length-5 ship left. -/
theorem coverage_counts_valid_fleets_witness :
    ∃ V map,
      bruteForceTestConfigs sunkBoard sunkGame.sunken sunkGame.sunkenLocations
        (generateShipConfigs sunkBoard) (initializeHashmap (fun _ => 0)) = some (V, map) ∧
      ∀ i, 0 ≤ moveFrequencies sunkGame.sunken (generateShipConfigs sunkBoard) map i ∧
        moveFrequencies sunkGame.sunken (generateShipConfigs sunkBoard) map i ≤ V := by
  obtain ⟨_, V, map, hrun, _, h⟩ := coverage_counts_valid_fleets sunkBoard sunkGame.sunken
    sunkGame.sunkenLocations (fun _ => 0) sunkBoard_wellFormed
    (fun t ht hs => (sunkGame_marked t ht hs).1) sunkGame_size
  exact ⟨V, map, hrun, fun i => (h i).2⟩

/-! ### calculateBestMove on the counts of a search -/

theorem occupiedCount_eq_zero (S : Board) (s p : Nat) (ts : List (Nat → Nat))
    (h : ∀ t ∈ ts, t s ≠ p) : occupiedCount S s p ts = 0 := by
  induction ts with
  | nil => rfl
  | cons t ts ih =>
    rw [occupiedCount_cons, ih (fun u hu => h u (List.mem_cons_of_mem t hu)),
      if_neg (fun hh => h t (List.mem_cons_self t ts) hh.2)]

/-- After a search over the fleets `ts`, the sum over the ships that are not
sunk of the positive recorded frequencies of the placements covering `i` is the
number of valid fleets in which such a ship covers `i`. -/
theorem coverageOverUnsunkShips_of_searchState (S : Board)
    (sunken sunkenLocations : Nat → Nat) (cfgs : Configs)
    (hin : ∀ s, s < 5 → ∀ p ∈ candidates sunken sunkenLocations cfgs s, insideBoard s p)
    (hnodup : ∀ s, s < 5 → sunken s = 0 → (cfgs s).Nodup)
    (ts : List (Nat → Nat))
    (hmem : ∀ t ∈ ts, ∀ j, j < 5 → t j ∈ candidates sunken sunkenLocations cfgs j)
    (st : Int × Hashmap) (hst : searchState S ts st) (i : Nat) :
    coverageOverUnsunkShips sunken cfgs st.2 i = (coveringCount S sunken i ts : Int) := by
  have hcand : ∀ s, sunken s = 0 → candidates sunken sunkenLocations cfgs s = cfgs s := by
    intro s h0
    unfold candidates
    rw [if_neg (not_not.2 h0)]
  have hin2 : ∀ s, s < 5 → sunken s = 0 → ∀ p ∈ cfgs s, insideBoard s p := by
    intro s hs h0 p hp
    exact hin s hs p (by rw [hcand s h0]; exact hp)
  have hcodes : ∀ t ∈ ts, fleetCodes t := by
    intro t ht s hs
    exact insideBoard_codes s (t s) hs (hin s hs _ (hmem t ht s hs))
  have hex : ∀ t ∈ ts, validConfig S t = 1 → ∀ s1 s2, s1 < s2 → s2 < 5 →
      sunken s1 = 0 → sunken s2 = 0 → covers s1 (t s1) i = true →
      covers s2 (t s2) i = true → False := by
    intro t ht hv s1 s2 h12 h2 _ _ hc1 hc2
    have h1 : s1 < 5 := Nat.lt_trans h12 h2
    have hi1 := hin s1 h1 _ (hmem t ht s1 h1)
    have hi2 := hin s2 h2 _ (hmem t ht s2 h2)
    have hno := ((validConfig_eq_one_iff S t).1 hv).1 s1 h1 s2 h12 h2
    have hyes := (collide_iff_overlap s1 s2 (t s1) (t s2) hi1 hi2).2
      ⟨(i % 10, i / 10), of_decide_eq_true hc1, of_decide_eq_true hc2⟩
    omega
  unfold coverageOverUnsunkShips
  rw [← sum_shipCoverCount S sunken i ts hex]
  congr 1
  apply List.map_congr_left
  intro s hs
  have hs5 : s < 5 := List.mem_range.1 hs
  by_cases h0 : sunken s = 0
  · rw [if_pos h0, if_pos h0,
      ← sum_occupied_covering S s i (cfgs s) (hnodup s hs5 h0) ts
        (fun t ht => by rw [← hcand s h0]; exact hmem t ht s hs5)]
    congr 1
    apply List.map_congr_left
    intro p hp
    have hp2 : p ∈ cfgs s := (List.mem_filter.1 hp).1
    have hcode := insideBoard_codes s p hs5 (hin2 s hs5 h0 p hp2)
    exact positiveFrequency_of_searchState S ts st hst hcodes s p hs5 (by omega)
  · rw [if_neg h0, if_neg h0]

/-- After a search over the fleets `ts`, when the recorded placement of a sunk
ship is not in its list, the sum over every ship agrees with the sum over the
ships that are not sunk: a listed placement of a sunk ship has no record, and
the record of a listed placement of another ship is absent or positive. -/
theorem coverageOverAllShips_of_searchState (S : Board) (sunken sunkenLocations : Nat → Nat)
    (cfgs : Configs)
    (hin : ∀ s, s < 5 → ∀ p ∈ candidates sunken sunkenLocations cfgs s, insideBoard s p)
    (hlist : ∀ s, s < 5 → ∀ p ∈ cfgs s, insideBoard s p)
    (hfree : ∀ s, s < 5 → sunken s ≠ 0 → sunkenLocations s ∉ cfgs s)
    (ts : List (Nat → Nat))
    (hmem : ∀ t ∈ ts, ∀ j, j < 5 → t j ∈ candidates sunken sunkenLocations cfgs j)
    (st : Int × Hashmap) (hst : searchState S ts st) (i : Nat) :
    coverageOverAllShips cfgs st.2 i = coverageOverUnsunkShips sunken cfgs st.2 i := by
  have hcodes : ∀ t ∈ ts, fleetCodes t := by
    intro t ht s hs
    exact insideBoard_codes s (t s) hs (hin s hs _ (hmem t ht s hs))
  unfold coverageOverAllShips coverageOverUnsunkShips
  congr 1
  apply List.map_congr_left
  intro s hs
  have hs5 : s < 5 := List.mem_range.1 hs
  by_cases h0 : sunken s = 0
  · rw [if_pos h0]
    congr 1
    apply List.map_congr_left
    intro p hp
    have hp2 : p ∈ cfgs s := (List.mem_filter.1 hp).1
    have hcode := insideBoard_codes s p hs5 (hlist s hs5 p hp2)
    have hp3 : p < 1000 := by omega
    rw [(recordedFrequency_of_searchState S ts st hst hcodes s p hs5 hp3).1,
      positiveFrequency_of_searchState S ts st hst hcodes s p hs5 hp3]
  · rw [if_neg h0]
    have hzero : ((cfgs s).filter (fun p => covers s p i)).map (recordedFrequency st.2 s) =
        ((cfgs s).filter (fun p => covers s p i)).map (fun _ => (0 : Int)) := by
      apply List.map_congr_left
      intro p hp
      have hp2 : p ∈ cfgs s := (List.mem_filter.1 hp).1
      have hcode := insideBoard_codes s p hs5 (hlist s hs5 p hp2)
      have hp3 : p < 1000 := by omega
      rw [(recordedFrequency_of_searchState S ts st hst hcodes s p hs5 hp3).1,
        occupiedCount_eq_zero S s p ts]
      · rfl
      · intro t ht e
        have hpin := hmem t ht s hs5
        unfold candidates at hpin
        rw [if_pos h0, List.mem_singleton] at hpin
        rw [e] at hpin
        rw [hpin] at hp2
        exact hfree s hs5 h0 hp2
    rw [hzero, sum_map_zero]

/-- After a search over the fleets `ts`, the coverage count of a square is the
sum, over every ship and every placement of its list covering the square, of
the recorded frequency, an absent record counting as 0. -/
theorem moveFrequencies_of_searchState (S : Board) (sunken sunkenLocations : Nat → Nat)
    (cfgs : Configs)
    (hin : ∀ s, s < 5 → ∀ p ∈ candidates sunken sunkenLocations cfgs s, insideBoard s p)
    (hlist : ∀ s, s < 5 → ∀ p ∈ cfgs s, insideBoard s p)
    (hnodup : ∀ s, s < 5 → sunken s = 0 → (cfgs s).Nodup)
    (hfree : ∀ s, s < 5 → sunken s ≠ 0 → sunkenLocations s ∉ cfgs s)
    (ts : List (Nat → Nat))
    (hmem : ∀ t ∈ ts, ∀ j, j < 5 → t j ∈ candidates sunken sunkenLocations cfgs j)
    (hlen : ts.length < 2147483648) (st : Int × Hashmap) (hst : searchState S ts st)
    (i : Nat) :
    moveFrequencies sunken cfgs st.2 i = coverageOverAllShips cfgs st.2 i := by
  rw [coverage_of_searchState S sunken sunkenLocations cfgs hin hnodup ts hmem hlen st hst i,
    coverageOverAllShips_of_searchState S sunken sunkenLocations cfgs hin hlist hfree ts hmem
      st hst i,
    coverageOverUnsunkShips_of_searchState S sunken sunkenLocations cfgs hin hnodup ts hmem
      st hst i]

theorem marked_placement_not_listed (S : Board) (hS : wellFormed S) (s q : Nat) (hs : s < 5)
    (hq : ∀ sq ∈ footprint s q, S (sq.2 + BOARD_PADDING) (sq.1 + BOARD_PADDING) = 4) :
    q ∉ generateShipConfigs S s := by
  intro hmem
  have hpos := shipLengthFromIndex_pos s hs
  exact no_collision_with_marked S hS s s q q hs hmem hq
    ⟨_, (footprint_mem s q _).2 ⟨0, hpos, rfl⟩, (footprint_mem s q _).2 ⟨0, hpos, rfl⟩⟩

/-- C10. The coverage count computed by `calculateBestMove`. On a well-formed
board on which the recorded placement of each sunk ship lies inside the board
with its squares marked HitOnSunkShip (4), with the lists `generateShipConfigs`
produces and the frequency map a search leaves from a fresh map: for every
square `i`, the coverage count the function uses for `i` is the sum, over
every ship `s` and every placement `p` of its list whose footprint covers `i`,
of the frequency recorded for `(s, p)`, an absent entry counting as 0. The
exhaustive search, over fewer than `2^31` fleets, has such a result; the
sampled search has one when no list is empty, and the equality holds whenever
it returns, for any random stream. -/
theorem coverage_count_is_recorded_sum (S : Board) (sunken sunkenLocations : Nat → Nat)
    (junk : Int → Int) (hS : wellFormed S)
    (hmark : ∀ s, s < 5 → sunken s ≠ 0 →
      insideBoard s (sunkenLocations s) ∧
        ∀ sq ∈ footprint s (sunkenLocations s),
          S (sq.2 + BOARD_PADDING) (sq.1 + BOARD_PADDING) = 4) :
    (configProduct sunken (generateShipConfigs S) < 2147483648 →
      ∃ V map,
        bruteForceTestConfigs S sunken sunkenLocations (generateShipConfigs S)
          (initializeHashmap junk) = some (V, map) ∧
        ∀ i, moveFrequencies sunken (generateShipConfigs S) map i =
          coverageOverAllShips (generateShipConfigs S) map i) ∧
      (∀ src : RandomSource, (∀ j, j < 5 → (generateShipConfigs S j).length ≠ 0) →
        ∃ V map,
          randomlyTestConfigs S src sunken sunkenLocations (generateShipConfigs S)
            (initializeHashmap junk) = some (V, map)) ∧
      ∀ (src : RandomSource) (V : Int) (map : Hashmap),
        randomlyTestConfigs S src sunken sunkenLocations (generateShipConfigs S)
          (initializeHashmap junk) = some (V, map) →
        ∀ i, moveFrequencies sunken (generateShipConfigs S) map i =
          coverageOverAllShips (generateShipConfigs S) map i := by
  have hlist : ∀ s, s < 5 → ∀ p ∈ generateShipConfigs S s, insideBoard s p :=
    fun s hs p hp => generateShipConfigs_inside S hS s hs p hp
  have hin : ∀ s, s < 5 →
      ∀ p ∈ candidates sunken sunkenLocations (generateShipConfigs S) s, insideBoard s p := by
    intro s hs p hp
    unfold candidates at hp
    by_cases h0 : sunken s ≠ 0
    · rw [if_pos h0, List.mem_singleton] at hp
      rw [hp]; exact (hmark s hs h0).1
    · rw [if_neg h0] at hp
      exact hlist s hs p hp
  have hnodup : ∀ s, s < 5 → sunken s = 0 → (generateShipConfigs S s).Nodup :=
    fun s hs _ => generateShipConfigs_nodup S s hs
  have hfree : ∀ s, s < 5 → sunken s ≠ 0 → sunkenLocations s ∉ generateShipConfigs S s :=
    fun s hs h0 => marked_placement_not_listed S hS s _ hs (hmark s hs h0).2
  refine ⟨?_, ?_, ?_⟩
  · intro hsize
    rw [← length_crossProduct_candidates sunken sunkenLocations (generateShipConfigs S)] at hsize
    obtain ⟨st, hrun, hst⟩ := bruteForceTestConfigs_spec S sunken sunkenLocations
      (generateShipConfigs S) junk hin hsize
    exact ⟨st.1, st.2, hrun, fun i =>
      moveFrequencies_of_searchState S sunken sunkenLocations (generateShipConfigs S) hin hlist
        hnodup hfree _ (fun t ht => mem_crossProduct _ t ht) hsize st hst i⟩
  · intro src hne
    obtain ⟨ts, st, _, _, hrun, _⟩ := randomlyTestConfigs_spec S src sunken sunkenLocations
      (generateShipConfigs S) hne hin junk
    exact ⟨st.1, st.2, hrun⟩
  · intro src V map hres i
    by_cases hne : ∀ j, j < 5 → (generateShipConfigs S j).length ≠ 0
    · obtain ⟨ts, st, hlen, hmem, hrun, hst⟩ := randomlyTestConfigs_spec S src sunken
        sunkenLocations (generateShipConfigs S) hne hin junk
      rw [hrun] at hres
      have e : st = (V, map) := Option.some.inj hres
      rw [e] at hst
      have hmax : MAX_CONFIGS_TESTED = 10000000 := rfl
      exact moveFrequencies_of_searchState S sunken sunkenLocations (generateShipConfigs S) hin
        hlist hnodup hfree ts hmem (by rw [hlen, hmax]; omega) (V, map) hst i
    · have hex : ∃ j, j < 5 ∧ (generateShipConfigs S j).length = 0 := by
        by_contra hcon
        exact hne (fun j hj hz => hcon ⟨j, hj, hz⟩)
      obtain ⟨j, hj, hz⟩ := hex
      rw [randomlyTestConfigs_none S src sunken sunkenLocations (generateShipConfigs S) j hj
        hz] at hres
      exact Option.noConfusion hres

/-- Witness of C10: the board with the ships 0 to 3 sunk in the columns 0 to 3
and the length-5 ship left, searched exhaustively. -/
theorem coverage_count_is_recorded_sum_witness :
    ∃ V map,
      bruteForceTestConfigs sunkBoard sunkGame.sunken sunkGame.sunkenLocations
        (generateShipConfigs sunkBoard) (initializeHashmap (fun _ => 0)) = some (V, map) ∧
      ∀ i, moveFrequencies sunkGame.sunken (generateShipConfigs sunkBoard) map i =
        coverageOverAllShips (generateShipConfigs sunkBoard) map i :=
  (coverage_count_is_recorded_sum sunkBoard sunkGame.sunken sunkGame.sunkenLocations
    (fun _ => 0) sunkBoard_wellFormed sunkGame_marked).1 sunkGame_size

/-- After a search over the fleets `ts`, fewer than `2^31`, every coverage count
lies between 0 and the returned count of valid fleets, which is in the range of
an `int`: the inputs on which `calculateBestMove` is called. -/
theorem counts_in_range_of_searchState (S : Board) (sunken sunkenLocations : Nat → Nat)
    (cfgs : Configs)
    (hin : ∀ s, s < 5 → ∀ p ∈ candidates sunken sunkenLocations cfgs s, insideBoard s p)
    (hnodup : ∀ s, s < 5 → sunken s = 0 → (cfgs s).Nodup)
    (ts : List (Nat → Nat))
    (hmem : ∀ t ∈ ts, ∀ j, j < 5 → t j ∈ candidates sunken sunkenLocations cfgs j)
    (hlen : ts.length < 2147483648) (st : Int × Hashmap) (hst : searchState S ts st) :
    st.1 ≤ 2147483647 ∧
      ∀ j, 0 ≤ moveFrequencies sunken cfgs st.2 j ∧ moveFrequencies sunken cfgs st.2 j ≤ st.1 := by
  have hv := validCount_le_length S ts
  constructor
  · rw [hst.2.1]
    omega
  · intro j
    have hb := coveringCount_le_validCount S sunken j ts
    rw [coverage_of_searchState S sunken sunkenLocations cfgs hin hnodup ts hmem hlen st hst j,
      hst.2.1]
    exact ⟨Int.ofNat_nonneg _, by exact_mod_cast hb⟩

end Battleship
